import Mathlib

/-!
# Object-storage control plane: bucket policy and object lifecycle

A shallow embedding of `storage/server/services/object_service.go` and
`storage/server/bucket/bucket_service.go`.

Every service method becomes a function `St → Except Failure α × St`: the
state carries the metadata store (buckets, objects, scheduled jobs), the blob
store, and the log of collaborator calls issued so far.  The state is returned
on failure as well, so that what a failing call left behind can be stated.
The early `return` of the Go source is the `error` branch of a `match`.

Collaborators whose source is not part of the two services (the generated
object queries, the S3 client, the job client, the validators, the transaction
wrapper) are modelled from their description in the specification; each of
those definitions says so.  Unexpected collaborator failures are driven by the
environment `Env`, which also supplies what the outside world decides (the
grants issued by the blob store, the id the database generates, the clock).

The database-maintained bookkeeping columns (`version`, `created_at`,
`updated_at`) are not modelled.
-/

namespace Storage

/-! ## Errors -/

/-- Outcome kinds of a failing call: the six `srverr` kinds, and the Go runtime
panic raised when `*bucket.LockReason` is evaluated on a nil pointer. -/
inductive Failure where
  | InvalidInputError
  | NotFoundError
  | ConflictError
  | ForbiddenError
  | BadRequestError
  | UnknownError
  | NilPointerPanic
  deriving DecidableEq, Repr

/-- Errors a query of the persistence client returns: row not found, unique
violation, anything else. -/
inductive DbError where
  | notFound
  | conflict
  | other
  deriving DecidableEq, Repr

/-- The test `database.IsNotFoundError`. -/
def IsNotFoundError (e : DbError) : Bool := e == DbError.notFound

/-- The test `database.IsConflictError`. -/
def IsConflictError (e : DbError) : Bool := e == DbError.conflict

/-! ## Data model -/

/-- The three values of `models.ObjectUploadStatus*`. -/
inductive UploadStatus where
  | Pending
  | Completed
  | Failed
  deriving DecidableEq, Repr

/-- The constant `models.ObjectUploadStatusPending`. -/
abbrev ObjectUploadStatusPending : UploadStatus := UploadStatus.Pending

/-- The constant `models.ObjectUploadStatusCompleted`. -/
abbrev ObjectUploadStatusCompleted : UploadStatus := UploadStatus.Completed

/-- The constant `models.ObjectUploadStatusFailed`. -/
abbrev ObjectUploadStatusFailed : UploadStatus := UploadStatus.Failed

/-- The constant `DefaultContentType` of object_service.go. -/
def DefaultContentType : String := "application/octet-stream"

/-- A row of `storage.buckets` (`database.StorageBucket`, copied field by field
into `models.Bucket` / `entities.Bucket`). -/
structure StorageBucket where
  ID : String
  Name : String
  AllowedContentTypes : List String
  MaxAllowedObjectSize : Option Int
  Public : Bool
  Disabled : Bool
  Locked : Bool
  LockReason : Option String
  LockedAt : Option Int
  deriving DecidableEq, Repr

/-- The metadata document of an object: key/value pairs the core never reads. -/
abbrev Metadata := List (String × String)

/-- A row of `storage.objects`. -/
structure StorageObject where
  ID : String
  BucketID : String
  Name : String
  ContentType : String
  Size : Int
  Metadata : String
  UploadStatus : UploadStatus
  LastAccessedAt : Option Int
  deriving DecidableEq, Repr

/-- Result `models.Object`: an object row with its metadata decoded. -/
structure Object where
  Id : String
  BucketId : String
  Name : String
  ContentType : String
  Size : Int
  Metadata : Metadata
  UploadStatus : UploadStatus
  deriving DecidableEq, Repr

/-- The job `jobs.PreSignedObjectUploadCompletion` with the `ScheduledAt` of its
insert options (seconds since the epoch). -/
structure Job where
  BucketName : String
  ObjectName : String
  ObjectId : String
  ScheduledAt : Int
  deriving DecidableEq, Repr

/-- Request body `models.PreSignedUploadObjectCreate`; the pointer fields are
options. -/
structure PreSignedUploadObjectCreate where
  Name : String
  ExpiresIn : Option Int
  ContentType : Option String
  Size : Int
  Metadata : Metadata
  deriving DecidableEq, Repr

/-- The request `storage.PreSignedUploadObjectCreate` sent to the blob store. -/
structure StoragePreSignedUploadObjectCreate where
  Bucket : String
  Name : String
  ExpiresIn : Option Int
  ContentType : String
  Size : Int
  deriving DecidableEq, Repr

/-- A grant issued by the blob store. -/
structure PreSignedObject where
  Url : String
  Method : String
  ExpiresAt : Int
  deriving DecidableEq, Repr

/-- Result `models.PreSignedUploadObject`. -/
structure PreSignedUploadObject where
  Id : String
  Url : String
  Method : String
  ExpiresAt : Int
  deriving DecidableEq, Repr

/-- Result `models.PreSignedDownloadObject`. -/
structure PreSignedDownloadObject where
  Url : String
  Method : String
  ExpiresAt : Int
  deriving DecidableEq, Repr

/-- Parameters `database.CreateObjectParams`. -/
structure CreateObjectParams where
  BucketID : String
  Name : String
  ContentType : String
  Size : Int
  Metadata : String
  UploadStatus : UploadStatus
  deriving DecidableEq, Repr

/-- Parameters `database.CreateBucketParams`. -/
structure CreateBucketParams where
  ID : String
  Name : String
  AllowedContentTypes : List String
  MaxAllowedObjectSize : Option Int
  Public : Bool
  Disabled : Bool
  deriving DecidableEq, Repr

/-! ## State, environment and call log -/

/-- The statements of the persistence client, and the commit of a transaction. -/
inductive DbOp where
  | GetBucketByName
  | GetBucketById
  | CreateBucket
  | EnableBucket
  | DisableBucket
  | UpdateBucketAllowedContentTypes
  | UpdateBucket
  | DeleteBucket
  | GetObjectById
  | GetObjectByBucketIdAndName
  | SearchObjectsByPath
  | CreateObject
  | UpdateObjectUploadStatus
  | UpdateObjectLastAccessedAt
  | DeleteObject
  | InsertJob
  | Commit
  deriving DecidableEq, Repr

/-- One collaborator call, as logged. -/
inductive Call where
  | db (op : DbOp) (key : String)
  | dbSearch (bucketName objectPath : String) (level limit offset : Int)
  | storageUpload (req : StoragePreSignedUploadObjectCreate)
  | storageExists (bucket name : String) (result : Option Bool)
  | storageDownload (bucket name : String)
  | storageDelete (bucket name : String)
  | jobInsert (job : Job)
  deriving DecidableEq, Repr

/-- The transactional metadata store; the job table lives in the same database. -/
structure Db where
  buckets : List StorageBucket
  objects : List StorageObject
  jobs : List Job
  deriving DecidableEq, Repr

/-- The world a service call runs against. -/
structure St where
  db : Db
  blobs : List (String × String)
  trace : List Call
  deriving DecidableEq, Repr

/-- Append a call to the log. -/
def St.log (s : St) (c : Call) : St := { s with trace := s.trace ++ [c] }

/-- What the outside world decides during one service call. -/
structure Env where
  DefaultPreSignedUploadUrlExpiresIn : Int
  dbFails : DbOp → Bool
  presignUpload : StoragePreSignedUploadObjectCreate → Option PreSignedObject
  presignDownload : String → String → Option PreSignedObject
  checkExistsFails : Bool
  deleteFails : Bool
  marshal : Metadata → Option String
  unmarshal : String → Option Metadata
  newObjectId : String
  now : Int

/-- The calls logged between `s` and a later state `t`. -/
def newCalls (s t : St) : List Call := t.trace.drop s.trace.length

/-- The first object row with the given id. -/
def Db.object? (d : Db) (id : String) : Option StorageObject :=
  d.objects.find? (fun o => o.ID == id)

/-- The first bucket row with the given name. -/
def Db.bucketByName? (d : Db) (name : String) : Option StorageBucket :=
  d.buckets.find? (fun b => b.Name == name)

/-- The first bucket row with the given id. -/
def Db.bucketById? (d : Db) (id : String) : Option StorageBucket :=
  d.buckets.find? (fun b => b.ID == id)

/-! ## Validators -/

/-- Modelled from the spec: `validators.ValidateNotEmptyTrimmedString`, whose
source is not in the two services.  It answers `true` when the string is empty
or whitespace only, which is when its callers reject ("rejects
empty/whitespace-only name"). -/
def ValidateNotEmptyTrimmedString (s : String) : Bool :=
  s.toList.all Char.isWhitespace

/-- A character that may occur in a bucket name. -/
def bucketNameChar (c : Char) : Bool :=
  c.isAlphanum || c == '-' || c == '.'

/-- Modelled from the spec: `validateBucketName`, whose source is missing.  It
answers `true` when the name is NOT valid; a valid name "starts/ends
alphanumeric, interior may contain alphanumerics/hyphens/dots, length 3–63". -/
def validateBucketName (bucketName : String) : Bool :=
  let cs := bucketName.toList
  !(decide (3 ≤ cs.length) && decide (cs.length ≤ 63)
    && cs.head?.any Char.isAlphanum && cs.getLast?.any Char.isAlphanum
    && cs.all bucketNameChar)

/-- One half of a MIME pattern: the wildcard, or a non-empty token without an
embedded wildcard. -/
def mimeToken (cs : List Char) : Bool :=
  cs == ['*'] ||
    (!cs.isEmpty && cs.all (fun c => c.isAlphanum || c == '-' || c == '.' || c == '+' || c == '_'))

/-- Modelled from the spec: `validators.ValidateContentType`, whose source is
missing.  It answers `true` when the string is NOT a MIME pattern ("type,
subtype, or `*` in either half, no embedded wildcard beyond the recognized
forms"). -/
def ValidateContentType (contentType : String) : Bool :=
  let cs := contentType.toList
  match cs.dropWhile (fun c => c != '/') with
  | [] => true
  | _ :: sub => !(mimeToken (cs.takeWhile (fun c => c != '/')) && mimeToken sub)

/-- Modelled from the spec: `validators.ValidateAllowedContentTypes`, whose
source is missing: it "validates each content-type pattern against a
MIME-pattern grammar". -/
def ValidateAllowedContentTypes (contentTypes : List String) : Except Failure Unit :=
  if contentTypes.any ValidateContentType then Except.error Failure.InvalidInputError
  else Except.ok ()

/-- Modelled from the spec: `validators.ValidateMaxAllowedObjectSize`, whose
source is missing: it "validates `maxSize > 0`". -/
def ValidateMaxAllowedObjectSize (maxAllowedObjectSize : Int) : Except Failure Unit :=
  if maxAllowedObjectSize ≤ 0 then Except.error Failure.InvalidInputError else Except.ok ()

/-- The function `validateExpiration` of object_service.go. -/
def validateExpiration (expiresIn : Int) : Except String Unit :=
  if expiresIn ≤ 0 then Except.error "expires in must be greater than 0" else Except.ok ()

/-- The function `validateContentType` of object_service.go. -/
def validateContentType (contentType : String) : Except String Unit :=
  if ValidateContentType contentType then Except.error "invalid content type" else Except.ok ()

/-- The function `validateContentSize` of object_service.go. -/
def validateContentSize (size : Int) : Except String Unit :=
  if size ≤ 0 then Except.error "content size must be greater than 0" else Except.ok ()

/-- The function `metadataToBytes` of object_service.go; `json.Marshal` is the
environment's `marshal`. -/
def metadataToBytes (env : Env) (metadata : Metadata) : Except String String :=
  match env.marshal metadata with
  | none => Except.error "failed to marshal metadata to bytes"
  | some bytes => Except.ok bytes

/-- The function `bytesToMetadata` of object_service.go; `json.Unmarshal` is the
environment's `unmarshal`. -/
def bytesToMetadata (env : Env) (metadataBytes : String) : Except String Metadata :=
  match env.unmarshal metadataBytes with
  | none => Except.error "failed to unmarshal metadata from bytes"
  | some metadata => Except.ok metadata

/-! ## Persistence client (object and job statements) -/

/-- Modelled from the spec: the unit-of-work wrapper
`database.Transaction.WithTransaction`, whose source is missing: it "either
commits all writes or none".  The metadata store is restored when the body
fails or the commit does; the blob store and the call log are not. -/
def WithTransaction {α : Type} (env : Env) (fn : St → Except Failure α × St) (s : St) :
    Except Failure α × St :=
  match fn s with
  | (Except.error e, s1) => (Except.error e, { s1 with db := s.db })
  | (Except.ok a, s1) =>
    if env.dbFails DbOp.Commit then
      (Except.error Failure.UnknownError, { s1.log (Call.db DbOp.Commit "") with db := s.db })
    else (Except.ok a, s1.log (Call.db DbOp.Commit ""))

/-- The query `GetBucketByName` (`select ... where name = $1 limit 1`). -/
def Queries.GetBucketByName (env : Env) (name : String) (s : St) :
    Except DbError StorageBucket × St :=
  let s1 := s.log (Call.db DbOp.GetBucketByName name)
  if env.dbFails DbOp.GetBucketByName then (Except.error DbError.other, s1)
  else
    match s.db.bucketByName? name with
    | none => (Except.error DbError.notFound, s1)
    | some b => (Except.ok b, s1)

/-- Modelled from the spec: the query `GetObjectById`, whose source is missing
(a row-level read by id, "row-not-found" signalled distinctly). -/
def Queries.GetObjectById (env : Env) (id : String) (s : St) :
    Except DbError StorageObject × St :=
  let s1 := s.log (Call.db DbOp.GetObjectById id)
  if env.dbFails DbOp.GetObjectById then (Except.error DbError.other, s1)
  else
    match s.db.object? id with
    | none => (Except.error DbError.notFound, s1)
    | some o => (Except.ok o, s1)

/-- Modelled from the spec: the query `CreateObject`, whose source is missing.
It inserts one row and returns the id the database generated; the id and the
pair (bucket, name) are unique ("`name` unique within the owning bucket"), a
violation is signalled as a conflict. -/
def Queries.CreateObject (env : Env) (arg : CreateObjectParams) (s : St) :
    Except DbError String × St :=
  let s1 := s.log (Call.db DbOp.CreateObject arg.Name)
  if env.dbFails DbOp.CreateObject then (Except.error DbError.other, s1)
  else if s.db.objects.any
      (fun o => o.ID == env.newObjectId || (o.BucketID == arg.BucketID && o.Name == arg.Name)) then
    (Except.error DbError.conflict, s1)
  else
    let row : StorageObject :=
      { ID := env.newObjectId, BucketID := arg.BucketID, Name := arg.Name,
        ContentType := arg.ContentType, Size := arg.Size, Metadata := arg.Metadata,
        UploadStatus := arg.UploadStatus, LastAccessedAt := none }
    (Except.ok env.newObjectId, { s1 with db := { s1.db with objects := s1.db.objects ++ [row] } })

/-- What `update ... set upload_status = $2 where id = $1` does to one row. -/
def setUploadStatus (id : String) (status : UploadStatus) (o : StorageObject) : StorageObject :=
  if o.ID == id then { o with UploadStatus := status } else o

/-- What `update ... set last_accessed_at = now() where id = $1` does to one row. -/
def setLastAccessedAt (id : String) (now : Int) (o : StorageObject) : StorageObject :=
  if o.ID == id then { o with LastAccessedAt := some now } else o

/-- Modelled from the spec: the statement `UpdateObjectUploadStatus`, whose
source is missing (a plain row-level update by id). -/
def Queries.UpdateObjectUploadStatus (env : Env) (id : String) (status : UploadStatus) (s : St) :
    Except DbError Unit × St :=
  let s1 := s.log (Call.db DbOp.UpdateObjectUploadStatus id)
  if env.dbFails DbOp.UpdateObjectUploadStatus then (Except.error DbError.other, s1)
  else
    let rows := s1.db.objects.map (setUploadStatus id status)
    (Except.ok (), { s1 with db := { s1.db with objects := rows } })

/-- Modelled from the spec: the statement `UpdateObjectLastAccessedAt`, whose
source is missing (it sets `last_accessed_at` of the row to the current time). -/
def Queries.UpdateObjectLastAccessedAt (env : Env) (id : String) (s : St) :
    Except DbError Unit × St :=
  let s1 := s.log (Call.db DbOp.UpdateObjectLastAccessedAt id)
  if env.dbFails DbOp.UpdateObjectLastAccessedAt then (Except.error DbError.other, s1)
  else
    let rows := s1.db.objects.map (setLastAccessedAt id env.now)
    (Except.ok (), { s1 with db := { s1.db with objects := rows } })

/-- Modelled from the spec: the statement `DeleteObject`, whose source is
missing (a plain row-level delete by id). -/
def Queries.DeleteObject (env : Env) (id : String) (s : St) : Except DbError Unit × St :=
  let s1 := s.log (Call.db DbOp.DeleteObject id)
  if env.dbFails DbOp.DeleteObject then (Except.error DbError.other, s1)
  else
    let rows := s1.db.objects.filter (fun o => !(o.ID == id))
    (Except.ok (), { s1 with db := { s1.db with objects := rows } })

/-- Modelled from the spec: the task scheduler's `InsertTx`, whose source is
missing: `schedule(taskPayload, runAt)`, written through the transaction. -/
def JobClient.InsertTx (env : Env) (job : Job) (s : St) : Except DbError Unit × St :=
  let s1 := s.log (Call.jobInsert job)
  if env.dbFails DbOp.InsertJob then (Except.error DbError.other, s1)
  else (Except.ok (), { s1 with db := { s1.db with jobs := s1.db.jobs ++ [job] } })

/-! ## Blob store client -/

/-- Modelled from the spec: `S3Storage.CreatePreSignedUploadObject`, whose
source is missing: `presignUpload(...) → {url, method, expiresAt}`. -/
def S3Storage.CreatePreSignedUploadObject (env : Env) (req : StoragePreSignedUploadObjectCreate)
    (s : St) : Except Unit PreSignedObject × St :=
  let s1 := s.log (Call.storageUpload req)
  match env.presignUpload req with
  | none => (Except.error (), s1)
  | some g => (Except.ok g, s1)

/-- Modelled from the spec: `S3Storage.CheckIfObjectExists`, whose source is
missing: `exists(bucket, name) → bool`. -/
def S3Storage.CheckIfObjectExists (env : Env) (bucket name : String) (s : St) :
    Except Unit Bool × St :=
  if env.checkExistsFails then (Except.error (), s.log (Call.storageExists bucket name none))
  else
    (Except.ok (s.blobs.contains (bucket, name)),
      s.log (Call.storageExists bucket name (some (s.blobs.contains (bucket, name)))))

/-- Modelled from the spec: `S3Storage.CreatePreSignedDownloadObject`, whose
source is missing: `presignDownload(bucket, name) → {url, method, expiresAt}`. -/
def S3Storage.CreatePreSignedDownloadObject (env : Env) (bucket name : String) (s : St) :
    Except Unit PreSignedObject × St :=
  let s1 := s.log (Call.storageDownload bucket name)
  match env.presignDownload bucket name with
  | none => (Except.error (), s1)
  | some g => (Except.ok g, s1)

/-- Modelled from the spec: `S3Storage.DeleteObject`, whose source is missing:
`delete(bucket, name) → ok/error`. -/
def S3Storage.DeleteObject (env : Env) (bucket name : String) (s : St) : Except Unit Unit × St :=
  let s1 := s.log (Call.storageDelete bucket name)
  if env.deleteFails then (Except.error (), s1)
  else (Except.ok (), { s1 with blobs := s1.blobs.filter (fun b => !(b == (bucket, name))) })

/-! ## ObjectService -/

/-- The method `ObjectService.getBucketByNameTxn`: resolve a bucket by name
inside a transaction; a disabled or locked bucket is refused. -/
def ObjectService.getBucketByNameTxn (env : Env) (bucketName : String) (s : St) :
    Except Failure StorageBucket × St :=
  if ValidateNotEmptyTrimmedString bucketName then (Except.error Failure.InvalidInputError, s)
  else if validateBucketName bucketName then (Except.error Failure.InvalidInputError, s)
  else
    match Queries.GetBucketByName env bucketName s with
    | (Except.error err, s1) =>
      if IsNotFoundError err then (Except.error Failure.NotFoundError, s1)
      else (Except.error Failure.UnknownError, s1)
    | (Except.ok bucket, s1) =>
      if bucket.Disabled then (Except.error Failure.ForbiddenError, s1)
      else if bucket.Locked then
        match bucket.LockReason with
        | none => (Except.error Failure.NilPointerPanic, s1)
        | some _ => (Except.error Failure.ForbiddenError, s1)
      else (Except.ok bucket, s1)

/-- The method `ObjectService.getBucketByName`: the same lookup outside a
transaction. -/
def ObjectService.getBucketByName (env : Env) (bucketName : String) (s : St) :
    Except Failure StorageBucket × St :=
  if ValidateNotEmptyTrimmedString bucketName then (Except.error Failure.InvalidInputError, s)
  else if validateBucketName bucketName then (Except.error Failure.InvalidInputError, s)
  else
    match Queries.GetBucketByName env bucketName s with
    | (Except.error err, s1) =>
      if IsNotFoundError err then (Except.error Failure.NotFoundError, s1)
      else (Except.error Failure.UnknownError, s1)
    | (Except.ok bucket, s1) =>
      if bucket.Disabled then (Except.error Failure.ForbiddenError, s1)
      else if bucket.Locked then
        match bucket.LockReason with
        | none => (Except.error Failure.NilPointerPanic, s1)
        | some _ => (Except.error Failure.ForbiddenError, s1)
      else (Except.ok bucket, s1)

/-- Lines 61-68 of `CreatePreSignedUploadObject`: the expiry is the configured
default when none is supplied, and is validated otherwise. -/
def ObjectService.CreatePreSignedUploadObject.expiresIn (env : Env)
    (preSignedUploadObjectCreate : PreSignedUploadObjectCreate) : Except Failure Int :=
  match preSignedUploadObjectCreate.ExpiresIn with
  | none => Except.ok env.DefaultPreSignedUploadUrlExpiresIn
  | some expiresIn =>
    match validateExpiration expiresIn with
    | Except.error _ => Except.error Failure.InvalidInputError
    | Except.ok _ => Except.ok expiresIn

/-- Lines 70-78 of `CreatePreSignedUploadObject`: the content type is
`DefaultContentType` when none is supplied, and is validated otherwise. -/
def ObjectService.CreatePreSignedUploadObject.contentType
    (preSignedUploadObjectCreate : PreSignedUploadObjectCreate) : Except Failure String :=
  match preSignedUploadObjectCreate.ContentType with
  | none => Except.ok DefaultContentType
  | some contentType =>
    match validateContentType contentType with
    | Except.error _ => Except.error Failure.InvalidInputError
    | Except.ok _ => Except.ok contentType

/-- The function passed to `WithTransaction` by `CreatePreSignedUploadObject`
(lines 55-131); it yields the new object id and the grant, which the Go
closure writes to the captured variables `id` and `preSignedObject`. -/
def ObjectService.CreatePreSignedUploadObject.txn (env : Env) (bucketName : String)
    (preSignedUploadObjectCreate : PreSignedUploadObjectCreate) (s : St) :
    Except Failure (String × PreSignedObject) × St :=
  match ObjectService.getBucketByNameTxn env bucketName s with
  | (Except.error e, s1) => (Except.error e, s1)
  | (Except.ok bucket, s1) =>
    match ObjectService.CreatePreSignedUploadObject.expiresIn env preSignedUploadObjectCreate with
    | Except.error e => (Except.error e, s1)
    | Except.ok expiresIn =>
      match ObjectService.CreatePreSignedUploadObject.contentType preSignedUploadObjectCreate with
      | Except.error e => (Except.error e, s1)
      | Except.ok contentType =>
        match validateContentSize preSignedUploadObjectCreate.Size with
        | Except.error _ => (Except.error Failure.InvalidInputError, s1)
        | Except.ok _ =>
          match S3Storage.CreatePreSignedUploadObject env
              { Bucket := bucket.Name, Name := preSignedUploadObjectCreate.Name,
                ExpiresIn := some expiresIn, ContentType := contentType,
                Size := preSignedUploadObjectCreate.Size } s1 with
          | (Except.error _, s2) => (Except.error Failure.UnknownError, s2)
          | (Except.ok preSignedObject, s2) =>
            match metadataToBytes env preSignedUploadObjectCreate.Metadata with
            | Except.error _ => (Except.error Failure.UnknownError, s2)
            | Except.ok metadataBytes =>
              match Queries.CreateObject env
                  { BucketID := bucket.ID, Name := preSignedUploadObjectCreate.Name,
                    ContentType := contentType, Size := preSignedUploadObjectCreate.Size,
                    Metadata := metadataBytes, UploadStatus := ObjectUploadStatusPending } s2 with
              | (Except.error err, s3) =>
                if IsConflictError err then (Except.error Failure.ConflictError, s3)
                else (Except.error Failure.UnknownError, s3)
              | (Except.ok id, s3) =>
                match JobClient.InsertTx env
                    { BucketName := bucket.Name, ObjectName := preSignedUploadObjectCreate.Name,
                      ObjectId := id, ScheduledAt := preSignedObject.ExpiresAt } s3 with
                | (Except.error _, s4) => (Except.error Failure.UnknownError, s4)
                | (Except.ok _, s4) => (Except.ok (id, preSignedObject), s4)

/-- The method `ObjectService.CreatePreSignedUploadObject`. -/
def ObjectService.CreatePreSignedUploadObject (env : Env) (bucketName : String)
    (preSignedUploadObjectCreate : PreSignedUploadObjectCreate) (s : St) :
    Except Failure PreSignedUploadObject × St :=
  if ValidateNotEmptyTrimmedString bucketName then (Except.error Failure.InvalidInputError, s)
  else
    match WithTransaction env
        (ObjectService.CreatePreSignedUploadObject.txn env bucketName preSignedUploadObjectCreate)
        s with
    | (Except.error e, s1) => (Except.error e, s1)
    | (Except.ok (id, preSignedObject), s1) =>
      (Except.ok { Id := id, Url := preSignedObject.Url, Method := preSignedObject.Method,
                   ExpiresAt := preSignedObject.ExpiresAt }, s1)

/-- The method `ObjectService.CompletePreSignedObjectUpload`; it runs outside a
transaction. -/
def ObjectService.CompletePreSignedObjectUpload (env : Env) (bucketName objectId : String)
    (s : St) : Except Failure Unit × St :=
  if ValidateNotEmptyTrimmedString bucketName then (Except.error Failure.InvalidInputError, s)
  else if ValidateNotEmptyTrimmedString objectId then (Except.error Failure.InvalidInputError, s)
  else
    match ObjectService.getBucketByName env bucketName s with
    | (Except.error e, s1) => (Except.error e, s1)
    | (Except.ok bucket, s1) =>
      match Queries.GetObjectById env objectId s1 with
      | (Except.error err, s2) =>
        if IsNotFoundError err then (Except.error Failure.NotFoundError, s2)
        else (Except.error Failure.UnknownError, s2)
      | (Except.ok object, s2) =>
        match object.UploadStatus with
        | UploadStatus.Completed => (Except.error Failure.InvalidInputError, s2)
        | UploadStatus.Failed => (Except.error Failure.InvalidInputError, s2)
        | UploadStatus.Pending =>
          match S3Storage.CheckIfObjectExists env bucket.Name object.Name s2 with
          | (Except.error _, s3) => (Except.error Failure.UnknownError, s3)
          | (Except.ok objectExists, s3) =>
            if objectExists then
              match Queries.UpdateObjectUploadStatus env object.ID ObjectUploadStatusCompleted s3 with
              | (Except.error _, s4) => (Except.error Failure.UnknownError, s4)
              | (Except.ok _, s4) => (Except.ok (), s4)
            else (Except.error Failure.NotFoundError, s3)

/-- The function passed to `WithTransaction` by `CreatePreSignedDownloadObject`
(lines 214-284). -/
def ObjectService.CreatePreSignedDownloadObject.txn (env : Env) (bucketName objectId : String)
    (expiresIn : Int) (s : St) : Except Failure PreSignedDownloadObject × St :=
  match ObjectService.getBucketByNameTxn env bucketName s with
  | (Except.error e, s1) => (Except.error e, s1)
  | (Except.ok bucket, s1) =>
    match Queries.GetObjectById env objectId s1 with
    | (Except.error err, s2) =>
      if IsNotFoundError err then (Except.error Failure.NotFoundError, s2)
      else (Except.error Failure.UnknownError, s2)
    | (Except.ok object, s2) =>
      let probe : Except Failure Unit × St :=
        if object.UploadStatus != ObjectUploadStatusCompleted then
          match S3Storage.CheckIfObjectExists env bucket.Name object.Name s2 with
          | (Except.error _, s3) => (Except.error Failure.UnknownError, s3)
          | (Except.ok objectExists, s3) =>
            if objectExists then
              match Queries.UpdateObjectUploadStatus env object.ID ObjectUploadStatusCompleted s3 with
              | (Except.error _, s4) => (Except.error Failure.UnknownError, s4)
              | (Except.ok _, s4) => (Except.ok (), s4)
            else (Except.error Failure.NotFoundError, s3)
        else (Except.ok (), s2)
      match probe with
      | (Except.error e, s3) => (Except.error e, s3)
      | (Except.ok _, s3) =>
        let expires : Except Failure Int :=
          if expiresIn == 0 then Except.ok env.DefaultPreSignedUploadUrlExpiresIn
          else
            match validateExpiration expiresIn with
            | Except.error _ => Except.error Failure.InvalidInputError
            | Except.ok _ => Except.ok expiresIn
        match expires with
        | Except.error e => (Except.error e, s3)
        | Except.ok _ =>
          match S3Storage.CreatePreSignedDownloadObject env bucket.Name object.Name s3 with
          | (Except.error _, s4) => (Except.error Failure.UnknownError, s4)
          | (Except.ok preSignedObject, s4) =>
            match Queries.UpdateObjectLastAccessedAt env object.ID s4 with
            | (Except.error _, s5) => (Except.error Failure.UnknownError, s5)
            | (Except.ok _, s5) =>
              (Except.ok { Url := preSignedObject.Url, Method := preSignedObject.Method,
                           ExpiresAt := preSignedObject.ExpiresAt }, s5)

/-- The method `ObjectService.CreatePreSignedDownloadObject`. -/
def ObjectService.CreatePreSignedDownloadObject (env : Env) (bucketName objectId : String)
    (expiresIn : Int) (s : St) : Except Failure PreSignedDownloadObject × St :=
  if ValidateNotEmptyTrimmedString bucketName then (Except.error Failure.InvalidInputError, s)
  else if ValidateNotEmptyTrimmedString objectId then (Except.error Failure.InvalidInputError, s)
  else
    WithTransaction env
      (ObjectService.CreatePreSignedDownloadObject.txn env bucketName objectId expiresIn) s

/-- The function passed to `WithTransaction` by `DeleteObject` (lines 303-338). -/
def ObjectService.DeleteObject.txn (env : Env) (bucketName objectId : String) (s : St) :
    Except Failure Unit × St :=
  match ObjectService.getBucketByNameTxn env bucketName s with
  | (Except.error e, s1) => (Except.error e, s1)
  | (Except.ok bucket, s1) =>
    match Queries.GetObjectById env objectId s1 with
    | (Except.error err, s2) =>
      if IsNotFoundError err then (Except.error Failure.NotFoundError, s2)
      else (Except.error Failure.UnknownError, s2)
    | (Except.ok object, s2) =>
      if object.UploadStatus != ObjectUploadStatusCompleted then
        (Except.error Failure.InvalidInputError, s2)
      else
        match S3Storage.DeleteObject env bucket.Name object.Name s2 with
        | (Except.error _, s3) => (Except.error Failure.UnknownError, s3)
        | (Except.ok _, s3) =>
          match Queries.DeleteObject env object.ID s3 with
          | (Except.error _, s4) => (Except.error Failure.UnknownError, s4)
          | (Except.ok _, s4) => (Except.ok (), s4)

/-- The method `ObjectService.DeleteObject`. -/
def ObjectService.DeleteObject (env : Env) (bucketName objectId : String) (s : St) :
    Except Failure Unit × St :=
  if ValidateNotEmptyTrimmedString bucketName then (Except.error Failure.InvalidInputError, s)
  else if ValidateNotEmptyTrimmedString objectId then (Except.error Failure.InvalidInputError, s)
  else WithTransaction env (ObjectService.DeleteObject.txn env bucketName objectId) s

/-- Modelled from the spec: the query `GetObjectByBucketIdAndName`, whose source
is missing (a row-level read by owning bucket and name). -/
def Queries.GetObjectByBucketIdAndName (env : Env) (bucketID name : String) (s : St) :
    Except DbError StorageObject × St :=
  let s1 := s.log (Call.db DbOp.GetObjectByBucketIdAndName name)
  if env.dbFails DbOp.GetObjectByBucketIdAndName then (Except.error DbError.other, s1)
  else
    match s.db.objects.find? (fun o => o.BucketID == bucketID && o.Name == name) with
    | none => (Except.error DbError.notFound, s1)
    | some o => (Except.ok o, s1)

/-- An object name lies under a path, at most `level` segments deep: the path
starts the name and fewer than `level` separators follow it. -/
def underPath (objectPath : String) (level : Int) (name : String) : Bool :=
  objectPath.toList.isPrefixOf name.toList &&
    decide (((name.toList.drop objectPath.toList.length).count '/' : Int) < level)

/-- Modelled from the spec: the query `SearchObjectsByPath`, whose source is
missing.  It "treats object names as slash-delimited paths and returns entries
under a prefix up to a bounded depth", paginated by limit and offset; it is a
plain query over the objects of the bucket with the given name and does not
look at the state of the bucket. -/
def Queries.SearchObjectsByPath (env : Env) (bucketName objectPath : String)
    (level limit offset : Int) (s : St) : Except DbError (List StorageObject) × St :=
  let s1 := s.log (Call.dbSearch bucketName objectPath level limit offset)
  if env.dbFails DbOp.SearchObjectsByPath then (Except.error DbError.other, s1)
  else
    let rows := s.db.objects.filter
      (fun o => s.db.buckets.any (fun b => b.Name == bucketName && b.ID == o.BucketID)
        && underPath objectPath level o.Name)
    (Except.ok ((rows.drop offset.toNat).take limit.toNat), s1)

/-- The method `ObjectService.GetObjectById`; the source looks the object up by
(bucket id, name), passing `objectId` as the name. -/
def ObjectService.GetObjectById (env : Env) (bucketName objectId : String) (s : St) :
    Except Failure Object × St :=
  if ValidateNotEmptyTrimmedString objectId then (Except.error Failure.InvalidInputError, s)
  else if ValidateNotEmptyTrimmedString bucketName then
    (Except.error Failure.InvalidInputError, s)
  else
    match ObjectService.getBucketByName env bucketName s with
    | (Except.error e, s1) => (Except.error e, s1)
    | (Except.ok bucket, s1) =>
      match Queries.GetObjectByBucketIdAndName env bucket.ID objectId s1 with
      | (Except.error err, s2) =>
        if IsNotFoundError err then (Except.error Failure.NotFoundError, s2)
        else (Except.error Failure.UnknownError, s2)
      | (Except.ok object, s2) =>
        match bytesToMetadata env object.Metadata with
        | Except.error _ => (Except.error Failure.UnknownError, s2)
        | Except.ok metadataMap =>
          (Except.ok { Id := object.ID, BucketId := object.BucketID, Name := object.Name,
                       ContentType := object.ContentType, Size := object.Size,
                       Metadata := metadataMap, UploadStatus := object.UploadStatus }, s2)

/-- The method `ObjectService.SearchObjectsByBucketNameAndObjectPath`; a row
whose metadata does not decode is returned with the nil map. -/
def ObjectService.SearchObjectsByBucketNameAndObjectPath (env : Env)
    (bucketName objectPath : String) (level limit offset : Int) (s : St) :
    Except Failure (List Object) × St :=
  if ValidateNotEmptyTrimmedString bucketName then (Except.error Failure.InvalidInputError, s)
  else if ValidateNotEmptyTrimmedString objectPath then
    (Except.error Failure.InvalidInputError, s)
  else if level < 0 then (Except.error Failure.InvalidInputError, s)
  else if limit < 0 then (Except.error Failure.InvalidInputError, s)
  else if offset < 0 then (Except.error Failure.InvalidInputError, s)
  else
    let level1 := if level == 0 then 1 else level
    let limit1 := if limit == 0 then 100 else limit
    match Queries.SearchObjectsByPath env bucketName objectPath level1 limit1 offset s with
    | (Except.error _, s1) => (Except.error Failure.UnknownError, s1)
    | (Except.ok objects, s1) =>
      if objects.length == 0 then (Except.error Failure.NotFoundError, s1)
      else
        (Except.ok (objects.map (fun object =>
          { Id := object.ID, BucketId := object.BucketID, Name := object.Name,
            ContentType := object.ContentType, Size := object.Size,
            Metadata :=
              match bytesToMetadata env object.Metadata with
              | Except.error _ => []
              | Except.ok metadataMap => metadataMap,
            UploadStatus := object.UploadStatus })), s1)

/-! ## Persistence client (bucket statements) -/

/-- The query `GetBucketById` (`select ... where id = $1 limit 1`). -/
def Queries.GetBucketById (env : Env) (id : String) (s : St) :
    Except DbError StorageBucket × St :=
  let s1 := s.log (Call.db DbOp.GetBucketById id)
  if env.dbFails DbOp.GetBucketById then (Except.error DbError.other, s1)
  else
    match s.db.bucketById? id with
    | none => (Except.error DbError.notFound, s1)
    | some b => (Except.ok b, s1)

/-- The statement `CreateBucket` (`insert into storage.buckets ...`); id and
name are unique, the lock columns take their defaults. -/
def Queries.CreateBucket (env : Env) (arg : CreateBucketParams) (s : St) :
    Except DbError Unit × St :=
  let s1 := s.log (Call.db DbOp.CreateBucket arg.ID)
  if env.dbFails DbOp.CreateBucket then (Except.error DbError.other, s1)
  else if s.db.buckets.any (fun b => b.ID == arg.ID || b.Name == arg.Name) then
    (Except.error DbError.conflict, s1)
  else
    let row : StorageBucket :=
      { ID := arg.ID, Name := arg.Name, AllowedContentTypes := arg.AllowedContentTypes,
        MaxAllowedObjectSize := arg.MaxAllowedObjectSize, Public := arg.Public,
        Disabled := arg.Disabled, Locked := false, LockReason := none, LockedAt := none }
    (Except.ok (), { s1 with db := { s1.db with buckets := s1.db.buckets ++ [row] } })

/-- The statement `EnableBucket` (`set disabled = false where id = $1`). -/
def Queries.EnableBucket (env : Env) (id : String) (s : St) : Except DbError Unit × St :=
  let s1 := s.log (Call.db DbOp.EnableBucket id)
  if env.dbFails DbOp.EnableBucket then (Except.error DbError.other, s1)
  else
    let rows := s1.db.buckets.map (fun b => if b.ID == id then { b with Disabled := false } else b)
    (Except.ok (), { s1 with db := { s1.db with buckets := rows } })

/-- The statement `DisableBucket` (`set disabled = true where id = $1`). -/
def Queries.DisableBucket (env : Env) (id : String) (s : St) : Except DbError Unit × St :=
  let s1 := s.log (Call.db DbOp.DisableBucket id)
  if env.dbFails DbOp.DisableBucket then (Except.error DbError.other, s1)
  else
    let rows := s1.db.buckets.map (fun b => if b.ID == id then { b with Disabled := true } else b)
    (Except.ok (), { s1 with db := { s1.db with buckets := rows } })

/-- Modelled from the spec: the statement `UpdateBucketAllowedContentTypes`,
whose source is missing (a plain row-level update by id). -/
def Queries.UpdateBucketAllowedContentTypes (env : Env) (id : String)
    (allowedContentTypes : List String) (s : St) : Except DbError Unit × St :=
  let s1 := s.log (Call.db DbOp.UpdateBucketAllowedContentTypes id)
  if env.dbFails DbOp.UpdateBucketAllowedContentTypes then (Except.error DbError.other, s1)
  else
    let rows := s1.db.buckets.map
      (fun b => if b.ID == id then { b with AllowedContentTypes := allowedContentTypes } else b)
    (Except.ok (), { s1 with db := { s1.db with buckets := rows } })

/-- Modelled from the spec: the statement `UpdateBucket`, whose source is
missing (a plain row-level update by id of the size ceiling and the public
flag). -/
def Queries.UpdateBucket (env : Env) (id : String) (maxAllowedObjectSize : Option Int)
    (isPublic : Bool) (s : St) : Except DbError Unit × St :=
  let s1 := s.log (Call.db DbOp.UpdateBucket id)
  if env.dbFails DbOp.UpdateBucket then (Except.error DbError.other, s1)
  else
    let rows := s1.db.buckets.map
      (fun b => if b.ID == id then
        { b with MaxAllowedObjectSize := maxAllowedObjectSize, Public := isPublic } else b)
    (Except.ok (), { s1 with db := { s1.db with buckets := rows } })

/-- The statement `DeleteBucket` (`delete from storage.buckets where id = $1`);
the objects of the bucket go with it ("objects deleted when bucket is
deleted"). -/
def Queries.DeleteBucket (env : Env) (id : String) (s : St) : Except DbError Unit × St :=
  let s1 := s.log (Call.db DbOp.DeleteBucket id)
  if env.dbFails DbOp.DeleteBucket then (Except.error DbError.other, s1)
  else
    let rows := s1.db.buckets.filter (fun b => !(b.ID == id))
    let objs := s1.db.objects.filter (fun o => !(o.BucketID == id))
    (Except.ok (), { s1 with db := { s1.db with buckets := rows, objects := objs } })

/-! ## BucketService -/

/-- Request body `dto.BucketCreate`; a nil slice or pointer is `none`. -/
structure BucketCreate where
  Id : String
  Name : String
  AllowedContentTypes : Option (List String)
  MaxAllowedObjectSize : Option Int
  Public : Bool
  Disabled : Bool
  deriving DecidableEq, Repr

/-- Request body `dto.BucketUpdate`. -/
structure BucketUpdate where
  MaxAllowedObjectSize : Option Int
  Public : Option Bool
  deriving DecidableEq, Repr

/-- The helper `lo.Contains`. -/
def Contains (collection : List String) (element : String) : Bool :=
  collection.any (fun item => item == element)

/-- The loop of `lo.Uniq`: `result` holds the elements kept so far, in order. -/
def UniqLoop : List String → List String → List String
  | result, [] => result
  | result, item :: rest =>
    if Contains result item then UniqLoop result rest else UniqLoop (result ++ [item]) rest

/-- The helper `lo.Uniq`: the first occurrence of every element, in order. -/
def Uniq (collection : List String) : List String := UniqLoop [] collection

/-- The method `BucketService.getBucketByIdTxn`. -/
def BucketService.getBucketByIdTxn (env : Env) (id : String) (s : St) :
    Except Failure StorageBucket × St :=
  match Queries.GetBucketById env id s with
  | (Except.error err, s1) =>
    if IsNotFoundError err then (Except.error Failure.NotFoundError, s1)
    else (Except.error Failure.UnknownError, s1)
  | (Except.ok bucket, s1) => (Except.ok bucket, s1)

/-- The method `BucketService.GetBucketById`. -/
def BucketService.GetBucketById (env : Env) (id : String) (s : St) :
    Except Failure StorageBucket × St :=
  if ValidateNotEmptyTrimmedString id then (Except.error Failure.InvalidInputError, s)
  else
    match Queries.GetBucketById env id s with
    | (Except.error err, s1) =>
      if IsNotFoundError err then (Except.error Failure.NotFoundError, s1)
      else (Except.error Failure.UnknownError, s1)
    | (Except.ok bucket, s1) => (Except.ok bucket, s1)

/-- The guard shared by the mutating bucket methods: a disabled bucket is
refused, then a locked one (whose lock reason is dereferenced for the
message). -/
def BucketService.guard (bucket : StorageBucket) : Except Failure Unit :=
  if bucket.Disabled then Except.error Failure.ForbiddenError
  else if bucket.Locked then
    match bucket.LockReason with
    | none => Except.error Failure.NilPointerPanic
    | some _ => Except.error Failure.ForbiddenError
  else Except.ok ()

/-- The method `BucketService.CreateBucket`.  The error of the final
`GetBucketById` is returned unwrapped by the source; it is no service error and
appears here as `UnknownError`. -/
def BucketService.CreateBucket (env : Env) (bucketCreate : BucketCreate) (s : St) :
    Except Failure StorageBucket × St :=
  if ValidateNotEmptyTrimmedString bucketCreate.Name then
    (Except.error Failure.InvalidInputError, s)
  else
    let allowed : Except Failure (List String) :=
      match bucketCreate.AllowedContentTypes with
      | some contentTypes =>
        match ValidateAllowedContentTypes contentTypes with
        | Except.error err => Except.error err
        | Except.ok _ => Except.ok contentTypes
      | none => Except.ok ["*/*"]
    match allowed with
    | Except.error err => (Except.error err, s)
    | Except.ok allowedContentTypes =>
      let size : Except Failure Unit :=
        match bucketCreate.MaxAllowedObjectSize with
        | some maxAllowedObjectSize => ValidateMaxAllowedObjectSize maxAllowedObjectSize
        | none => Except.ok ()
      match size with
      | Except.error err => (Except.error err, s)
      | Except.ok _ =>
        match Queries.CreateBucket env
            { ID := bucketCreate.Id, Name := bucketCreate.Name,
              AllowedContentTypes := allowedContentTypes,
              MaxAllowedObjectSize := bucketCreate.MaxAllowedObjectSize,
              Public := bucketCreate.Public, Disabled := bucketCreate.Disabled } s with
        | (Except.error err, s1) =>
          if IsConflictError err then (Except.error Failure.ConflictError, s1)
          else (Except.error Failure.UnknownError, s1)
        | (Except.ok _, s1) =>
          match Queries.GetBucketById env bucketCreate.Id s1 with
          | (Except.error _, s2) => (Except.error Failure.UnknownError, s2)
          | (Except.ok bucket, s2) => (Except.ok bucket, s2)

/-- The function passed to `WithTransaction` by `EnableBucket`. -/
def BucketService.EnableBucket.txn (env : Env) (id : String) (s : St) :
    Except Failure Unit × St :=
  match BucketService.getBucketByIdTxn env id s with
  | (Except.error e, s1) => (Except.error e, s1)
  | (Except.ok bucket, s1) =>
    if bucket.Disabled then
      match Queries.EnableBucket env id s1 with
      | (Except.error _, s2) => (Except.error Failure.UnknownError, s2)
      | (Except.ok _, s2) => (Except.ok (), s2)
    else (Except.error Failure.BadRequestError, s1)

/-- The method `BucketService.EnableBucket`. -/
def BucketService.EnableBucket (env : Env) (id : String) (s : St) :
    Except Failure StorageBucket × St :=
  if ValidateNotEmptyTrimmedString id then (Except.error Failure.InvalidInputError, s)
  else
    match WithTransaction env (BucketService.EnableBucket.txn env id) s with
    | (Except.error e, s1) => (Except.error e, s1)
    | (Except.ok _, s1) => BucketService.GetBucketById env id s1

/-- The function passed to `WithTransaction` by `DisableBucket`. -/
def BucketService.DisableBucket.txn (env : Env) (id : String) (s : St) :
    Except Failure Unit × St :=
  match BucketService.getBucketByIdTxn env id s with
  | (Except.error e, s1) => (Except.error e, s1)
  | (Except.ok bucket, s1) =>
    if !bucket.Disabled then
      match Queries.DisableBucket env id s1 with
      | (Except.error _, s2) => (Except.error Failure.UnknownError, s2)
      | (Except.ok _, s2) => (Except.ok (), s2)
    else (Except.error Failure.BadRequestError, s1)

/-- The method `BucketService.DisableBucket`. -/
def BucketService.DisableBucket (env : Env) (id : String) (s : St) :
    Except Failure StorageBucket × St :=
  if ValidateNotEmptyTrimmedString id then (Except.error Failure.InvalidInputError, s)
  else
    match WithTransaction env (BucketService.DisableBucket.txn env id) s with
    | (Except.error e, s1) => (Except.error e, s1)
    | (Except.ok _, s1) => BucketService.GetBucketById env id s1

/-- The function passed to `WithTransaction` by `AddAllowedContentTypesToBucket`;
`addContentTypes` is the field `AddContentTypes` of the request, `none` for a
nil slice. -/
def BucketService.AddAllowedContentTypesToBucket.txn (env : Env) (id : String)
    (addContentTypes : Option (List String)) (s : St) : Except Failure Unit × St :=
  match BucketService.getBucketByIdTxn env id s with
  | (Except.error e, s1) => (Except.error e, s1)
  | (Except.ok bucket, s1) =>
    match BucketService.guard bucket with
    | Except.error e => (Except.error e, s1)
    | Except.ok _ =>
      match addContentTypes with
      | none => (Except.error Failure.InvalidInputError, s1)
      | some added =>
        if Contains added "*/*" then (Except.error Failure.InvalidInputError, s1)
        else
          match ValidateAllowedContentTypes added with
          | Except.error _ => (Except.error Failure.InvalidInputError, s1)
          | Except.ok _ =>
            let base := if Contains bucket.AllowedContentTypes "*/*" then [] else bucket.AllowedContentTypes
            match Queries.UpdateBucketAllowedContentTypes env bucket.ID (Uniq (base ++ added)) s1 with
            | (Except.error _, s2) => (Except.error Failure.UnknownError, s2)
            | (Except.ok _, s2) => (Except.ok (), s2)

/-- The method `BucketService.AddAllowedContentTypesToBucket`. -/
def BucketService.AddAllowedContentTypesToBucket (env : Env) (id : String)
    (addContentTypes : Option (List String)) (s : St) : Except Failure StorageBucket × St :=
  if ValidateNotEmptyTrimmedString id then (Except.error Failure.InvalidInputError, s)
  else
    match WithTransaction env
        (BucketService.AddAllowedContentTypesToBucket.txn env id addContentTypes) s with
    | (Except.error e, s1) => (Except.error e, s1)
    | (Except.ok _, s1) => BucketService.GetBucketById env id s1

/-- The function passed to `WithTransaction` by `RemoveContentTypesFromBucket`;
`removeContentTypes` is the field `RemoveContentTypes` of the request. -/
def BucketService.RemoveContentTypesFromBucket.txn (env : Env) (id : String)
    (removeContentTypes : Option (List String)) (s : St) : Except Failure Unit × St :=
  match BucketService.getBucketByIdTxn env id s with
  | (Except.error e, s1) => (Except.error e, s1)
  | (Except.ok bucket, s1) =>
    match BucketService.guard bucket with
    | Except.error e => (Except.error e, s1)
    | Except.ok _ =>
      match removeContentTypes with
      | none => (Except.error Failure.InvalidInputError, s1)
      | some removed =>
        match ValidateAllowedContentTypes removed with
        | Except.error _ => (Except.error Failure.InvalidInputError, s1)
        | Except.ok _ =>
          let allowed :=
            if Contains removed "*/*" then []
            else bucket.AllowedContentTypes.filter (fun contentType => !Contains removed contentType)
          match Queries.UpdateBucketAllowedContentTypes env bucket.ID allowed s1 with
          | (Except.error _, s2) => (Except.error Failure.UnknownError, s2)
          | (Except.ok _, s2) => (Except.ok (), s2)

/-- The method `BucketService.RemoveContentTypesFromBucket`. -/
def BucketService.RemoveContentTypesFromBucket (env : Env) (id : String)
    (removeContentTypes : Option (List String)) (s : St) : Except Failure StorageBucket × St :=
  if ValidateNotEmptyTrimmedString id then (Except.error Failure.InvalidInputError, s)
  else
    match WithTransaction env
        (BucketService.RemoveContentTypesFromBucket.txn env id removeContentTypes) s with
    | (Except.error e, s1) => (Except.error e, s1)
    | (Except.ok _, s1) => BucketService.GetBucketById env id s1

/-- The function passed to `WithTransaction` by `UpdateBucket`. -/
def BucketService.UpdateBucket.txn (env : Env) (id : String) (bucketUpdate : BucketUpdate)
    (s : St) : Except Failure Unit × St :=
  match BucketService.getBucketByIdTxn env id s with
  | (Except.error e, s1) => (Except.error e, s1)
  | (Except.ok bucket, s1) =>
    match BucketService.guard bucket with
    | Except.error e => (Except.error e, s1)
    | Except.ok _ =>
      let size : Except Failure (Option Int) :=
        match bucketUpdate.MaxAllowedObjectSize with
        | some maxAllowedObjectSize =>
          match ValidateMaxAllowedObjectSize maxAllowedObjectSize with
          | Except.error _ => Except.error Failure.InvalidInputError
          | Except.ok _ => Except.ok (some maxAllowedObjectSize)
        | none => Except.ok bucket.MaxAllowedObjectSize
      match size with
      | Except.error e => (Except.error e, s1)
      | Except.ok maxAllowedObjectSize =>
        let isPublic :=
          match bucketUpdate.Public with
          | some p => p
          | none => bucket.Public
        match Queries.UpdateBucket env bucket.ID maxAllowedObjectSize isPublic s1 with
        | (Except.error _, s2) => (Except.error Failure.UnknownError, s2)
        | (Except.ok _, s2) => (Except.ok (), s2)

/-- The method `BucketService.UpdateBucket`. -/
def BucketService.UpdateBucket (env : Env) (id : String) (bucketUpdate : BucketUpdate) (s : St) :
    Except Failure StorageBucket × St :=
  if ValidateNotEmptyTrimmedString id then (Except.error Failure.InvalidInputError, s)
  else
    match WithTransaction env (BucketService.UpdateBucket.txn env id bucketUpdate) s with
    | (Except.error e, s1) => (Except.error e, s1)
    | (Except.ok _, s1) => BucketService.GetBucketById env id s1

/-- The function passed to `WithTransaction` by `DeleteBucket`. -/
def BucketService.DeleteBucket.txn (env : Env) (id : String) (s : St) :
    Except Failure Unit × St :=
  match BucketService.getBucketByIdTxn env id s with
  | (Except.error e, s1) => (Except.error e, s1)
  | (Except.ok bucket, s1) =>
    match BucketService.guard bucket with
    | Except.error e => (Except.error e, s1)
    | Except.ok _ =>
      match Queries.DeleteBucket env bucket.ID s1 with
      | (Except.error _, s2) => (Except.error Failure.UnknownError, s2)
      | (Except.ok _, s2) => (Except.ok (), s2)

/-- The method `BucketService.DeleteBucket`. -/
def BucketService.DeleteBucket (env : Env) (id : String) (s : St) : Except Failure Unit × St :=
  if ValidateNotEmptyTrimmedString id then (Except.error Failure.InvalidInputError, s)
  else WithTransaction env (BucketService.DeleteBucket.txn env id) s

/-! ## Vocabulary of the statements -/

/-- The upload status recorded for the object with the given id, if any. -/
def Db.status? (d : Db) (id : String) : Option UploadStatus :=
  (d.object? id).map (fun o => o.UploadStatus)

/-- The bucket name resolves to `bucket` for an object operation: the name is
well formed, the lookup answers with `bucket`, and the bucket is neither
disabled nor locked. -/
def Resolves (env : Env) (s : St) (bucketName : String) (bucket : StorageBucket) : Prop :=
  ValidateNotEmptyTrimmedString bucketName = false ∧ validateBucketName bucketName = false ∧
  env.dbFails DbOp.GetBucketByName = false ∧ s.db.bucketByName? bucketName = some bucket ∧
  bucket.Disabled = false ∧ bucket.Locked = false

instance (env : Env) (s : St) (bucketName : String) (bucket : StorageBucket) :
    Decidable (Resolves env s bucketName bucket) := by
  unfold Resolves
  infer_instance

/-- An allowed-content-type list does not hold the wildcard together with
another pattern. -/
def WildcardExclusive (allowed : List String) : Prop :=
  "*/*" ∈ allowed → ∀ x ∈ allowed, x = "*/*"

instance (allowed : List String) : Decidable (WildcardExclusive allowed) := by
  unfold WildcardExclusive
  infer_instance

/-- The four mutating operations of the object service, with their arguments. -/
inductive ObjectOp where
  | upload (bucketName : String) (create : PreSignedUploadObjectCreate)
  | complete (bucketName objectId : String)
  | download (bucketName objectId : String) (expiresIn : Int)
  | delete (bucketName objectId : String)

/-- The state an object operation leaves behind. -/
def ObjectOp.run (env : Env) : ObjectOp → St → St
  | ObjectOp.upload bucketName create, s =>
    (ObjectService.CreatePreSignedUploadObject env bucketName create s).2
  | ObjectOp.complete bucketName objectId, s =>
    (ObjectService.CompletePreSignedObjectUpload env bucketName objectId s).2
  | ObjectOp.download bucketName objectId expiresIn, s =>
    (ObjectService.CreatePreSignedDownloadObject env bucketName objectId expiresIn s).2
  | ObjectOp.delete bucketName objectId, s =>
    (ObjectService.DeleteObject env bucketName objectId s).2

/-- The request `CreatePreSignedUploadObject` sends to the blob store for an
accepted upload: the expiry and the content type are the supplied ones or the
defaults. -/
def uploadRequest (env : Env) (bucket : StorageBucket) (create : PreSignedUploadObjectCreate) :
    StoragePreSignedUploadObjectCreate :=
  { Bucket := bucket.Name, Name := create.Name,
    ExpiresIn := some (create.ExpiresIn.getD env.DefaultPreSignedUploadUrlExpiresIn),
    ContentType := create.ContentType.getD DefaultContentType, Size := create.Size }

/-- The object row an accepted upload is expected to add: in the resolved
bucket, with the requested name and size, the supplied or default content type,
status `pending`. -/
def pendingRow (id : String) (bucket : StorageBucket) (create : PreSignedUploadObjectCreate)
    (metadataBytes : String) : StorageObject :=
  { ID := id, BucketID := bucket.ID, Name := create.Name,
    ContentType := create.ContentType.getD DefaultContentType, Size := create.Size,
    Metadata := metadataBytes, UploadStatus := UploadStatus.Pending, LastAccessedAt := none }

/-- The reconciliation task an accepted upload is expected to schedule: payload
(bucket name, object name, object id), due at the expiry of the grant. -/
def reconciliationJob (bucket : StorageBucket) (create : PreSignedUploadObjectCreate)
    (id : String) (grant : PreSignedObject) : Job :=
  { BucketName := bucket.Name, ObjectName := create.Name, ObjectId := id,
    ScheduledAt := grant.ExpiresAt }

/-- The bucket operations that may follow `CreateBucket`, with their arguments. -/
inductive BucketOp where
  | add (id : String) (addContentTypes : Option (List String))
  | remove (id : String) (removeContentTypes : Option (List String))
  | update (id : String) (bucketUpdate : BucketUpdate)
  | enable (id : String)
  | disable (id : String)

/-- The state a bucket operation leaves behind. -/
def BucketOp.run (env : Env) : BucketOp → St → St
  | BucketOp.add id addContentTypes, s =>
    (BucketService.AddAllowedContentTypesToBucket env id addContentTypes s).2
  | BucketOp.remove id removeContentTypes, s =>
    (BucketService.RemoveContentTypesFromBucket env id removeContentTypes s).2
  | BucketOp.update id bucketUpdate, s => (BucketService.UpdateBucket env id bucketUpdate s).2
  | BucketOp.enable id, s => (BucketService.EnableBucket env id s).2
  | BucketOp.disable id, s => (BucketService.DisableBucket env id s).2

/-- The bucket is refused by the guards: it is disabled, or it is locked and
carries the lock reason the data model requires of a locked bucket. -/
def Blocked (bucket : StorageBucket) : Prop :=
  bucket.Disabled = true ∨ (bucket.Locked = true ∧ bucket.LockReason.isSome = true)

instance (bucket : StorageBucket) : Decidable (Blocked bucket) := by
  unfold Blocked
  infer_instance

/-- The statement's reading of "a pattern matching the content type": the
pattern is the content type itself, or agrees with it on one half and has the
wildcard in the other, or is the full wildcard. -/
def patternMatches (pattern contentType : String) : Bool :=
  let p := pattern.toList
  let c := contentType.toList
  let pType := p.takeWhile (fun ch => ch != '/')
  let pSub := (p.dropWhile (fun ch => ch != '/')).drop 1
  let cType := c.takeWhile (fun ch => ch != '/')
  let cSub := (c.dropWhile (fun ch => ch != '/')).drop 1
  (pType == ['*'] || pType == cType) && (pSub == ['*'] || pSub == cSub)

/-- The list `AddAllowedContentTypesToBucket` computes from the stored list and
the added one (bucket_service.go lines 201-205). -/
def mergedContentTypes (old added : List String) : List String :=
  Uniq ((if Contains old "*/*" then [] else old) ++ added)

/-- The list `RemoveContentTypesFromBucket` computes from the stored list and
the one to remove (bucket_service.go lines 260-267). -/
def remainingContentTypes (old removed : List String) : List String :=
  if Contains removed "*/*" then []
  else old.filter (fun contentType => !Contains removed contentType)

/-- The object a search returns for one row: the fields of the row, its
metadata decoded, or the nil map when the bytes do not decode. -/
def searchResult (env : Env) (object : StorageObject) : Object :=
  { Id := object.ID, BucketId := object.BucketID, Name := object.Name,
    ContentType := object.ContentType, Size := object.Size,
    Metadata :=
      match bytesToMetadata env object.Metadata with
      | Except.error _ => []
      | Except.ok metadataMap => metadataMap,
    UploadStatus := object.UploadStatus }

/-- The level a search passes to its query: 1 in place of 0. -/
def searchLevel (level : Int) : Int := if level == 0 then 1 else level

/-- The limit a search passes to its query: 100 in place of 0. -/
def searchLimit (limit : Int) : Int := if limit == 0 then 100 else limit

/-- A call that a download with a refused expiry may have made before the
refusal: the two reads, the existence probe and the status update. -/
def Call.beforeExpiryCheck : Call → Bool
  | Call.db DbOp.GetBucketByName _ => true
  | Call.db DbOp.GetObjectById _ => true
  | Call.storageExists _ _ _ => true
  | Call.db DbOp.UpdateObjectUploadStatus _ => true
  | _ => false

/-! ## Sample worlds -/

/-- An environment in which no collaborator fails. -/
def Env.healthy : Env :=
  { DefaultPreSignedUploadUrlExpiresIn := 900
    dbFails := fun _ => false
    presignUpload := fun _ =>
      some { Url := "https://blob.example/up", Method := "PUT", ExpiresAt := 1000 }
    presignDownload := fun _ _ =>
      some { Url := "https://blob.example/down", Method := "GET", ExpiresAt := 2000 }
    checkExistsFails := false
    deleteFails := false
    marshal := fun _ => some "null"
    unmarshal := fun _ => some []
    newObjectId := "o2"
    now := 500 }

/-- The healthy environment, except that the listed statements fail. -/
def Env.failing (ops : List DbOp) : Env :=
  { Env.healthy with dbFails := fun op => ops.contains op }

/-- An enabled, unlocked bucket with the default policy. -/
def sampleBucket : StorageBucket :=
  { ID := "b-1", Name := "pics", AllowedContentTypes := ["*/*"], MaxAllowedObjectSize := none,
    Public := false, Disabled := false, Locked := false, LockReason := none, LockedAt := none }

/-- An object of `sampleBucket` in the given upload status. -/
def sampleObject (status : UploadStatus) : StorageObject :=
  { ID := "o1", BucketID := "b-1", Name := "a/b.png", ContentType := "image/png", Size := 10,
    Metadata := "null", UploadStatus := status, LastAccessedAt := none }

/-- A world with `sampleBucket`, one object in the given status, and its blob
present or not. -/
def sampleState (status : UploadStatus) (uploaded : Bool) : St :=
  { db := { buckets := [sampleBucket], objects := [sampleObject status], jobs := [] }
    blobs := if uploaded then [("pics", "a/b.png")] else []
    trace := [] }

/-- An upload request for a new name in `sampleBucket`. -/
def sampleUpload (name : String) : PreSignedUploadObjectCreate :=
  { Name := name, ExpiresIn := none, ContentType := some "image/png", Size := 10, Metadata := [] }

/-- The sample bucket, disabled. -/
def disabledBucket : StorageBucket := { sampleBucket with Disabled := true }

/-- The sample bucket, locked with a reason. -/
def lockedBucket : StorageBucket :=
  { sampleBucket with Locked := true, LockReason := some "audit", LockedAt := some 400 }

/-- The sample bucket, locked, with no lock reason recorded. -/
def unexplainedLockBucket : StorageBucket :=
  { sampleBucket with Locked := true, LockedAt := some 400 }

/-- The sample bucket, allowing plain text only. -/
def textOnlyBucket : StorageBucket := { sampleBucket with AllowedContentTypes := ["text/plain"] }

/-- A world with the given bucket, one object of it in the given status, and its
blob present or not. -/
def stateOf (bucket : StorageBucket) (status : UploadStatus) (uploaded : Bool) : St :=
  { db := { buckets := [bucket], objects := [sampleObject status], jobs := [] }
    blobs := if uploaded then [("pics", "a/b.png")] else []
    trace := [] }

/-- A world without buckets, objects, jobs or blobs. -/
def emptyState : St :=
  { db := { buckets := [], objects := [], jobs := [] }, blobs := [], trace := [] }

/-- The sample bucket with a size ceiling of 5 bytes. -/
def smallBucket : StorageBucket := { sampleBucket with MaxAllowedObjectSize := some 5 }

/-- A second enabled, unlocked bucket. -/
def otherBucket : StorageBucket :=
  { ID := "b-2", Name := "docs", AllowedContentTypes := ["*/*"], MaxAllowedObjectSize := none,
    Public := false, Disabled := false, Locked := false, LockReason := none, LockedAt := none }

/-- An object of `otherBucket` in the given upload status. -/
def foreignObject (status : UploadStatus) : StorageObject :=
  { ID := "o9", BucketID := "b-2", Name := "x.png", ContentType := "image/png", Size := 10,
    Metadata := "null", UploadStatus := status, LastAccessedAt := none }

/-- A world with both buckets, one object of `otherBucket`, and a blob named
like it in each of the two buckets. -/
def twoBucketState (status : UploadStatus) : St :=
  { db := { buckets := [sampleBucket, otherBucket], objects := [foreignObject status], jobs := [] }
    blobs := [("pics", "x.png"), ("docs", "x.png")]
    trace := [] }

/-- A request to create a bucket whose name is outside the bucket-name pattern. -/
def oddNameCreate : BucketCreate :=
  { Id := "b-3", Name := "_tmp", AllowedContentTypes := none, MaxAllowedObjectSize := none,
    Public := false, Disabled := false }

/-! ## Basic facts about the state and the lookups -/

@[simp]
theorem St.log_db (s : St) (c : Call) : (s.log c).db = s.db := rfl

@[simp]
theorem St.log_blobs (s : St) (c : Call) : (s.log c).blobs = s.blobs := rfl

@[simp]
theorem St.log_trace (s : St) (c : Call) : (s.log c).trace = s.trace ++ [c] := rfl

theorem newCalls_of_trace {s t : St} {l : List Call} (h : t.trace = s.trace ++ l) :
    newCalls s t = l := by
  simp [newCalls, h]

@[simp]
theorem newCalls_self (s : St) : newCalls s s = [] := by
  simp [newCalls]

theorem object?_id {d : Db} {id : String} {o : StorageObject} (h : d.object? id = some o) :
    o.ID = id := by
  have := List.find?_some h
  simpa using this

theorem getBucketByNameTxn_eq :
    ObjectService.getBucketByNameTxn = ObjectService.getBucketByName := rfl

/-- The three ways the bucket lookup of the object path can end. -/
theorem getBucketByName_cases (env : Env) (bucketName : String) (s : St) :
    (∃ e, ObjectService.getBucketByName env bucketName s = (Except.error e, s)) ∨
    (∃ e, ObjectService.getBucketByName env bucketName s
        = (Except.error e, s.log (Call.db DbOp.GetBucketByName bucketName))) ∨
    (∃ bucket, Resolves env s bucketName bucket ∧
      ObjectService.getBucketByName env bucketName s
        = (Except.ok bucket, s.log (Call.db DbOp.GetBucketByName bucketName))) := by
  unfold ObjectService.getBucketByName Queries.GetBucketByName Resolves
  by_cases h1 : ValidateNotEmptyTrimmedString bucketName = true
  · simp [h1]
  by_cases h2 : validateBucketName bucketName = true
  · simp [h1, h2]
  by_cases h3 : env.dbFails DbOp.GetBucketByName = true
  · simp [h1, h2, h3, IsNotFoundError]
  cases h4 : s.db.bucketByName? bucketName with
  | none => simp [h1, h2, h3, IsNotFoundError]
  | some b =>
    by_cases h5 : b.Disabled = true
    · simp [h1, h2, h3, h5]
    by_cases h6 : b.Locked = true
    · cases h7 : b.LockReason <;> simp [h1, h2, h3, h5, h6, h7]
    · simp [h1, h2, h3, h5, h6]

theorem getBucketByName_of_resolves {env : Env} {s : St} {bucketName : String}
    {bucket : StorageBucket} (h : Resolves env s bucketName bucket) :
    ObjectService.getBucketByName env bucketName s
      = (Except.ok bucket, s.log (Call.db DbOp.GetBucketByName bucketName)) := by
  obtain ⟨h1, h2, h3, h4, h5, h6⟩ := h
  simp [ObjectService.getBucketByName, Queries.GetBucketByName, h1, h2, h3, h4, h5, h6]

/-- The two ways the object lookup by id can end. -/
theorem GetObjectById_cases (env : Env) (id : String) (s : St) :
    (∃ err, Queries.GetObjectById env id s
        = (Except.error err, s.log (Call.db DbOp.GetObjectById id)) ∧
        (env.dbFails DbOp.GetObjectById = true ∨ s.db.object? id = none)) ∨
    (∃ o, env.dbFails DbOp.GetObjectById = false ∧ s.db.object? id = some o ∧
      Queries.GetObjectById env id s = (Except.ok o, s.log (Call.db DbOp.GetObjectById id))) := by
  unfold Queries.GetObjectById
  by_cases h1 : env.dbFails DbOp.GetObjectById = true
  · simp [h1]
  cases h2 : s.db.object? id with
  | none => simp [h1]
  | some o => simp [h1]

theorem GetObjectById_of_found {env : Env} {id : String} {s : St} {o : StorageObject}
    (hf : env.dbFails DbOp.GetObjectById = false) (ho : s.db.object? id = some o) :
    Queries.GetObjectById env id s = (Except.ok o, s.log (Call.db DbOp.GetObjectById id)) := by
  simp [Queries.GetObjectById, hf, ho]


@[simp]
theorem setUploadStatus_ID (id : String) (status : UploadStatus) (o : StorageObject) :
    (setUploadStatus id status o).ID = o.ID := by
  unfold setUploadStatus
  split <;> rfl

@[simp]
theorem setLastAccessedAt_ID (id : String) (now : Int) (o : StorageObject) :
    (setLastAccessedAt id now o).ID = o.ID := by
  unfold setLastAccessedAt
  split <;> rfl

/-- Looking a row up by id commutes with a row update that keeps ids. -/
theorem find?_map_of_ID (f : StorageObject → StorageObject) (hf : ∀ o, (f o).ID = o.ID)
    (l : List StorageObject) (id : String) :
    (l.map f).find? (fun o => o.ID == id) = (l.find? (fun o => o.ID == id)).map f := by
  rw [List.find?_map]
  have : ((fun o : StorageObject => o.ID == id) ∘ f) = (fun o => o.ID == id) := by
    funext o
    simp [hf]
  rw [this]

/-- The same for the object table of a metadata store. -/
theorem object?_map_of_ID (d : Db) (f : StorageObject → StorageObject)
    (hf : ∀ o, (f o).ID = o.ID) (id : String) :
    Db.object? { d with objects := d.objects.map f } id = (d.object? id).map f :=
  find?_map_of_ID f hf d.objects id

/-- Every way `CompletePreSignedObjectUpload` can end: it fails and leaves the
metadata and the blobs alone without a positive probe, or it ran the whole
path on a pending object whose blob exists. -/
theorem complete_cases (env : Env) (bucketName objectId : String) (s : St) :
    ((∃ e, (ObjectService.CompletePreSignedObjectUpload env bucketName objectId s).1
        = Except.error e) ∧
      (ObjectService.CompletePreSignedObjectUpload env bucketName objectId s).2.db = s.db ∧
      (ObjectService.CompletePreSignedObjectUpload env bucketName objectId s).2.blobs = s.blobs) ∨
    (∃ bucket object, Resolves env s bucketName bucket ∧
      s.db.object? objectId = some object ∧ object.UploadStatus = UploadStatus.Pending ∧
      (bucket.Name, object.Name) ∈ s.blobs ∧
      ObjectService.CompletePreSignedObjectUpload env bucketName objectId s
        = (Except.ok (),
            { db := { s.db with objects :=
                        s.db.objects.map (setUploadStatus object.ID UploadStatus.Completed) }
              blobs := s.blobs
              trace := s.trace ++
                [Call.db DbOp.GetBucketByName bucketName, Call.db DbOp.GetObjectById objectId,
                 Call.storageExists bucket.Name object.Name (some true),
                 Call.db DbOp.UpdateObjectUploadStatus object.ID] })) := by
  unfold ObjectService.CompletePreSignedObjectUpload
  by_cases h1 : ValidateNotEmptyTrimmedString bucketName = true
  · simp [h1]
  by_cases h2 : ValidateNotEmptyTrimmedString objectId = true
  · simp [h1, h2]
  simp only [h1, h2]
  rcases getBucketByName_cases env bucketName s with ⟨e, hb⟩ | ⟨e, hb⟩ | ⟨bucket, hres, hb⟩
  · simp [hb]
  · simp [hb]
  · rcases GetObjectById_cases env objectId (s.log (Call.db DbOp.GetBucketByName bucketName))
      with ⟨err, hg, _⟩ | ⟨o, hf, ho, hg⟩
    · simp only [hb, hg]
      split_ifs <;> simp
    · simp only [hb, hg]
      cases hst : o.UploadStatus with
      | Completed => simp
      | Failed => simp
      | Pending =>
        by_cases h3 : env.checkExistsFails = true
        · simp [S3Storage.CheckIfObjectExists, h3]
        by_cases h4 : (bucket.Name, o.Name) ∈ s.blobs
        · by_cases h5 : env.dbFails DbOp.UpdateObjectUploadStatus = true
          · simp [S3Storage.CheckIfObjectExists, h3, h4, Queries.UpdateObjectUploadStatus, h5]
          · right
            refine ⟨bucket, o, hres, by simpa using ho, hst, h4, ?_⟩
            simp [S3Storage.CheckIfObjectExists, h3, h4, Queries.UpdateObjectUploadStatus, h5,
              St.log]
        · simp [S3Storage.CheckIfObjectExists, h3, h4]

/-- C6: on a pending object of a resolvable bucket, `CompletePreSignedObjectUpload`
succeeds and records `completed` when the blob store reports that the blob exists,
and fails with `NotFoundError`, the status still `pending`, when it reports it
absent. -/
theorem complete_pending_object (env : Env) (s : St) (bucketName objectId : String)
    (bucket : StorageBucket) (object : StorageObject)
    (hres : Resolves env s bucketName bucket)
    (hoid : ValidateNotEmptyTrimmedString objectId = false)
    (hread : env.dbFails DbOp.GetObjectById = false)
    (hobj : s.db.object? objectId = some object)
    (hpend : object.UploadStatus = UploadStatus.Pending)
    (hprobe : env.checkExistsFails = false) :
    ((bucket.Name, object.Name) ∈ s.blobs →
      env.dbFails DbOp.UpdateObjectUploadStatus = false →
      (ObjectService.CompletePreSignedObjectUpload env bucketName objectId s).1 = Except.ok () ∧
      (ObjectService.CompletePreSignedObjectUpload env bucketName objectId s).2.db.object? objectId
        = some { object with UploadStatus := UploadStatus.Completed } ∧
      Call.storageExists bucket.Name object.Name (some true) ∈
        newCalls s (ObjectService.CompletePreSignedObjectUpload env bucketName objectId s).2) ∧
    ((bucket.Name, object.Name) ∉ s.blobs →
      (ObjectService.CompletePreSignedObjectUpload env bucketName objectId s).1
        = Except.error Failure.NotFoundError ∧
      (ObjectService.CompletePreSignedObjectUpload env bucketName objectId s).2.db = s.db ∧
      (ObjectService.CompletePreSignedObjectUpload env bucketName objectId s).2.db.status? objectId
        = some UploadStatus.Pending ∧
      Call.storageExists bucket.Name object.Name (some false) ∈
        newCalls s (ObjectService.CompletePreSignedObjectUpload env bucketName objectId s).2) := by
  have hb := getBucketByName_of_resolves hres
  have hg := GetObjectById_of_found (s := s.log (Call.db DbOp.GetBucketByName bucketName))
    hread (by simpa using hobj)
  have hid := object?_id hobj
  constructor
  · intro hblob hupd
    have hrun : ObjectService.CompletePreSignedObjectUpload env bucketName objectId s
        = (Except.ok (),
            { db := { s.db with objects :=
                        s.db.objects.map (setUploadStatus object.ID UploadStatus.Completed) }
              blobs := s.blobs
              trace := s.trace ++
                [Call.db DbOp.GetBucketByName bucketName, Call.db DbOp.GetObjectById objectId,
                 Call.storageExists bucket.Name object.Name (some true),
                 Call.db DbOp.UpdateObjectUploadStatus object.ID] }) := by
      simp only [ObjectService.CompletePreSignedObjectUpload, hres.1, hoid, hb, hg, hpend,
        Bool.false_eq_true, if_false]
      simp [S3Storage.CheckIfObjectExists, hprobe, hblob, Queries.UpdateObjectUploadStatus, hupd,
        St.log]
    rw [hrun]
    refine ⟨rfl, ?_, ?_⟩
    · have h2 := object?_map_of_ID s.db (setUploadStatus object.ID UploadStatus.Completed)
        (by simp) objectId
      rw [hobj] at h2
      simpa [setUploadStatus] using h2
    · simp [newCalls]
  · intro hblob
    have hrun : ObjectService.CompletePreSignedObjectUpload env bucketName objectId s
        = (Except.error Failure.NotFoundError,
            { db := s.db
              blobs := s.blobs
              trace := s.trace ++
                [Call.db DbOp.GetBucketByName bucketName, Call.db DbOp.GetObjectById objectId,
                 Call.storageExists bucket.Name object.Name (some false)] }) := by
      simp only [ObjectService.CompletePreSignedObjectUpload, hres.1, hoid, hb, hg, hpend,
        Bool.false_eq_true, if_false]
      simp [S3Storage.CheckIfObjectExists, hprobe, hblob, St.log]
    rw [hrun]
    refine ⟨rfl, rfl, ?_, ?_⟩
    · simp [Db.status?, hobj, hpend]
    · simp [newCalls]

/-- Witness for C6: the pending sample object, with and without its blob. -/
theorem complete_pending_object_witness :
    ((ObjectService.CompletePreSignedObjectUpload Env.healthy "pics" "o1"
        (sampleState UploadStatus.Pending true)).1 = Except.ok () ∧
      (ObjectService.CompletePreSignedObjectUpload Env.healthy "pics" "o1"
        (sampleState UploadStatus.Pending true)).2.db.object? "o1"
        = some { sampleObject UploadStatus.Pending with UploadStatus := UploadStatus.Completed } ∧
      Call.storageExists sampleBucket.Name (sampleObject UploadStatus.Pending).Name (some true) ∈
        newCalls (sampleState UploadStatus.Pending true)
          (ObjectService.CompletePreSignedObjectUpload Env.healthy "pics" "o1"
            (sampleState UploadStatus.Pending true)).2) ∧
    ((ObjectService.CompletePreSignedObjectUpload Env.healthy "pics" "o1"
        (sampleState UploadStatus.Pending false)).1 = Except.error Failure.NotFoundError ∧
      (ObjectService.CompletePreSignedObjectUpload Env.healthy "pics" "o1"
        (sampleState UploadStatus.Pending false)).2.db = (sampleState UploadStatus.Pending false).db ∧
      (ObjectService.CompletePreSignedObjectUpload Env.healthy "pics" "o1"
        (sampleState UploadStatus.Pending false)).2.db.status? "o1" = some UploadStatus.Pending ∧
      Call.storageExists sampleBucket.Name (sampleObject UploadStatus.Pending).Name (some false) ∈
        newCalls (sampleState UploadStatus.Pending false)
          (ObjectService.CompletePreSignedObjectUpload Env.healthy "pics" "o1"
            (sampleState UploadStatus.Pending false)).2) :=
  ⟨(complete_pending_object Env.healthy (sampleState UploadStatus.Pending true) "pics" "o1"
      sampleBucket (sampleObject UploadStatus.Pending) (by decide) (by decide) rfl rfl rfl rfl).1
      (by decide) rfl,
   (complete_pending_object Env.healthy (sampleState UploadStatus.Pending false) "pics" "o1"
      sampleBucket (sampleObject UploadStatus.Pending) (by decide) (by decide) rfl rfl rfl rfl).2
      (by decide)⟩

/-- C7: completed or failed objects are refused by `CompletePreSignedObjectUpload`:
the call fails (with `InvalidInputError` once the bucket resolves and the object is
read), the blob store is not probed and nothing is changed; and a completion call
that follows a successful one fails with `InvalidInputError`. -/
theorem complete_rejects_terminal_status (env : Env) (s : St) (bucketName objectId : String) :
    (∀ object, s.db.object? objectId = some object →
      (object.UploadStatus = UploadStatus.Completed ∨ object.UploadStatus = UploadStatus.Failed) →
      (∃ e, (ObjectService.CompletePreSignedObjectUpload env bucketName objectId s).1
          = Except.error e) ∧
      (∀ bucket, Resolves env s bucketName bucket →
        ValidateNotEmptyTrimmedString objectId = false →
        env.dbFails DbOp.GetObjectById = false →
        (ObjectService.CompletePreSignedObjectUpload env bucketName objectId s).1
          = Except.error Failure.InvalidInputError) ∧
      (ObjectService.CompletePreSignedObjectUpload env bucketName objectId s).2.db = s.db ∧
      (ObjectService.CompletePreSignedObjectUpload env bucketName objectId s).2.blobs = s.blobs ∧
      (∀ b n x, Call.storageExists b n x ∉
        newCalls s (ObjectService.CompletePreSignedObjectUpload env bucketName objectId s).2)) ∧
    (∀ env2 : Env,
      (ObjectService.CompletePreSignedObjectUpload env bucketName objectId s).1 = Except.ok () →
      env2.dbFails DbOp.GetBucketByName = false → env2.dbFails DbOp.GetObjectById = false →
      (ObjectService.CompletePreSignedObjectUpload env2 bucketName objectId
        (ObjectService.CompletePreSignedObjectUpload env bucketName objectId s).2).1
          = Except.error Failure.InvalidInputError) := by
  constructor
  · intro object hobj hterm
    have hnp : object.UploadStatus ≠ UploadStatus.Pending := by
      rcases hterm with h | h <;> simp [h]
    unfold ObjectService.CompletePreSignedObjectUpload
    by_cases h1 : ValidateNotEmptyTrimmedString bucketName = true
    · simp [h1]
    by_cases h2 : ValidateNotEmptyTrimmedString objectId = true
    · simp [h1, h2]
    simp only [h1, h2]
    rcases getBucketByName_cases env bucketName s with ⟨e, hb⟩ | ⟨e, hb⟩ | ⟨bucket, hres, hb⟩
    · simp [hb]
      intro bucket hres
      simp [getBucketByName_of_resolves hres] at hb
    · simp [hb, newCalls]
      intro bucket hres
      simp [getBucketByName_of_resolves hres] at hb
    · rcases GetObjectById_cases env objectId (s.log (Call.db DbOp.GetBucketByName bucketName))
        with ⟨err, hg, hwhy⟩ | ⟨o, hf, ho, hg⟩
      · simp only [hb, hg]
        rcases hwhy with hw | hw
        · split_ifs <;> simp [newCalls, hw]
        · simp [hobj] at hw
      · have ho2 : o = object := by
          simp only [St.log_db] at ho
          rw [hobj] at ho
          exact (Option.some.inj ho).symm
        subst ho2
        simp only [hb, hg]
        rcases hterm with h | h <;> simp [h, newCalls]
  · intro env2 hok hf1 hf2
    rcases complete_cases env bucketName objectId s with ⟨⟨e, he⟩, _⟩ | ⟨bucket, object, hres, hobj, _, _, hrun⟩
    · rw [he] at hok
      cases hok
    · rw [hrun]
      have hres2 : Resolves env2
          { db := { s.db with objects :=
                      s.db.objects.map (setUploadStatus object.ID UploadStatus.Completed) }
            blobs := s.blobs
            trace := s.trace ++
              [Call.db DbOp.GetBucketByName bucketName, Call.db DbOp.GetObjectById objectId,
               Call.storageExists bucket.Name object.Name (some true),
               Call.db DbOp.UpdateObjectUploadStatus object.ID] } bucketName bucket :=
        ⟨hres.1, hres.2.1, hf1, hres.2.2.2.1, hres.2.2.2.2.1, hres.2.2.2.2.2⟩
      have hid := object?_id hobj
      have hoid : ValidateNotEmptyTrimmedString objectId = false := by
        by_contra hne
        simp [ObjectService.CompletePreSignedObjectUpload, hres.1] at hok
        simp [hne] at hok
      have hobj2 := object?_map_of_ID s.db (setUploadStatus object.ID UploadStatus.Completed)
        (by simp) objectId
      rw [hobj] at hobj2
      simp only [Option.map_some', setUploadStatus, beq_self_eq_true, if_true] at hobj2
      simp [ObjectService.CompletePreSignedObjectUpload, hres.1, hoid,
        getBucketByName_of_resolves hres2, Queries.GetObjectById, hf2, hobj2]

/-- Witness for C7: a completed object, a failed object, and a second call after
a successful completion. -/
theorem complete_rejects_terminal_status_witness :
    (ObjectService.CompletePreSignedObjectUpload Env.healthy "pics" "o1"
      (sampleState UploadStatus.Completed true)).1 = Except.error Failure.InvalidInputError ∧
    (ObjectService.CompletePreSignedObjectUpload Env.healthy "pics" "o1"
      (sampleState UploadStatus.Failed true)).1 = Except.error Failure.InvalidInputError ∧
    (ObjectService.CompletePreSignedObjectUpload Env.healthy "pics" "o1"
      (ObjectService.CompletePreSignedObjectUpload Env.healthy "pics" "o1"
        (sampleState UploadStatus.Pending true)).2).1 = Except.error Failure.InvalidInputError :=
  ⟨((complete_rejects_terminal_status Env.healthy (sampleState UploadStatus.Completed true)
      "pics" "o1").1 (sampleObject UploadStatus.Completed) rfl (Or.inl rfl)).2.1
      sampleBucket (by decide) (by decide) rfl,
   ((complete_rejects_terminal_status Env.healthy (sampleState UploadStatus.Failed true)
      "pics" "o1").1 (sampleObject UploadStatus.Failed) rfl (Or.inr rfl)).2.1
      sampleBucket (by decide) (by decide) rfl,
   (complete_rejects_terminal_status Env.healthy (sampleState UploadStatus.Pending true)
      "pics" "o1").2 Env.healthy rfl rfl rfl⟩

/-! ## The transaction wrapper -/

/-- A failing transaction leaves the metadata store as it found it. -/
theorem WithTransaction_error_db {α : Type} (env : Env) (fn : St → Except Failure α × St)
    (s : St) (e : Failure) (h : (WithTransaction env fn s).1 = Except.error e) :
    (WithTransaction env fn s).2.db = s.db := by
  unfold WithTransaction at h ⊢
  rcases hfn : fn s with ⟨r, s1⟩
  rw [hfn] at h
  cases r with
  | error e1 => rfl
  | ok a =>
    by_cases hc : env.dbFails DbOp.Commit = true
    · simp [hc]
    · simp [hc] at h

/-- A transaction whose body fails returns the body's error and the body's
blobs and call log. -/
theorem WithTransaction_of_error {α : Type} (env : Env) (fn : St → Except Failure α × St)
    (s s1 : St) (e : Failure) (h : fn s = (Except.error e, s1)) :
    WithTransaction env fn s = (Except.error e, { s1 with db := s.db }) := by
  simp [WithTransaction, h]

/-- A transaction whose body succeeds and whose commit succeeds keeps the body's
state. -/
theorem WithTransaction_of_ok {α : Type} (env : Env) (fn : St → Except Failure α × St)
    (s s1 : St) (a : α) (h : fn s = (Except.ok a, s1)) (hc : env.dbFails DbOp.Commit = false) :
    WithTransaction env fn s = (Except.ok a, s1.log (Call.db DbOp.Commit "")) := by
  simp [WithTransaction, h, hc]

/-- A successful transaction is a successful body followed by a successful
commit. -/
theorem WithTransaction_ok_inv {α : Type} (env : Env) (fn : St → Except Failure α × St)
    (s : St) (a : α) (h : (WithTransaction env fn s).1 = Except.ok a) :
    (fn s).1 = Except.ok a ∧ env.dbFails DbOp.Commit = false ∧
    (WithTransaction env fn s).2 = (fn s).2.log (Call.db DbOp.Commit "") := by
  unfold WithTransaction at h ⊢
  rcases hfn : fn s with ⟨r, s1⟩
  rw [hfn] at h
  cases r with
  | error e1 => simp at h
  | ok b =>
    cases hc : env.dbFails DbOp.Commit with
    | true => simp [hc] at h
    | false =>
      simp only [hc, Bool.false_eq_true, if_false] at h ⊢
      refine ⟨h, ?_⟩
      simp

/-- The blobs after a transaction are those its body left. -/
theorem WithTransaction_blobs {α : Type} (env : Env) (fn : St → Except Failure α × St)
    (s : St) : (WithTransaction env fn s).2.blobs = (fn s).2.blobs := by
  unfold WithTransaction
  rcases hfn : fn s with ⟨r, s1⟩
  cases r with
  | error e1 => rfl
  | ok b => by_cases hc : env.dbFails DbOp.Commit = true <;> simp [hc]

/-- The calls of a transaction are those of its body, and possibly the commit. -/
theorem WithTransaction_trace {α : Type} (env : Env) (fn : St → Except Failure α × St)
    (s : St) :
    (WithTransaction env fn s).2.trace = (fn s).2.trace ∨
    (WithTransaction env fn s).2.trace = (fn s).2.trace ++ [Call.db DbOp.Commit ""] := by
  unfold WithTransaction
  rcases hfn : fn s with ⟨r, s1⟩
  cases r with
  | error e1 => exact Or.inl rfl
  | ok b => by_cases hc : env.dbFails DbOp.Commit = true <;> simp [hc]

/-! ## DeleteObject -/

/-- The transaction body of `DeleteObject` on an object that is not completed:
it fails after at most the two reads. -/
theorem delete_txn_not_completed (env : Env) (s : St) (bucketName objectId : String)
    (object : StorageObject) (hobj : s.db.object? objectId = some object)
    (hnc : object.UploadStatus ≠ UploadStatus.Completed) :
    ∃ e s1, ObjectService.DeleteObject.txn env bucketName objectId s = (Except.error e, s1) ∧
      s1.blobs = s.blobs ∧
      (∀ bucket, Resolves env s bucketName bucket → env.dbFails DbOp.GetObjectById = false →
        e = Failure.InvalidInputError) ∧
      (s1.trace = s.trace ∨ s1.trace = s.trace ++ [Call.db DbOp.GetBucketByName bucketName] ∨
        s1.trace = s.trace ++
          [Call.db DbOp.GetBucketByName bucketName, Call.db DbOp.GetObjectById objectId]) := by
  unfold ObjectService.DeleteObject.txn
  rw [getBucketByNameTxn_eq]
  rcases getBucketByName_cases env bucketName s with ⟨e, hb⟩ | ⟨e, hb⟩ | ⟨bucket, hres, hb⟩
  · refine ⟨e, s, by simp only [hb], rfl, ?_, Or.inl rfl⟩
    intro bucket hres
    simp [getBucketByName_of_resolves hres] at hb
  · refine ⟨e, s.log (Call.db DbOp.GetBucketByName bucketName), by simp only [hb], rfl, ?_,
      Or.inr (Or.inl rfl)⟩
    intro bucket hres
    simp [getBucketByName_of_resolves hres] at hb
  · rcases GetObjectById_cases env objectId (s.log (Call.db DbOp.GetBucketByName bucketName))
      with ⟨err, hg, hwhy⟩ | ⟨o, hf, ho, hg⟩
    · simp only [hb, hg]
      rcases hwhy with hw | hw
      · by_cases hnf : IsNotFoundError err = true
        · exact ⟨Failure.NotFoundError,
            (s.log (Call.db DbOp.GetBucketByName bucketName)).log
              (Call.db DbOp.GetObjectById objectId),
            by simp [hnf], rfl, by simp [hw], Or.inr (Or.inr (by simp))⟩
        · exact ⟨Failure.UnknownError,
            (s.log (Call.db DbOp.GetBucketByName bucketName)).log
              (Call.db DbOp.GetObjectById objectId),
            by simp [hnf], rfl, by simp [hw], Or.inr (Or.inr (by simp))⟩
      · simp [hobj] at hw
    · have ho2 : o = object := by
        simp only [St.log_db] at ho
        rw [hobj] at ho
        exact (Option.some.inj ho).symm
      subst ho2
      simp only [hb, hg]
      exact ⟨Failure.InvalidInputError,
        (s.log (Call.db DbOp.GetBucketByName bucketName)).log
          (Call.db DbOp.GetObjectById objectId),
        by simp [hnc], rfl, by simp, Or.inr (Or.inr (by simp))⟩

/-- C10: `DeleteObject` on an object that is not completed fails (with
`InvalidInputError` once the bucket resolves and the object is read), issues neither
the blob-store delete nor the metadata delete, and leaves metadata and blobs
unchanged. -/
theorem delete_rejects_unfinished_object (env : Env) (s : St) (bucketName objectId : String)
    (object : StorageObject) (hobj : s.db.object? objectId = some object)
    (hnc : object.UploadStatus = UploadStatus.Pending ∨ object.UploadStatus = UploadStatus.Failed) :
    (∃ e, (ObjectService.DeleteObject env bucketName objectId s).1 = Except.error e) ∧
    (∀ bucket, Resolves env s bucketName bucket →
      ValidateNotEmptyTrimmedString objectId = false →
      env.dbFails DbOp.GetObjectById = false →
      (ObjectService.DeleteObject env bucketName objectId s).1
        = Except.error Failure.InvalidInputError) ∧
    (ObjectService.DeleteObject env bucketName objectId s).2.db = s.db ∧
    (ObjectService.DeleteObject env bucketName objectId s).2.db.object? objectId = some object ∧
    (ObjectService.DeleteObject env bucketName objectId s).2.blobs = s.blobs ∧
    (∀ b n, Call.storageDelete b n ∉
      newCalls s (ObjectService.DeleteObject env bucketName objectId s).2) ∧
    (∀ k, Call.db DbOp.DeleteObject k ∉
      newCalls s (ObjectService.DeleteObject env bucketName objectId s).2) := by
  have hnc2 : object.UploadStatus ≠ UploadStatus.Completed := by
    rcases hnc with h | h <;> simp [h]
  unfold ObjectService.DeleteObject
  by_cases h1 : ValidateNotEmptyTrimmedString bucketName = true
  · simp [h1, hobj]
  by_cases h2 : ValidateNotEmptyTrimmedString objectId = true
  · simp [h1, h2, hobj]
  simp only [h1, h2]
  obtain ⟨e, s1, htxn, hblobs, hkind, htrace⟩ :=
    delete_txn_not_completed env s bucketName objectId object hobj hnc2
  rw [WithTransaction_of_error env _ s s1 e htxn]
  refine ⟨⟨e, rfl⟩, ?_, rfl, hobj, hblobs, ?_, ?_⟩
  · intro bucket hres _ hread
    simp [hkind bucket hres hread]
  · intro b n
    rcases htrace with ht | ht | ht <;> simp [newCalls, ht]
  · intro k
    rcases htrace with ht | ht | ht <;> simp [newCalls, ht]

/-- Witness for C10: deleting the pending sample object, and the failed one. -/
theorem delete_rejects_unfinished_object_witness :
    (ObjectService.DeleteObject Env.healthy "pics" "o1"
      (sampleState UploadStatus.Pending true)).1 = Except.error Failure.InvalidInputError ∧
    (ObjectService.DeleteObject Env.healthy "pics" "o1"
      (sampleState UploadStatus.Failed true)).2.db = (sampleState UploadStatus.Failed true).db :=
  ⟨(delete_rejects_unfinished_object Env.healthy (sampleState UploadStatus.Pending true)
      "pics" "o1" (sampleObject UploadStatus.Pending) rfl (Or.inl rfl)).2.1
      sampleBucket (by decide) (by decide) rfl,
   (delete_rejects_unfinished_object Env.healthy (sampleState UploadStatus.Failed true)
      "pics" "o1" (sampleObject UploadStatus.Failed) rfl (Or.inr rfl)).2.2.1⟩

/-! ## CreatePreSignedDownloadObject -/

/-- A successful run of the transaction body of `CreatePreSignedDownloadObject`:
the bucket resolved, the object was read, the blob store issued the grant that
is returned, and the object row was either probed, completed and touched, or
(already completed) only touched. -/
theorem download_txn_ok_inv (env : Env) (bucketName objectId : String) (expiresIn : Int)
    (s s1 : St) (r : PreSignedDownloadObject)
    (h : ObjectService.CreatePreSignedDownloadObject.txn env bucketName objectId expiresIn s
      = (Except.ok r, s1)) :
    ∃ bucket object grant, Resolves env s bucketName bucket ∧
      s.db.object? objectId = some object ∧
      env.presignDownload bucket.Name object.Name = some grant ∧
      r = { Url := grant.Url, Method := grant.Method, ExpiresAt := grant.ExpiresAt } ∧
      s1.blobs = s.blobs ∧ s1.db.buckets = s.db.buckets ∧ s1.db.jobs = s.db.jobs ∧
      ((object.UploadStatus ≠ UploadStatus.Completed ∧ (bucket.Name, object.Name) ∈ s.blobs ∧
          s1.db.objects = (s.db.objects.map (setUploadStatus object.ID UploadStatus.Completed)).map
            (setLastAccessedAt object.ID env.now) ∧
          s1.trace = s.trace ++
            [Call.db DbOp.GetBucketByName bucketName, Call.db DbOp.GetObjectById objectId,
             Call.storageExists bucket.Name object.Name (some true),
             Call.db DbOp.UpdateObjectUploadStatus object.ID,
             Call.storageDownload bucket.Name object.Name,
             Call.db DbOp.UpdateObjectLastAccessedAt object.ID]) ∨
        (object.UploadStatus = UploadStatus.Completed ∧
          s1.db.objects = s.db.objects.map (setLastAccessedAt object.ID env.now) ∧
          s1.trace = s.trace ++
            [Call.db DbOp.GetBucketByName bucketName, Call.db DbOp.GetObjectById objectId,
             Call.storageDownload bucket.Name object.Name,
             Call.db DbOp.UpdateObjectLastAccessedAt object.ID])) := by
  unfold ObjectService.CreatePreSignedDownloadObject.txn at h
  rw [getBucketByNameTxn_eq] at h
  rcases getBucketByName_cases env bucketName s with ⟨e, hb⟩ | ⟨e, hb⟩ | ⟨bucket, hres, hb⟩
  · simp [hb] at h
  · simp [hb] at h
  · rcases GetObjectById_cases env objectId (s.log (Call.db DbOp.GetBucketByName bucketName))
      with ⟨err, hg, _⟩ | ⟨o, hf, ho, hg⟩
    · simp only [hb, hg] at h
      split_ifs at h <;> simp at h
    · simp only [hb, hg] at h
      simp only [St.log_db] at ho
      cases hp : env.presignDownload bucket.Name o.Name with
      | none =>
        exfalso
        by_cases hc : o.UploadStatus = UploadStatus.Completed <;>
        by_cases h3 : env.checkExistsFails = true <;>
        by_cases h4 : (bucket.Name, o.Name) ∈ s.blobs <;>
        by_cases h5 : env.dbFails DbOp.UpdateObjectUploadStatus = true <;>
        by_cases hz : expiresIn = 0 <;>
        by_cases hle : expiresIn ≤ 0 <;>
        simp [hc, h3, h4, h5, hz, hle, hp, S3Storage.CheckIfObjectExists,
          Queries.UpdateObjectUploadStatus, validateExpiration,
          S3Storage.CreatePreSignedDownloadObject] at h
      | some g =>
        by_cases ht : env.dbFails DbOp.UpdateObjectLastAccessedAt = true
        · exfalso
          by_cases hc : o.UploadStatus = UploadStatus.Completed <;>
          by_cases h3 : env.checkExistsFails = true <;>
          by_cases h4 : (bucket.Name, o.Name) ∈ s.blobs <;>
          by_cases h5 : env.dbFails DbOp.UpdateObjectUploadStatus = true <;>
          by_cases hz : expiresIn = 0 <;>
          by_cases hle : expiresIn ≤ 0 <;>
          simp [hc, h3, h4, h5, hz, hle, hp, ht, S3Storage.CheckIfObjectExists,
            Queries.UpdateObjectUploadStatus, validateExpiration,
            S3Storage.CreatePreSignedDownloadObject, Queries.UpdateObjectLastAccessedAt] at h
        · by_cases hc : o.UploadStatus = UploadStatus.Completed
          · refine ⟨bucket, o, g, hres, ho, hp, ?_⟩
            by_cases hz : expiresIn = 0 <;>
            by_cases hle : expiresIn ≤ 0 <;>
            simp [hc, hz, hle, hp, ht, validateExpiration,
              S3Storage.CreatePreSignedDownloadObject, Queries.UpdateObjectLastAccessedAt,
              St.log] at h <;>
            obtain ⟨rfl, rfl⟩ := h <;>
            simp [hc]
          · by_cases h3 : env.checkExistsFails = true
            · simp [hc, h3, S3Storage.CheckIfObjectExists] at h
            by_cases h4 : (bucket.Name, o.Name) ∈ s.blobs
            swap
            · simp [hc, h3, h4, S3Storage.CheckIfObjectExists] at h
            by_cases h5 : env.dbFails DbOp.UpdateObjectUploadStatus = true
            · simp [hc, h3, h4, h5, S3Storage.CheckIfObjectExists,
                Queries.UpdateObjectUploadStatus] at h
            refine ⟨bucket, o, g, hres, ho, hp, ?_⟩
            by_cases hz : expiresIn = 0 <;>
            by_cases hle : expiresIn ≤ 0 <;>
            simp [hc, h3, h4, h5, hz, hle, hp, ht, S3Storage.CheckIfObjectExists,
              Queries.UpdateObjectUploadStatus, validateExpiration,
              S3Storage.CreatePreSignedDownloadObject, Queries.UpdateObjectLastAccessedAt,
              St.log] at h <;>
            obtain ⟨rfl, rfl⟩ := h <;>
            simp [hc, h4]

/-- The transaction body of `CreatePreSignedDownloadObject` never touches the
blobs. -/
theorem download_txn_blobs (env : Env) (bucketName objectId : String) (expiresIn : Int)
    (s : St) :
    (ObjectService.CreatePreSignedDownloadObject.txn env bucketName objectId expiresIn s).2.blobs
      = s.blobs := by
  unfold ObjectService.CreatePreSignedDownloadObject.txn
  rw [getBucketByNameTxn_eq]
  rcases getBucketByName_cases env bucketName s with ⟨e, hb⟩ | ⟨e, hb⟩ | ⟨bucket, hres, hb⟩
  · simp [hb]
  · simp [hb]
  · rcases GetObjectById_cases env objectId (s.log (Call.db DbOp.GetBucketByName bucketName))
      with ⟨err, hg, _⟩ | ⟨o, hf, ho, hg⟩
    · simp only [hb, hg]
      split_ifs <;> simp
    · simp only [hb, hg]
      by_cases hc : o.UploadStatus = UploadStatus.Completed <;>
      by_cases h3 : env.checkExistsFails = true <;>
      by_cases h4 : (bucket.Name, o.Name) ∈ s.blobs <;>
      by_cases h5 : env.dbFails DbOp.UpdateObjectUploadStatus = true <;>
      by_cases hz : expiresIn = 0 <;>
      by_cases hle : expiresIn ≤ 0 <;>
      cases hp : env.presignDownload bucket.Name o.Name <;>
      by_cases ht : env.dbFails DbOp.UpdateObjectLastAccessedAt = true <;>
      simp [hc, h3, h4, h5, hz, hle, hp, ht, S3Storage.CheckIfObjectExists,
        Queries.UpdateObjectUploadStatus, validateExpiration,
        S3Storage.CreatePreSignedDownloadObject, Queries.UpdateObjectLastAccessedAt]

/-- On an object that is not yet completed (pending or failed) in a resolvable
bucket, with `expiresIn ≥ 0`: when the blob exists and the blob store issues a
grant, `CreatePreSignedDownloadObject` records `completed`, touches the row and
returns the grant; when the blob is absent it fails with `NotFoundError` and
changes nothing. -/
theorem download_not_completed (env : Env) (s : St) (bucketName objectId : String)
    (expiresIn : Int) (bucket : StorageBucket) (object : StorageObject)
    (hres : Resolves env s bucketName bucket)
    (hoid : ValidateNotEmptyTrimmedString objectId = false)
    (hread : env.dbFails DbOp.GetObjectById = false)
    (hobj : s.db.object? objectId = some object)
    (hnc : object.UploadStatus ≠ UploadStatus.Completed)
    (hexp : 0 ≤ expiresIn)
    (hprobe : env.checkExistsFails = false) :
    (∀ grant, (bucket.Name, object.Name) ∈ s.blobs →
      env.presignDownload bucket.Name object.Name = some grant →
      env.dbFails DbOp.UpdateObjectUploadStatus = false →
      env.dbFails DbOp.UpdateObjectLastAccessedAt = false →
      env.dbFails DbOp.Commit = false →
      (ObjectService.CreatePreSignedDownloadObject env bucketName objectId expiresIn s).1
        = Except.ok { Url := grant.Url, Method := grant.Method, ExpiresAt := grant.ExpiresAt } ∧
      (ObjectService.CreatePreSignedDownloadObject env bucketName objectId expiresIn s).2.db.object?
          objectId
        = some { object with UploadStatus := UploadStatus.Completed,
                             LastAccessedAt := some env.now }) ∧
    ((bucket.Name, object.Name) ∉ s.blobs →
      (ObjectService.CreatePreSignedDownloadObject env bucketName objectId expiresIn s).1
        = Except.error Failure.NotFoundError ∧
      (ObjectService.CreatePreSignedDownloadObject env bucketName objectId expiresIn s).2.db
        = s.db) := by
  have hb := getBucketByName_of_resolves hres
  have hg := GetObjectById_of_found (s := s.log (Call.db DbOp.GetBucketByName bucketName))
    hread (by simpa using hobj)
  have hid := object?_id hobj
  have hunfold : ObjectService.CreatePreSignedDownloadObject env bucketName objectId expiresIn s
      = WithTransaction env
          (ObjectService.CreatePreSignedDownloadObject.txn env bucketName objectId expiresIn) s := by
    simp [ObjectService.CreatePreSignedDownloadObject, hres.1, hoid]
  constructor
  · intro grant hblob hgrant hupd htouch hcommit
    have h1 : ∃ s1, ObjectService.CreatePreSignedDownloadObject.txn env bucketName objectId
        expiresIn s
        = (Except.ok { Url := grant.Url, Method := grant.Method, ExpiresAt := grant.ExpiresAt },
            s1) := by
      unfold ObjectService.CreatePreSignedDownloadObject.txn
      rw [getBucketByNameTxn_eq]
      simp only [hb, hg]
      by_cases hz : expiresIn = 0
      · simp [hnc, hprobe, hblob, hupd, hz, hgrant, htouch, S3Storage.CheckIfObjectExists,
          Queries.UpdateObjectUploadStatus, S3Storage.CreatePreSignedDownloadObject,
          Queries.UpdateObjectLastAccessedAt]
      · have hle : ¬ expiresIn ≤ 0 := by omega
        simp [hnc, hprobe, hblob, hupd, hz, hle, hgrant, htouch, validateExpiration,
          S3Storage.CheckIfObjectExists, Queries.UpdateObjectUploadStatus,
          S3Storage.CreatePreSignedDownloadObject, Queries.UpdateObjectLastAccessedAt]
    obtain ⟨s1, htxn⟩ := h1
    obtain ⟨b2, o2, g2, hres2, ho2, _, _, _, _, _, hcase⟩ :=
      download_txn_ok_inv env bucketName objectId expiresIn s s1 _ htxn
    have hoeq : o2 = object := by
      rw [hobj] at ho2
      exact (Option.some.inj ho2).symm
    subst hoeq
    rw [hunfold, WithTransaction_of_ok env _ s s1 _ htxn hcommit]
    refine ⟨rfl, ?_⟩
    rcases hcase with ⟨_, _, hobjs, _⟩ | ⟨hc, _⟩
    · show List.find? _ (s1.log _).db.objects = _
      rw [St.log_db, hobjs, find?_map_of_ID _ (by simp), find?_map_of_ID _ (by simp)]
      have : s.db.objects.find? (fun o => o.ID == objectId) = some o2 := hobj
      rw [this]
      simp [setUploadStatus, setLastAccessedAt]
    · exact absurd hc hnc
  · intro hblob
    have h1 : ∃ s1, ObjectService.CreatePreSignedDownloadObject.txn env bucketName objectId
        expiresIn s = (Except.error Failure.NotFoundError, s1) := by
      unfold ObjectService.CreatePreSignedDownloadObject.txn
      rw [getBucketByNameTxn_eq]
      simp only [hb, hg]
      simp [hnc, hprobe, hblob, S3Storage.CheckIfObjectExists]
    obtain ⟨s1, htxn⟩ := h1
    rw [hunfold, WithTransaction_of_error env _ s s1 _ htxn]
    exact ⟨rfl, rfl⟩

/-- C8: on a pending object of a resolvable bucket, with `expiresIn ≥ 0`,
`CreatePreSignedDownloadObject` records `completed`, touches `lastAccessedAt` and
returns the url, method and expiry of the blob store's grant when the blob exists
and a grant is issued; when the blob is absent it fails with `NotFoundError` and
leaves the row (status and `lastAccessedAt`) as it was. -/
theorem download_pending_object (env : Env) (s : St) (bucketName objectId : String)
    (expiresIn : Int) (bucket : StorageBucket) (object : StorageObject)
    (hres : Resolves env s bucketName bucket)
    (hoid : ValidateNotEmptyTrimmedString objectId = false)
    (hread : env.dbFails DbOp.GetObjectById = false)
    (hobj : s.db.object? objectId = some object)
    (hpend : object.UploadStatus = UploadStatus.Pending)
    (hexp : 0 ≤ expiresIn)
    (hprobe : env.checkExistsFails = false) :
    (∀ grant, (bucket.Name, object.Name) ∈ s.blobs →
      env.presignDownload bucket.Name object.Name = some grant →
      env.dbFails DbOp.UpdateObjectUploadStatus = false →
      env.dbFails DbOp.UpdateObjectLastAccessedAt = false →
      env.dbFails DbOp.Commit = false →
      (ObjectService.CreatePreSignedDownloadObject env bucketName objectId expiresIn s).1
        = Except.ok { Url := grant.Url, Method := grant.Method, ExpiresAt := grant.ExpiresAt } ∧
      (ObjectService.CreatePreSignedDownloadObject env bucketName objectId expiresIn s).2.db.object?
          objectId
        = some { object with UploadStatus := UploadStatus.Completed,
                             LastAccessedAt := some env.now }) ∧
    ((bucket.Name, object.Name) ∉ s.blobs →
      (ObjectService.CreatePreSignedDownloadObject env bucketName objectId expiresIn s).1
        = Except.error Failure.NotFoundError ∧
      (ObjectService.CreatePreSignedDownloadObject env bucketName objectId expiresIn s).2.db.object?
          objectId = some object ∧
      (ObjectService.CreatePreSignedDownloadObject env bucketName objectId expiresIn s).2.db
        = s.db) := by
  have hnc : object.UploadStatus ≠ UploadStatus.Completed := by simp [hpend]
  have h := download_not_completed env s bucketName objectId expiresIn bucket object hres hoid
    hread hobj hnc hexp hprobe
  refine ⟨h.1, fun hblob => ?_⟩
  obtain ⟨h1, h2⟩ := h.2 hblob
  exact ⟨h1, by rw [h2]; exact hobj, h2⟩

/-- Witness for C8: the pending sample object, with its blob (default expiry) and
without it (explicit expiry). -/
theorem download_pending_object_witness :
    ((ObjectService.CreatePreSignedDownloadObject Env.healthy "pics" "o1" 0
        (sampleState UploadStatus.Pending true)).1
        = Except.ok { Url := "https://blob.example/down", Method := "GET", ExpiresAt := 2000 } ∧
      (ObjectService.CreatePreSignedDownloadObject Env.healthy "pics" "o1" 0
        (sampleState UploadStatus.Pending true)).2.db.object? "o1"
        = some { sampleObject UploadStatus.Pending with
                  UploadStatus := UploadStatus.Completed, LastAccessedAt := some 500 }) ∧
    ((ObjectService.CreatePreSignedDownloadObject Env.healthy "pics" "o1" 60
        (sampleState UploadStatus.Pending false)).1 = Except.error Failure.NotFoundError ∧
      (ObjectService.CreatePreSignedDownloadObject Env.healthy "pics" "o1" 60
        (sampleState UploadStatus.Pending false)).2.db.object? "o1"
        = some (sampleObject UploadStatus.Pending) ∧
      (ObjectService.CreatePreSignedDownloadObject Env.healthy "pics" "o1" 60
        (sampleState UploadStatus.Pending false)).2.db
        = (sampleState UploadStatus.Pending false).db) :=
  ⟨(download_pending_object Env.healthy (sampleState UploadStatus.Pending true) "pics" "o1" 0
      sampleBucket (sampleObject UploadStatus.Pending) (by decide) (by decide) rfl rfl rfl
      (by decide) rfl).1
      { Url := "https://blob.example/down", Method := "GET", ExpiresAt := 2000 }
      (by decide) rfl rfl rfl rfl,
   (download_pending_object Env.healthy (sampleState UploadStatus.Pending false) "pics" "o1" 60
      sampleBucket (sampleObject UploadStatus.Pending) (by decide) (by decide) rfl rfl rfl
      (by decide) rfl).2 (by decide)⟩

/-- C1 (the code departs from it): a download grant requested for a FAILED object
whose blob is in the store succeeds and rewrites the status to `completed`, a
transition out of a terminal status; `CompletePreSignedObjectUpload` refuses the
same object. -/
theorem download_leaves_terminal_status :
    (sampleState UploadStatus.Failed true).db.status? "o1" = some UploadStatus.Failed ∧
    (ObjectService.CreatePreSignedDownloadObject Env.healthy "pics" "o1" 0
        (sampleState UploadStatus.Failed true)).1
      = Except.ok { Url := "https://blob.example/down", Method := "GET", ExpiresAt := 2000 } ∧
    (ObjectService.CreatePreSignedDownloadObject Env.healthy "pics" "o1" 0
        (sampleState UploadStatus.Failed true)).2.db.status? "o1"
      = some UploadStatus.Completed ∧
    (ObjectService.CompletePreSignedObjectUpload Env.healthy "pics" "o1"
        (sampleState UploadStatus.Failed true)).1 = Except.error Failure.InvalidInputError := by
  refine ⟨rfl, rfl, rfl, rfl⟩

/-! ## CreatePreSignedUploadObject -/

/-- The expiry step either refuses the request or yields the supplied expiry,
which is then positive, or the default. -/
theorem upload_expiresIn_cases (env : Env) (create : PreSignedUploadObjectCreate) :
    (ObjectService.CreatePreSignedUploadObject.expiresIn env create
        = Except.error Failure.InvalidInputError ∧ ∃ e, create.ExpiresIn = some e ∧ e ≤ 0) ∨
    (ObjectService.CreatePreSignedUploadObject.expiresIn env create
        = Except.ok (create.ExpiresIn.getD env.DefaultPreSignedUploadUrlExpiresIn) ∧
      ∀ e, create.ExpiresIn = some e → 0 < e) := by
  unfold ObjectService.CreatePreSignedUploadObject.expiresIn
  rcases hE : create.ExpiresIn with _ | e
  · simp
  · by_cases hle : e ≤ 0
    · simp [validateExpiration, hle]
    · right
      simp [validateExpiration, hle]
      omega

/-- The content-type step either refuses the request or yields the supplied
content type, which is then well formed, or the default. -/
theorem upload_contentType_cases (create : PreSignedUploadObjectCreate) :
    (ObjectService.CreatePreSignedUploadObject.contentType create
        = Except.error Failure.InvalidInputError ∧
      ∃ ct, create.ContentType = some ct ∧ ValidateContentType ct = true) ∨
    (ObjectService.CreatePreSignedUploadObject.contentType create
        = Except.ok (create.ContentType.getD DefaultContentType) ∧
      ∀ ct, create.ContentType = some ct → ValidateContentType ct = false) := by
  unfold ObjectService.CreatePreSignedUploadObject.contentType
  rcases hC : create.ContentType with _ | ct
  · simp
  · by_cases hv : ValidateContentType ct = true
    · simp [validateContentType, hv]
    · right
      simp [validateContentType, hv]

/-- A successful run of the transaction body of `CreatePreSignedUploadObject`:
the bucket resolved, the request passed validation, the blob store issued the
grant, and exactly the expected row and task were written. -/
theorem upload_txn_ok_inv (env : Env) (bucketName : String)
    (create : PreSignedUploadObjectCreate) (s s1 : St) (id : String) (grant : PreSignedObject)
    (h : ObjectService.CreatePreSignedUploadObject.txn env bucketName create s
      = (Except.ok (id, grant), s1)) :
    ∃ bucket metadataBytes, Resolves env s bucketName bucket ∧
      env.presignUpload (uploadRequest env bucket create) = some grant ∧
      env.marshal create.Metadata = some metadataBytes ∧
      id = env.newObjectId ∧ env.dbFails DbOp.InsertJob = false ∧
      (∀ o ∈ s.db.objects,
        o.ID ≠ env.newObjectId ∧ (o.BucketID = bucket.ID → o.Name ≠ create.Name)) ∧
      s1.db.buckets = s.db.buckets ∧
      s1.db.objects = s.db.objects ++ [pendingRow id bucket create metadataBytes] ∧
      s1.db.jobs = s.db.jobs ++ [reconciliationJob bucket create id grant] ∧
      s1.blobs = s.blobs ∧
      s1.trace = s.trace ++
        [Call.db DbOp.GetBucketByName bucketName,
         Call.storageUpload (uploadRequest env bucket create),
         Call.db DbOp.CreateObject create.Name,
         Call.jobInsert (reconciliationJob bucket create id grant)] := by
  unfold ObjectService.CreatePreSignedUploadObject.txn at h
  rw [getBucketByNameTxn_eq] at h
  rcases getBucketByName_cases env bucketName s with ⟨e, hb⟩ | ⟨e, hb⟩ | ⟨bucket, hres, hb⟩
  · simp [hb] at h
  · simp [hb] at h
  simp only [hb] at h
  rcases upload_expiresIn_cases env create with ⟨hx, _⟩ | ⟨hx, _⟩
  · simp [hx] at h
  rcases upload_contentType_cases create with ⟨hc, _⟩ | ⟨hc, _⟩
  · simp [hx, hc] at h
  simp only [hx, hc] at h
  by_cases hsz : create.Size ≤ 0
  · simp [validateContentSize, hsz] at h
  cases hP : env.presignUpload (uploadRequest env bucket create) with
  | none =>
    simp only [uploadRequest] at hP
    simp [validateContentSize, hsz, S3Storage.CreatePreSignedUploadObject, hP] at h
  | some g =>
    simp only [uploadRequest] at hP
    cases hM : env.marshal create.Metadata with
    | none =>
      simp [validateContentSize, hsz, S3Storage.CreatePreSignedUploadObject, hP, metadataToBytes,
        hM] at h
    | some bytes =>
      by_cases hF : env.dbFails DbOp.CreateObject = true
      · simp [validateContentSize, hsz, S3Storage.CreatePreSignedUploadObject, hP,
          metadataToBytes, hM, Queries.CreateObject, hF, IsConflictError] at h
      by_cases hX : s.db.objects.any (fun o => o.ID == env.newObjectId ||
          (o.BucketID == bucket.ID && o.Name == create.Name)) = true
      · simp only [validateContentSize, hsz, S3Storage.CreatePreSignedUploadObject, hP,
          metadataToBytes, hM, Queries.CreateObject, hF, St.log_db, hX, if_true, if_false,
          IsConflictError] at h
        simp at h
      by_cases hJ : env.dbFails DbOp.InsertJob = true
      · simp only [validateContentSize, hsz, S3Storage.CreatePreSignedUploadObject, hP,
          metadataToBytes, hM, Queries.CreateObject, hF, St.log_db, hX, if_true, if_false,
          JobClient.InsertTx, hJ] at h
        simp at h
      simp only [validateContentSize, hsz, S3Storage.CreatePreSignedUploadObject, hP,
        metadataToBytes, hM, Queries.CreateObject, hF, St.log_db, hX, if_true, if_false,
        JobClient.InsertTx, hJ, Bool.false_eq_true] at h
      simp only [Prod.mk.injEq, Except.ok.injEq] at h
      obtain ⟨⟨rfl, rfl⟩, rfl⟩ := h
      refine ⟨bucket, bytes, hres, by simpa [uploadRequest] using hP, rfl, rfl,
        by simpa using hJ, ?_, rfl, ?_, ?_, rfl, ?_⟩
      · intro o ho
        have := hX
        simp only [List.any_eq_true, not_exists, not_and] at this
        have h2 := this o ho
        simp at h2
        exact ⟨h2.1, h2.2⟩
      · simp [pendingRow, St.log]
      · simp [reconciliationJob, St.log]
      · simp [reconciliationJob, uploadRequest, St.log]

/-- The name of a bucket found by name is that name. -/
theorem bucketByName?_name {d : Db} {name : String} {b : StorageBucket}
    (h : d.bucketByName? name = some b) : b.Name = name := by
  have := List.find?_some h
  simpa using this

/-- A successful `CreatePreSignedUploadObject`: what was resolved, issued,
written, logged and returned. -/
theorem upload_ok_inv (env : Env) (bucketName : String) (create : PreSignedUploadObjectCreate)
    (s t : St) (r : PreSignedUploadObject)
    (h : ObjectService.CreatePreSignedUploadObject env bucketName create s = (Except.ok r, t)) :
    ∃ bucket metadataBytes grant, Resolves env s bucketName bucket ∧
      env.presignUpload (uploadRequest env bucket create) = some grant ∧
      env.marshal create.Metadata = some metadataBytes ∧
      env.dbFails DbOp.InsertJob = false ∧
      r = { Id := env.newObjectId, Url := grant.Url, Method := grant.Method,
            ExpiresAt := grant.ExpiresAt } ∧
      (∀ o ∈ s.db.objects,
        o.ID ≠ env.newObjectId ∧ (o.BucketID = bucket.ID → o.Name ≠ create.Name)) ∧
      t.db.buckets = s.db.buckets ∧
      t.db.objects = s.db.objects ++ [pendingRow env.newObjectId bucket create metadataBytes] ∧
      t.db.jobs = s.db.jobs ++ [reconciliationJob bucket create env.newObjectId grant] ∧
      t.blobs = s.blobs ∧
      newCalls s t =
        [Call.db DbOp.GetBucketByName bucketName,
         Call.storageUpload (uploadRequest env bucket create),
         Call.db DbOp.CreateObject create.Name,
         Call.jobInsert (reconciliationJob bucket create env.newObjectId grant),
         Call.db DbOp.Commit ""] := by
  unfold ObjectService.CreatePreSignedUploadObject at h
  by_cases h1 : ValidateNotEmptyTrimmedString bucketName = true
  · simp [h1] at h
  simp only [h1] at h
  rcases hW : WithTransaction env
      (ObjectService.CreatePreSignedUploadObject.txn env bucketName create) s with ⟨rw, sw⟩
  rw [hW] at h
  cases rw with
  | error e => simp at h
  | ok p =>
    obtain ⟨id, g⟩ := p
    simp only [Bool.false_eq_true, if_false, Prod.mk.injEq, Except.ok.injEq] at h
    obtain ⟨rfl, rfl⟩ := h
    have hok : (WithTransaction env
        (ObjectService.CreatePreSignedUploadObject.txn env bucketName create) s).1
        = Except.ok (id, g) := by rw [hW]
    obtain ⟨h2, hcommit, hst⟩ := WithTransaction_ok_inv env _ s (id, g) hok
    rw [hW] at hst
    simp only at hst
    have htxn : ObjectService.CreatePreSignedUploadObject.txn env bucketName create s
        = (Except.ok (id, g),
            (ObjectService.CreatePreSignedUploadObject.txn env bucketName create s).2) :=
      Prod.ext h2 rfl
    obtain ⟨bucket, bytes, hres, hP, hM, hid, hJ, hfresh, hbk, hobjs, hjobs, hblobs, htr⟩ :=
      upload_txn_ok_inv env bucketName create s _ id g htxn
    subst hid
    refine ⟨bucket, bytes, g, hres, hP, hM, hJ, rfl, hfresh, ?_, ?_, ?_, ?_, ?_⟩
    · rw [hst]; exact hbk
    · rw [hst]; exact hobjs
    · rw [hst]; exact hjobs
    · rw [hst]; exact hblobs
    · apply newCalls_of_trace
      rw [hst, St.log_trace, htr]
      simp

/-- C3: a successful `CreatePreSignedUploadObject` adds exactly one object row (in
the resolved bucket, with the requested name and size, the supplied content type
or `application/octet-stream`, status `pending`, under a fresh id), schedules
exactly one reconciliation task (bucket name, object name, the new id; due at
the grant's `ExpiresAt`), and returns the new id with the url, method and expiry
of the grant the blob store issued. -/
theorem upload_success_adds_row_and_task (env : Env) (bucketName : String)
    (create : PreSignedUploadObjectCreate) (s t : St) (r : PreSignedUploadObject)
    (h : ObjectService.CreatePreSignedUploadObject env bucketName create s = (Except.ok r, t)) :
    ∃ bucket metadataBytes grant,
      s.db.bucketByName? bucketName = some bucket ∧ bucket.Name = bucketName ∧
      env.presignUpload
        { Bucket := bucketName, Name := create.Name,
          ExpiresIn := some (create.ExpiresIn.getD env.DefaultPreSignedUploadUrlExpiresIn),
          ContentType := create.ContentType.getD "application/octet-stream",
          Size := create.Size } = some grant ∧
      (∀ o ∈ s.db.objects, o.ID ≠ r.Id) ∧
      t.db.objects = s.db.objects ++
        [{ ID := r.Id, BucketID := bucket.ID, Name := create.Name,
           ContentType := create.ContentType.getD "application/octet-stream",
           Size := create.Size, Metadata := metadataBytes,
           UploadStatus := UploadStatus.Pending, LastAccessedAt := none }] ∧
      t.db.jobs = s.db.jobs ++
        [{ BucketName := bucketName, ObjectName := create.Name, ObjectId := r.Id,
           ScheduledAt := grant.ExpiresAt }] ∧
      t.db.buckets = s.db.buckets ∧
      (newCalls s t).filter (fun c => match c with | Call.jobInsert _ => true | _ => false)
        = [Call.jobInsert { BucketName := bucketName, ObjectName := create.Name,
                            ObjectId := r.Id, ScheduledAt := grant.ExpiresAt }] ∧
      r = { Id := r.Id, Url := grant.Url, Method := grant.Method,
            ExpiresAt := grant.ExpiresAt } := by
  obtain ⟨bucket, bytes, g, hres, hP, _, _, hr, hfresh, hbk, hobjs, hjobs, _, htr⟩ :=
    upload_ok_inv env bucketName create s t r h
  have hname := bucketByName?_name hres.2.2.2.1
  subst hr
  refine ⟨bucket, bytes, g, hres.2.2.2.1, hname, ?_, fun o ho => (hfresh o ho).1, ?_, ?_, hbk,
    ?_, rfl⟩
  · simpa [uploadRequest, DefaultContentType, hname] using hP
  · simpa [pendingRow, DefaultContentType] using hobjs
  · simpa [reconciliationJob, hname] using hjobs
  · rw [htr]
    simp [reconciliationJob, hname]

/-- Witness for C3: an upload of a new name into the sample bucket. -/
theorem upload_success_adds_row_and_task_witness :
    ObjectService.CreatePreSignedUploadObject Env.healthy "pics" (sampleUpload "c/d.png")
        (sampleState UploadStatus.Completed true)
      = (Except.ok { Id := "o2", Url := "https://blob.example/up", Method := "PUT",
                     ExpiresAt := 1000 },
          (ObjectService.CreatePreSignedUploadObject Env.healthy "pics" (sampleUpload "c/d.png")
            (sampleState UploadStatus.Completed true)).2) ∧
    ∃ bucket metadataBytes grant,
      (sampleState UploadStatus.Completed true).db.bucketByName? "pics" = some bucket ∧
      bucket.Name = "pics" ∧
      Env.healthy.presignUpload
        { Bucket := "pics", Name := (sampleUpload "c/d.png").Name,
          ExpiresIn := some ((sampleUpload "c/d.png").ExpiresIn.getD
            Env.healthy.DefaultPreSignedUploadUrlExpiresIn),
          ContentType := (sampleUpload "c/d.png").ContentType.getD "application/octet-stream",
          Size := (sampleUpload "c/d.png").Size } = some grant ∧
      (∀ o ∈ (sampleState UploadStatus.Completed true).db.objects, o.ID ≠ "o2") ∧
      (ObjectService.CreatePreSignedUploadObject Env.healthy "pics" (sampleUpload "c/d.png")
          (sampleState UploadStatus.Completed true)).2.db.objects
        = (sampleState UploadStatus.Completed true).db.objects ++
          [{ ID := "o2", BucketID := bucket.ID, Name := (sampleUpload "c/d.png").Name,
             ContentType := (sampleUpload "c/d.png").ContentType.getD "application/octet-stream",
             Size := (sampleUpload "c/d.png").Size, Metadata := metadataBytes,
             UploadStatus := UploadStatus.Pending, LastAccessedAt := none }] ∧
      (ObjectService.CreatePreSignedUploadObject Env.healthy "pics" (sampleUpload "c/d.png")
          (sampleState UploadStatus.Completed true)).2.db.jobs
        = (sampleState UploadStatus.Completed true).db.jobs ++
          [{ BucketName := "pics", ObjectName := (sampleUpload "c/d.png").Name, ObjectId := "o2",
             ScheduledAt := grant.ExpiresAt }] ∧
      (ObjectService.CreatePreSignedUploadObject Env.healthy "pics" (sampleUpload "c/d.png")
          (sampleState UploadStatus.Completed true)).2.db.buckets
        = (sampleState UploadStatus.Completed true).db.buckets ∧
      (newCalls (sampleState UploadStatus.Completed true)
          (ObjectService.CreatePreSignedUploadObject Env.healthy "pics" (sampleUpload "c/d.png")
            (sampleState UploadStatus.Completed true)).2).filter
          (fun c => match c with | Call.jobInsert _ => true | _ => false)
        = [Call.jobInsert { BucketName := "pics", ObjectName := (sampleUpload "c/d.png").Name,
                            ObjectId := "o2", ScheduledAt := grant.ExpiresAt }] ∧
      ({ Id := "o2", Url := "https://blob.example/up", Method := "PUT", ExpiresAt := 1000 } :
          PreSignedUploadObject)
        = { Id := "o2", Url := grant.Url, Method := grant.Method, ExpiresAt := grant.ExpiresAt } :=
  ⟨rfl,
   upload_success_adds_row_and_task Env.healthy "pics" (sampleUpload "c/d.png")
    (sampleState UploadStatus.Completed true)
    (ObjectService.CreatePreSignedUploadObject Env.healthy "pics" (sampleUpload "c/d.png")
      (sampleState UploadStatus.Completed true)).2
    { Id := "o2", Url := "https://blob.example/up", Method := "PUT", ExpiresAt := 1000 }
    rfl⟩

/-- A failing `CreatePreSignedUploadObject` leaves the metadata store as it
found it. -/
theorem upload_error_db (env : Env) (bucketName : String) (create : PreSignedUploadObjectCreate)
    (s : St) (e : Failure)
    (h : (ObjectService.CreatePreSignedUploadObject env bucketName create s).1 = Except.error e) :
    (ObjectService.CreatePreSignedUploadObject env bucketName create s).2.db = s.db := by
  unfold ObjectService.CreatePreSignedUploadObject at h ⊢
  by_cases h1 : ValidateNotEmptyTrimmedString bucketName = true
  · simp [h1]
  simp only [h1] at h ⊢
  rcases hW : WithTransaction env
      (ObjectService.CreatePreSignedUploadObject.txn env bucketName create) s with ⟨rw, sw⟩
  rw [hW] at h
  cases rw with
  | error e1 =>
    have := WithTransaction_error_db env _ s e1 (by rw [hW])
    rw [hW] at this
    simpa using this
  | ok p => simp at h

/-- C4: `CreatePreSignedUploadObject` commits an object row exactly when it commits
the reconciliation task of that row: a successful call adds one row and one task
for it, a failing call adds neither, and that includes a task insert that fails
after the row insert went through. -/
theorem upload_row_iff_task (env : Env) (bucketName : String)
    (create : PreSignedUploadObjectCreate) (s : St) :
    ((∃ r bucket metadataBytes grant,
        (ObjectService.CreatePreSignedUploadObject env bucketName create s).1 = Except.ok r ∧
        (ObjectService.CreatePreSignedUploadObject env bucketName create s).2.db.objects
          = s.db.objects ++ [pendingRow r.Id bucket create metadataBytes] ∧
        (ObjectService.CreatePreSignedUploadObject env bucketName create s).2.db.jobs
          = s.db.jobs ++ [reconciliationJob bucket create r.Id grant]) ∨
      (∃ e,
        (ObjectService.CreatePreSignedUploadObject env bucketName create s).1 = Except.error e ∧
        (ObjectService.CreatePreSignedUploadObject env bucketName create s).2.db.objects
          = s.db.objects ∧
        (ObjectService.CreatePreSignedUploadObject env bucketName create s).2.db.jobs
          = s.db.jobs)) ∧
    (env.dbFails DbOp.InsertJob = true →
      ∃ e,
        (ObjectService.CreatePreSignedUploadObject env bucketName create s).1 = Except.error e ∧
        (ObjectService.CreatePreSignedUploadObject env bucketName create s).2.db.objects
          = s.db.objects ∧
        (ObjectService.CreatePreSignedUploadObject env bucketName create s).2.db.jobs
          = s.db.jobs) := by
  rcases hrun : ObjectService.CreatePreSignedUploadObject env bucketName create s with ⟨res, t⟩
  cases res with
  | error e =>
    have hdb := upload_error_db env bucketName create s e (by rw [hrun])
    rw [hrun] at hdb
    simp only at hdb
    exact ⟨Or.inr ⟨e, rfl, by rw [hdb], by rw [hdb]⟩, fun _ => ⟨e, rfl, by rw [hdb], by rw [hdb]⟩⟩
  | ok r =>
    obtain ⟨bucket, bytes, g, _, _, _, hJ, hr, _, _, hobjs, hjobs, _, _⟩ :=
      upload_ok_inv env bucketName create s t r hrun
    constructor
    · left
      refine ⟨r, bucket, bytes, g, rfl, ?_, ?_⟩
      · rw [hr]; exact hobjs
      · rw [hr]; exact hjobs
    · intro hfail
      rw [hJ] at hfail
      cases hfail

/-- Witness for C4: with a failing task insert the row insert is issued and goes
through inside the transaction, then the task insert fails, and neither a row
nor a task is left. -/
theorem upload_row_iff_task_witness :
    (Env.failing [DbOp.InsertJob]).dbFails DbOp.InsertJob = true ∧
    newCalls (sampleState UploadStatus.Completed true)
        (ObjectService.CreatePreSignedUploadObject (Env.failing [DbOp.InsertJob]) "pics"
          (sampleUpload "c/d.png") (sampleState UploadStatus.Completed true)).2
      = [Call.db DbOp.GetBucketByName "pics",
         Call.storageUpload (uploadRequest (Env.failing [DbOp.InsertJob]) sampleBucket
           (sampleUpload "c/d.png")),
         Call.db DbOp.CreateObject "c/d.png",
         Call.jobInsert (reconciliationJob sampleBucket (sampleUpload "c/d.png") "o2"
           { Url := "https://blob.example/up", Method := "PUT", ExpiresAt := 1000 })] ∧
    ∃ e,
      (ObjectService.CreatePreSignedUploadObject (Env.failing [DbOp.InsertJob]) "pics"
        (sampleUpload "c/d.png") (sampleState UploadStatus.Completed true)).1 = Except.error e ∧
      (ObjectService.CreatePreSignedUploadObject (Env.failing [DbOp.InsertJob]) "pics"
        (sampleUpload "c/d.png") (sampleState UploadStatus.Completed true)).2.db.objects
        = (sampleState UploadStatus.Completed true).db.objects ∧
      (ObjectService.CreatePreSignedUploadObject (Env.failing [DbOp.InsertJob]) "pics"
        (sampleUpload "c/d.png") (sampleState UploadStatus.Completed true)).2.db.jobs
        = (sampleState UploadStatus.Completed true).db.jobs :=
  ⟨rfl, rfl,
   (upload_row_iff_task (Env.failing [DbOp.InsertJob]) "pics" (sampleUpload "c/d.png")
      (sampleState UploadStatus.Completed true)).2 rfl⟩

/-- C5: when the resolved bucket already holds an object of the requested name,
`CreatePreSignedUploadObject` fails and leaves every row and the task table as
they were; the failure is `ConflictError` whenever the request is otherwise
acceptable (valid expiry, content type and size, a grant issued, metadata
serialised, the insert statement reaching the table), and then no task insert is
issued at all. -/
theorem upload_existing_name_conflicts (env : Env) (s : St) (bucketName : String)
    (create : PreSignedUploadObjectCreate) (bucket : StorageBucket) (existing : StorageObject)
    (hres : Resolves env s bucketName bucket)
    (hmem : existing ∈ s.db.objects)
    (hbucket : existing.BucketID = bucket.ID)
    (hname : existing.Name = create.Name) :
    (∃ e, (ObjectService.CreatePreSignedUploadObject env bucketName create s).1
        = Except.error e) ∧
    (ObjectService.CreatePreSignedUploadObject env bucketName create s).2.db = s.db ∧
    existing ∈ (ObjectService.CreatePreSignedUploadObject env bucketName create s).2.db.objects ∧
    (∀ grant metadataBytes,
      (∀ e, create.ExpiresIn = some e → 0 < e) →
      (∀ ct, create.ContentType = some ct → ValidateContentType ct = false) →
      0 < create.Size →
      env.presignUpload (uploadRequest env bucket create) = some grant →
      env.marshal create.Metadata = some metadataBytes →
      env.dbFails DbOp.CreateObject = false →
      (ObjectService.CreatePreSignedUploadObject env bucketName create s).1
        = Except.error Failure.ConflictError ∧
      newCalls s (ObjectService.CreatePreSignedUploadObject env bucketName create s).2
        = [Call.db DbOp.GetBucketByName bucketName,
           Call.storageUpload (uploadRequest env bucket create),
           Call.db DbOp.CreateObject create.Name]) := by
  have herr : ∃ e, (ObjectService.CreatePreSignedUploadObject env bucketName create s).1
      = Except.error e := by
    rcases hrun : ObjectService.CreatePreSignedUploadObject env bucketName create s with ⟨res, t⟩
    cases res with
    | error e => exact ⟨e, rfl⟩
    | ok r =>
      exfalso
      obtain ⟨b2, _, _, hres2, _, _, _, _, hfresh, _⟩ :=
        upload_ok_inv env bucketName create s t r hrun
      have hb : b2 = bucket := by
        have h1 := hres2.2.2.2.1
        rw [hres.2.2.2.1] at h1
        exact (Option.some.inj h1).symm
      subst hb
      exact (hfresh existing hmem).2 hbucket hname
  obtain ⟨e, he⟩ := herr
  have hdb := upload_error_db env bucketName create s e he
  refine ⟨⟨e, he⟩, hdb, by rw [hdb]; exact hmem, ?_⟩
  intro grant bytes hE hC hsz hP hM hF
  have hb := getBucketByName_of_resolves hres
  have hx : ObjectService.CreatePreSignedUploadObject.expiresIn env create
      = Except.ok (create.ExpiresIn.getD env.DefaultPreSignedUploadUrlExpiresIn) := by
    rcases upload_expiresIn_cases env create with ⟨_, e1, h1, h2⟩ | ⟨hx, _⟩
    · have := hE e1 h1
      omega
    · exact hx
  have hc : ObjectService.CreatePreSignedUploadObject.contentType create
      = Except.ok (create.ContentType.getD DefaultContentType) := by
    rcases upload_contentType_cases create with ⟨_, ct, h1, h2⟩ | ⟨hc, _⟩
    · rw [hC ct h1] at h2
      cases h2
    · exact hc
  have hsz2 : ¬ create.Size ≤ 0 := by omega
  have hX : s.db.objects.any (fun o => o.ID == env.newObjectId ||
      (o.BucketID == bucket.ID && o.Name == create.Name)) = true := by
    rw [List.any_eq_true]
    exact ⟨existing, hmem, by simp [hbucket, hname]⟩
  simp only [uploadRequest] at hP
  have htxn : ObjectService.CreatePreSignedUploadObject.txn env bucketName create s
      = (Except.error Failure.ConflictError,
          ((s.log (Call.db DbOp.GetBucketByName bucketName)).log
            (Call.storageUpload (uploadRequest env bucket create))).log
            (Call.db DbOp.CreateObject create.Name)) := by
    unfold ObjectService.CreatePreSignedUploadObject.txn
    rw [getBucketByNameTxn_eq]
    simp only [hb, hx, hc]
    simp [validateContentSize, hsz2, S3Storage.CreatePreSignedUploadObject, hP, metadataToBytes,
      hM, Queries.CreateObject, hF, hX, IsConflictError, uploadRequest]
  have hrun : ObjectService.CreatePreSignedUploadObject env bucketName create s
      = (Except.error Failure.ConflictError,
          { ((s.log (Call.db DbOp.GetBucketByName bucketName)).log
              (Call.storageUpload (uploadRequest env bucket create))).log
              (Call.db DbOp.CreateObject create.Name) with db := s.db }) := by
    unfold ObjectService.CreatePreSignedUploadObject
    simp only [hres.1, Bool.false_eq_true, if_false]
    rw [WithTransaction_of_error env _ s _ _ htxn]
  rw [hrun]
  refine ⟨rfl, ?_⟩
  apply newCalls_of_trace
  simp

/-- Witness for C5: a second upload grant for the name of the sample object. -/
theorem upload_existing_name_conflicts_witness :
    Resolves Env.healthy (sampleState UploadStatus.Pending false) "pics" sampleBucket ∧
    sampleObject UploadStatus.Pending ∈ (sampleState UploadStatus.Pending false).db.objects ∧
    (ObjectService.CreatePreSignedUploadObject Env.healthy "pics" (sampleUpload "a/b.png")
        (sampleState UploadStatus.Pending false)).1 = Except.error Failure.ConflictError ∧
    (ObjectService.CreatePreSignedUploadObject Env.healthy "pics" (sampleUpload "a/b.png")
        (sampleState UploadStatus.Pending false)).2.db = (sampleState UploadStatus.Pending false).db ∧
    newCalls (sampleState UploadStatus.Pending false)
        (ObjectService.CreatePreSignedUploadObject Env.healthy "pics" (sampleUpload "a/b.png")
          (sampleState UploadStatus.Pending false)).2
      = [Call.db DbOp.GetBucketByName "pics",
         Call.storageUpload (uploadRequest Env.healthy sampleBucket (sampleUpload "a/b.png")),
         Call.db DbOp.CreateObject (sampleUpload "a/b.png").Name] :=
  ⟨by decide, by decide,
   ((upload_existing_name_conflicts Env.healthy (sampleState UploadStatus.Pending false) "pics"
      (sampleUpload "a/b.png") sampleBucket (sampleObject UploadStatus.Pending) (by decide)
      (by decide) rfl rfl).2.2.2
      { Url := "https://blob.example/up", Method := "PUT", ExpiresAt := 1000 } "null"
      (by intro e he; cases he) (by intro ct hct; cases hct; decide) (by decide) rfl rfl rfl).1,
   (upload_existing_name_conflicts Env.healthy (sampleState UploadStatus.Pending false) "pics"
      (sampleUpload "a/b.png") sampleBucket (sampleObject UploadStatus.Pending) (by decide)
      (by decide) rfl rfl).2.1,
   ((upload_existing_name_conflicts Env.healthy (sampleState UploadStatus.Pending false) "pics"
      (sampleUpload "a/b.png") sampleBucket (sampleObject UploadStatus.Pending) (by decide)
      (by decide) rfl rfl).2.2.2
      { Url := "https://blob.example/up", Method := "PUT", ExpiresAt := 1000 } "null"
      (by intro e he; cases he) (by intro ct hct; cases hct; decide) (by decide) rfl rfl rfl).2⟩

/-! ## Status changes across the object operations -/

/-- The upload status of the first row with the given id in a list of rows. -/
theorem status?_eq (d : Db) (id : String) :
    d.status? id = (d.objects.find? (fun o => o.ID == id)).map (fun o => o.UploadStatus) := rfl

/-- Appending a pending row creates no completed or failed status and changes
no status that was there. -/
theorem status_append_pending (l : List StorageObject) (row : StorageObject) (id : String)
    (st : UploadStatus) (hrow : row.UploadStatus = UploadStatus.Pending)
    (hst : st ≠ UploadStatus.Pending)
    (h : ((l ++ [row]).find? (fun o => o.ID == id)).map (fun o => o.UploadStatus) = some st) :
    (l.find? (fun o => o.ID == id)).map (fun o => o.UploadStatus) = some st := by
  rw [List.find?_append] at h
  cases hl : l.find? (fun o => o.ID == id) with
  | some o => simpa [hl] using h
  | none =>
    exfalso
    simp only [hl, Option.none_or] at h
    by_cases hid : row.ID = id
    · simp [List.find?, hid, hrow] at h
      exact hst h.symm
    · have hb : (row.ID == id) = false := by simpa using hid
      simp [List.find?, hb] at h

/-- Setting a status row-wise: a row ends in a status other than the one set
only if it was in that status before. -/
theorem status_map_setUploadStatus (l : List StorageObject) (oid id : String)
    (new st : UploadStatus) (hne : st ≠ new)
    (h : ((l.map (setUploadStatus oid new)).find? (fun o => o.ID == id)).map
      (fun o => o.UploadStatus) = some st) :
    (l.find? (fun o => o.ID == id)).map (fun o => o.UploadStatus) = some st := by
  rw [find?_map_of_ID _ (by simp)] at h
  cases hl : l.find? (fun o => o.ID == id) with
  | none => simp [hl] at h
  | some o =>
    simp only [hl, Option.map_some', Option.some.injEq] at h ⊢
    unfold setUploadStatus at h
    by_cases hid : o.ID = oid
    · simp [hid] at h
      exact absurd h.symm hne
    · simpa [hid] using h

/-- Setting the status of the rows of one id changes no status under another id. -/
theorem status_map_setUploadStatus_ne (l : List StorageObject) (oid id : String)
    (new : UploadStatus) (hne : id ≠ oid) :
    ((l.map (setUploadStatus oid new)).find? (fun o => o.ID == id)).map
      (fun o => o.UploadStatus)
      = (l.find? (fun o => o.ID == id)).map (fun o => o.UploadStatus) := by
  rw [find?_map_of_ID _ (by simp)]
  cases hl : l.find? (fun o => o.ID == id) with
  | none => rfl
  | some o =>
    have hid : o.ID = id := by simpa using List.find?_some hl
    have hb : (o.ID == oid) = false := by
      rw [hid]
      simpa using hne
    simp [setUploadStatus, hb]

/-- Touching rows changes no status. -/
theorem status_map_setLastAccessedAt (l : List StorageObject) (oid id : String) (now : Int) :
    ((l.map (setLastAccessedAt oid now)).find? (fun o => o.ID == id)).map
      (fun o => o.UploadStatus)
      = (l.find? (fun o => o.ID == id)).map (fun o => o.UploadStatus) := by
  rw [find?_map_of_ID _ (by simp)]
  cases hl : l.find? (fun o => o.ID == id) with
  | none => rfl
  | some o =>
    simp only [Option.map_some', Option.some.injEq]
    unfold setLastAccessedAt
    split <;> rfl

/-- Deleting the rows of one id changes no status of a row that remains. -/
theorem status_filter (l : List StorageObject) (oid id : String) (st : UploadStatus)
    (h : ((l.filter (fun o => !(o.ID == oid))).find? (fun o => o.ID == id)).map
      (fun o => o.UploadStatus) = some st) :
    (l.find? (fun o => o.ID == id)).map (fun o => o.UploadStatus) = some st := by
  by_cases hid : id = oid
  · subst hid
    exfalso
    have hnone : (l.filter (fun o => !(o.ID == id))).find? (fun o => o.ID == id) = none := by
      rw [List.find?_eq_none]
      intro x hx
      have := (List.mem_filter.mp hx).2
      simpa using this
    rw [hnone] at h
    simp at h
  · have hsame : (l.filter (fun o => !(o.ID == oid))).find? (fun o => o.ID == id)
        = l.find? (fun o => o.ID == id) := by
      induction l with
      | nil => rfl
      | cons a t ih =>
        by_cases ha : a.ID = oid
        · have hne : ¬ a.ID = id := fun h2 => hid (h2.symm.trans ha)
          have hb1 : (a.ID == oid) = true := by simpa using ha
          have hb2 : (a.ID == id) = false := by simpa using hne
          rw [List.filter_cons, List.find?_cons]
          simp only [hb1, hb2, Bool.not_true, Bool.false_eq_true, if_false]
          exact ih (by
            rw [List.filter_cons] at h
            simpa only [hb1, Bool.not_true, Bool.false_eq_true, if_false] using h)
        · have hb1 : (a.ID == oid) = false := by simpa using ha
          rw [List.filter_cons]
          simp only [hb1, Bool.not_false, if_true]
          rw [List.find?_cons, List.find?_cons]
          cases hb2 : (a.ID == id) with
          | true => rfl
          | false =>
            exact ih (by
              rw [List.filter_cons] at h
              simp only [hb1, Bool.not_false, if_true] at h
              rw [List.find?_cons] at h
              simpa only [hb2] using h)
    rw [hsame] at h
    exact h

/-- A transaction either leaves the metadata store as it was, or its body
succeeded and the final state is the body's state with the commit logged. -/
theorem WithTransaction_db_cases {α : Type} (env : Env) (fn : St → Except Failure α × St)
    (s : St) :
    (WithTransaction env fn s).2.db = s.db ∨
    (∃ a, fn s = (Except.ok a, (fn s).2) ∧
      (WithTransaction env fn s).2 = (fn s).2.log (Call.db DbOp.Commit "")) := by
  cases hr : (WithTransaction env fn s).1 with
  | error e => exact Or.inl (WithTransaction_error_db env fn s e hr)
  | ok a =>
    obtain ⟨h1, _, h3⟩ := WithTransaction_ok_inv env fn s a hr
    exact Or.inr ⟨a, Prod.ext h1 rfl, h3⟩

/-- A successful run of the transaction body of `DeleteObject`: the bucket
resolved, the object was completed, its blob and then its row were deleted. -/
theorem delete_txn_ok_inv (env : Env) (bucketName objectId : String) (s s1 : St)
    (h : ObjectService.DeleteObject.txn env bucketName objectId s = (Except.ok (), s1)) :
    ∃ bucket object, Resolves env s bucketName bucket ∧
      s.db.object? objectId = some object ∧
      object.UploadStatus = UploadStatus.Completed ∧
      env.deleteFails = false ∧ env.dbFails DbOp.DeleteObject = false ∧
      s1.db.buckets = s.db.buckets ∧ s1.db.jobs = s.db.jobs ∧
      s1.db.objects = s.db.objects.filter (fun o => !(o.ID == object.ID)) ∧
      s1.blobs = s.blobs.filter (fun b => !(b == (bucket.Name, object.Name))) ∧
      s1.trace = s.trace ++
        [Call.db DbOp.GetBucketByName bucketName, Call.db DbOp.GetObjectById objectId,
         Call.storageDelete bucket.Name object.Name, Call.db DbOp.DeleteObject object.ID] := by
  unfold ObjectService.DeleteObject.txn at h
  rw [getBucketByNameTxn_eq] at h
  rcases getBucketByName_cases env bucketName s with ⟨e, hb⟩ | ⟨e, hb⟩ | ⟨bucket, hres, hb⟩
  · simp [hb] at h
  · simp [hb] at h
  · rcases GetObjectById_cases env objectId (s.log (Call.db DbOp.GetBucketByName bucketName))
      with ⟨err, hg, _⟩ | ⟨o, hf, ho, hg⟩
    · simp only [hb, hg] at h
      split_ifs at h <;> simp at h
    · simp only [hb, hg] at h
      simp only [St.log_db] at ho
      by_cases hc : o.UploadStatus = UploadStatus.Completed
      swap
      · simp [hc] at h
      by_cases hd : env.deleteFails = true
      · simp [hc, S3Storage.DeleteObject, hd] at h
      by_cases hq : env.dbFails DbOp.DeleteObject = true
      · simp [hc, S3Storage.DeleteObject, hd, Queries.DeleteObject, hq] at h
      simp [hc, S3Storage.DeleteObject, hd, Queries.DeleteObject, hq, St.log] at h
      subst h
      exact ⟨bucket, o, hres, ho, hc, by simpa using hd, by simpa using hq, rfl, rfl, rfl, rfl,
        by simp⟩

/-- The effect of any object operation on the object table: nothing; one
pending row appended; rows set to `completed` after a probe that answered
`true`, possibly touched as well; rows touched; or the rows of one id
deleted. -/
theorem ObjectOp.run_effect (env : Env) (op : ObjectOp) (s : St) :
    (op.run env s).db = s.db ∨
    (∃ row, row.UploadStatus = UploadStatus.Pending ∧
      (op.run env s).db.objects = s.db.objects ++ [row]) ∨
    (∃ object b, s.db.object? object.ID = some object ∧
      Call.storageExists b object.Name (some true) ∈ newCalls s (op.run env s) ∧
      ((op.run env s).db.objects
          = s.db.objects.map (setUploadStatus object.ID UploadStatus.Completed) ∨
       ∃ now, (op.run env s).db.objects
          = (s.db.objects.map (setUploadStatus object.ID UploadStatus.Completed)).map
              (setLastAccessedAt object.ID now))) ∨
    (∃ oid now, (op.run env s).db.objects = s.db.objects.map (setLastAccessedAt oid now)) ∨
    (∃ oid, (op.run env s).db.objects = s.db.objects.filter (fun o => !(o.ID == oid))) := by
  cases op with
  | upload bucketName create =>
    simp only [ObjectOp.run]
    rcases hrun : ObjectService.CreatePreSignedUploadObject env bucketName create s with ⟨res, t⟩
    cases res with
    | error e =>
      left
      have := upload_error_db env bucketName create s e (by rw [hrun])
      rw [hrun] at this
      exact this
    | ok r =>
      right; left
      obtain ⟨bucket, bytes, _, _, _, _, _, _, _, _, hobjs, _⟩ :=
        upload_ok_inv env bucketName create s t r hrun
      exact ⟨_, rfl, hobjs⟩
  | complete bucketName objectId =>
    rcases complete_cases env bucketName objectId s with
      ⟨_, hdb, _⟩ | ⟨bucket, object, _, hobj, _, _, hrun⟩
    · exact Or.inl hdb
    · right; right; left
      have hid := object?_id hobj
      refine ⟨object, bucket.Name, by rw [hid]; exact hobj, ?_, Or.inl ?_⟩
      · simp only [ObjectOp.run, hrun]
        simp [newCalls]
      · simp only [ObjectOp.run, hrun]
  | download bucketName objectId expiresIn =>
    simp only [ObjectOp.run]
    by_cases h1 : ValidateNotEmptyTrimmedString bucketName = true
    · simp [ObjectService.CreatePreSignedDownloadObject, h1]
    by_cases h2 : ValidateNotEmptyTrimmedString objectId = true
    · simp [ObjectService.CreatePreSignedDownloadObject, h1, h2]
    have hrun : ObjectService.CreatePreSignedDownloadObject env bucketName objectId expiresIn s
        = WithTransaction env
            (ObjectService.CreatePreSignedDownloadObject.txn env bucketName objectId expiresIn)
            s := by
      simp [ObjectService.CreatePreSignedDownloadObject, h1, h2]
    rw [hrun]
    rcases WithTransaction_db_cases env
        (ObjectService.CreatePreSignedDownloadObject.txn env bucketName objectId expiresIn) s
      with hdb | ⟨a, htxn, hst⟩
    · exact Or.inl hdb
    · obtain ⟨bucket, object, _, _, hobj, _, _, _, _, _, hcase⟩ :=
        download_txn_ok_inv env bucketName objectId expiresIn s _ a htxn
      have hid := object?_id hobj
      rw [hst]
      rcases hcase with ⟨_, _, hobjs, htr⟩ | ⟨_, hobjs, _⟩
      · right; right; left
        refine ⟨object, bucket.Name, by rw [hid]; exact hobj, ?_, Or.inr ⟨env.now, hobjs⟩⟩
        have : newCalls s ((ObjectService.CreatePreSignedDownloadObject.txn env bucketName
            objectId expiresIn s).2.log (Call.db DbOp.Commit "")) = _ :=
          newCalls_of_trace (by rw [St.log_trace, htr, List.append_assoc])
        rw [this]
        simp
      · right; right; right; left
        exact ⟨object.ID, env.now, hobjs⟩
  | delete bucketName objectId =>
    simp only [ObjectOp.run]
    by_cases h1 : ValidateNotEmptyTrimmedString bucketName = true
    · simp [ObjectService.DeleteObject, h1]
    by_cases h2 : ValidateNotEmptyTrimmedString objectId = true
    · simp [ObjectService.DeleteObject, h1, h2]
    have hrun : ObjectService.DeleteObject env bucketName objectId s
        = WithTransaction env (ObjectService.DeleteObject.txn env bucketName objectId) s := by
      simp [ObjectService.DeleteObject, h1, h2]
    rw [hrun]
    rcases WithTransaction_db_cases env (ObjectService.DeleteObject.txn env bucketName objectId) s
      with hdb | ⟨a, htxn, hst⟩
    · exact Or.inl hdb
    · obtain ⟨bucket, object, _, _, _, _, _, _, _, hobjs, _⟩ :=
        delete_txn_ok_inv env bucketName objectId s _ htxn
      rw [hst]
      right; right; right; right
      exact ⟨object.ID, hobjs⟩

/-- C9: whenever an object operation (upload grant, completion, download grant,
delete) leaves an object `completed` that was not `completed` before, the call
logged a blob-store existence check for that object's name that answered `true`;
and an object that is `failed` after an operation was `failed` before it: no
operation sets `failed`. -/
theorem completed_only_after_probe (env : Env) (op : ObjectOp) (s : St) (id : String) :
    ((op.run env s).db.status? id = some UploadStatus.Completed →
      s.db.status? id ≠ some UploadStatus.Completed →
      ∃ object b, s.db.object? id = some object ∧
        Call.storageExists b object.Name (some true) ∈ newCalls s (op.run env s)) ∧
    ((op.run env s).db.status? id = some UploadStatus.Failed →
      s.db.status? id = some UploadStatus.Failed) := by
  simp only [status?_eq]
  rcases ObjectOp.run_effect env op s with hdb | ⟨row, hrow, hobjs⟩ |
      ⟨object, b, hobj, hprobe, hobjs | ⟨now, hobjs⟩⟩ | ⟨oid, now, hobjs⟩ | ⟨oid, hobjs⟩
  · rw [hdb]
    exact ⟨fun h hn => absurd h hn, fun h => h⟩
  · rw [hobjs]
    exact ⟨fun h hn => absurd (status_append_pending _ row id _ hrow (by simp) h) hn,
      fun h => status_append_pending _ row id _ hrow (by simp) h⟩
  · rw [hobjs]
    refine ⟨fun h hn => ?_, fun h => status_map_setUploadStatus _ object.ID id _ _ (by simp) h⟩
    by_cases hid : id = object.ID
    · exact ⟨object, b, by rw [hid]; exact hobj, hprobe⟩
    · rw [status_map_setUploadStatus_ne _ _ _ _ hid] at h
      exact absurd h hn
  · rw [hobjs]
    refine ⟨fun h hn => ?_, fun h => ?_⟩
    · rw [status_map_setLastAccessedAt] at h
      by_cases hid : id = object.ID
      · exact ⟨object, b, by rw [hid]; exact hobj, hprobe⟩
      · rw [status_map_setUploadStatus_ne _ _ _ _ hid] at h
        exact absurd h hn
    · rw [status_map_setLastAccessedAt] at h
      exact status_map_setUploadStatus _ object.ID id _ _ (by simp) h
  · rw [hobjs, status_map_setLastAccessedAt]
    exact ⟨fun h hn => absurd h hn, fun h => h⟩
  · rw [hobjs]
    exact ⟨fun h hn => absurd (status_filter _ oid id _ h) hn, fun h => status_filter _ oid id _ h⟩

/-- Witness for C9: a download grant that completes the pending sample object
logs its positive probe; the failed sample object is still failed after a
delete attempt. -/
theorem completed_only_after_probe_witness :
    (ObjectOp.run Env.healthy (ObjectOp.download "pics" "o1" 0)
        (sampleState UploadStatus.Pending true)).db.status? "o1" = some UploadStatus.Completed ∧
    (sampleState UploadStatus.Pending true).db.status? "o1" ≠ some UploadStatus.Completed ∧
    (∃ object b, (sampleState UploadStatus.Pending true).db.object? "o1" = some object ∧
      Call.storageExists b object.Name (some true) ∈
        newCalls (sampleState UploadStatus.Pending true)
          (ObjectOp.run Env.healthy (ObjectOp.download "pics" "o1" 0)
            (sampleState UploadStatus.Pending true))) ∧
    (ObjectOp.run Env.healthy (ObjectOp.delete "pics" "o1")
        (sampleState UploadStatus.Failed true)).db.status? "o1" = some UploadStatus.Failed ∧
    (sampleState UploadStatus.Failed true).db.status? "o1" = some UploadStatus.Failed :=
  ⟨rfl, by decide,
   (completed_only_after_probe Env.healthy (ObjectOp.download "pics" "o1" 0)
      (sampleState UploadStatus.Pending true) "o1").1 rfl (by decide),
   rfl,
   (completed_only_after_probe Env.healthy (ObjectOp.delete "pics" "o1")
      (sampleState UploadStatus.Failed true) "o1").2 rfl⟩

/-! ## Bucket content-type policy -/

/-- The helper `Contains` decides membership. -/
theorem Contains_iff (l : List String) (x : String) : Contains l x = true ↔ x ∈ l := by
  simp [Contains]

/-- The loop of `Uniq` invents no element. -/
theorem mem_UniqLoop (l result : List String) (x : String) (h : x ∈ UniqLoop result l) :
    x ∈ result ∨ x ∈ l := by
  induction l generalizing result with
  | nil => exact Or.inl h
  | cons a t ih =>
    unfold UniqLoop at h
    split at h
    · rcases ih result h with h1 | h1
      · exact Or.inl h1
      · exact Or.inr (List.mem_cons_of_mem a h1)
    · rcases ih (result ++ [a]) h with h1 | h1
      · rcases List.mem_append.mp h1 with h2 | h2
        · exact Or.inl h2
        · right
          rw [List.mem_singleton.mp h2]
          exact List.mem_cons_self a t
      · exact Or.inr (List.mem_cons_of_mem a h1)

/-- Every element of `Uniq l` is an element of `l`. -/
theorem mem_Uniq (l : List String) (x : String) (h : x ∈ Uniq l) : x ∈ l := by
  rcases mem_UniqLoop l [] x h with h1 | h1
  · cases h1
  · exact h1

/-- A list without the wildcard is wildcard-exclusive. -/
theorem WildcardExclusive_of_not_mem (l : List String) (h : "*/*" ∉ l) : WildcardExclusive l :=
  fun hm => absurd hm h

/-- The list `AddAllowedContentTypesToBucket` stores holds no wildcard. -/
theorem add_result_no_wildcard (old added : List String) (hadd : Contains added "*/*" = false) :
    "*/*" ∉ Uniq ((if Contains old "*/*" then [] else old) ++ added) := by
  intro hm
  have h1 := mem_Uniq _ _ hm
  have hna : "*/*" ∉ added := by
    intro h2
    rw [(Contains_iff added "*/*").mpr h2] at hadd
    cases hadd
  rcases List.mem_append.mp h1 with h2 | h2
  · by_cases hc : Contains old "*/*" = true
    · simp [hc] at h2
    · simp only [hc, Bool.false_eq_true, if_false] at h2
      exact hc ((Contains_iff old "*/*").mpr h2)
  · exact hna h2

/-- The list `RemoveContentTypesFromBucket` stores is wildcard-exclusive when
the old one was. -/
theorem remove_result_exclusive (old removed : List String) (h : WildcardExclusive old) :
    WildcardExclusive
      (if Contains removed "*/*" then []
       else old.filter (fun contentType => !Contains removed contentType)) := by
  by_cases hc : Contains removed "*/*" = true
  · simp only [hc, if_true]
    exact fun hm => absurd hm (List.not_mem_nil _)
  · simp only [hc, Bool.false_eq_true, if_false]
    intro hm x hx
    exact h (List.mem_filter.mp hm).1 x (List.mem_filter.mp hx).1

/-- Rewriting the rows of one id keeps a property of all rows that the rewritten
rows have. -/
theorem forall_mem_map_update (P : StorageBucket → Prop) (l : List StorageBucket) (id : String)
    (f : StorageBucket → StorageBucket) (hl : ∀ b ∈ l, P b) (hf : ∀ b ∈ l, P (f b)) :
    ∀ b ∈ l.map (fun b => if b.ID == id then f b else b), P b := by
  intro b hb
  obtain ⟨a, ha, rfl⟩ := List.mem_map.mp hb
  by_cases hid : (a.ID == id) = true
  · simp only [hid, if_true]
    exact hf a ha
  · simp only [hid, Bool.false_eq_true, if_false]
    exact hl a ha

/-- The two ways the bucket lookup by id can end. -/
theorem getBucketByIdTxn_cases (env : Env) (id : String) (s : St) :
    (∃ e, BucketService.getBucketByIdTxn env id s
        = (Except.error e, s.log (Call.db DbOp.GetBucketById id))) ∨
    (∃ b, s.db.bucketById? id = some b ∧
      BucketService.getBucketByIdTxn env id s
        = (Except.ok b, s.log (Call.db DbOp.GetBucketById id))) := by
  unfold BucketService.getBucketByIdTxn Queries.GetBucketById
  by_cases h1 : env.dbFails DbOp.GetBucketById = true
  · simp [h1, IsNotFoundError]
  cases h2 : s.db.bucketById? id with
  | none => simp [h1, IsNotFoundError]
  | some b => simp [h1]

/-- The read `BucketService.GetBucketById` changes no row. -/
theorem GetBucketById_db (env : Env) (id : String) (s : St) :
    (BucketService.GetBucketById env id s).2.db = s.db := by
  unfold BucketService.GetBucketById Queries.GetBucketById
  by_cases h0 : ValidateNotEmptyTrimmedString id = true
  · simp [h0]
  by_cases h1 : env.dbFails DbOp.GetBucketById = true
  · simp [h0, h1, IsNotFoundError]
  cases h2 : s.db.bucketById? id with
  | none => simp [h0, h1, IsNotFoundError]
  | some b => simp [h0, h1]

/-- A bucket found by id is one of the rows. -/
theorem bucketById?_mem {d : Db} {id : String} {b : StorageBucket}
    (h : d.bucketById? id = some b) : b ∈ d.buckets :=
  List.mem_of_find?_eq_some h

/-- Every step of a transaction body that keeps wildcard exclusivity of all
bucket rows keeps it through the transaction. -/
theorem WithTransaction_exclusive {α : Type} (env : Env) (fn : St → Except Failure α × St)
    (s : St) (h : ∀ b ∈ s.db.buckets, WildcardExclusive b.AllowedContentTypes)
    (hfn : ∀ b ∈ (fn s).2.db.buckets, WildcardExclusive b.AllowedContentTypes) :
    ∀ b ∈ (WithTransaction env fn s).2.db.buckets, WildcardExclusive b.AllowedContentTypes := by
  rcases WithTransaction_db_cases env fn s with hdb | ⟨a, _, hst⟩
  · rw [hdb]
    exact h
  · rw [hst]
    exact hfn

/-- The transaction body of `AddAllowedContentTypesToBucket` keeps wildcard
exclusivity. -/
theorem add_txn_exclusive (env : Env) (id : String) (added : Option (List String)) (s : St)
    (h : ∀ b ∈ s.db.buckets, WildcardExclusive b.AllowedContentTypes) :
    ∀ b ∈ (BucketService.AddAllowedContentTypesToBucket.txn env id added s).2.db.buckets,
      WildcardExclusive b.AllowedContentTypes := by
  unfold BucketService.AddAllowedContentTypesToBucket.txn
  rcases getBucketByIdTxn_cases env id s with ⟨e, hb⟩ | ⟨bucket, _, hb⟩
  · simpa [hb] using h
  simp only [hb]
  cases hg : BucketService.guard bucket with
  | error e => simpa using h
  | ok u =>
    cases added with
    | none => simpa using h
    | some l =>
      by_cases hw : Contains l "*/*" = true
      · simpa [hw] using h
      cases hv : ValidateAllowedContentTypes l with
      | error e => simpa [hw, hv] using h
      | ok u2 =>
        by_cases hq : env.dbFails DbOp.UpdateBucketAllowedContentTypes = true
        · simpa [hw, hv, Queries.UpdateBucketAllowedContentTypes, hq] using h
        simp only [hw, hv, Queries.UpdateBucketAllowedContentTypes, hq, Bool.false_eq_true,
          if_false, St.log_db]
        exact forall_mem_map_update _ _ _ _ h (fun b _ =>
          WildcardExclusive_of_not_mem _ (add_result_no_wildcard _ _ (by simpa using hw)))

/-- The transaction body of `RemoveContentTypesFromBucket` keeps wildcard
exclusivity. -/
theorem remove_txn_exclusive (env : Env) (id : String) (removed : Option (List String))
    (s : St) (h : ∀ b ∈ s.db.buckets, WildcardExclusive b.AllowedContentTypes) :
    ∀ b ∈ (BucketService.RemoveContentTypesFromBucket.txn env id removed s).2.db.buckets,
      WildcardExclusive b.AllowedContentTypes := by
  unfold BucketService.RemoveContentTypesFromBucket.txn
  rcases getBucketByIdTxn_cases env id s with ⟨e, hb⟩ | ⟨bucket, hfound, hb⟩
  · simpa [hb] using h
  simp only [hb]
  cases hg : BucketService.guard bucket with
  | error e => simpa using h
  | ok u =>
    cases removed with
    | none => simpa using h
    | some l =>
      cases hv : ValidateAllowedContentTypes l with
      | error e => simpa [hv] using h
      | ok u2 =>
        by_cases hq : env.dbFails DbOp.UpdateBucketAllowedContentTypes = true
        · simpa [hv, Queries.UpdateBucketAllowedContentTypes, hq] using h
        simp only [hv, Queries.UpdateBucketAllowedContentTypes, hq, Bool.false_eq_true,
          if_false, St.log_db]
        exact forall_mem_map_update _ _ _ _ h (fun b _ =>
          remove_result_exclusive _ _ (h bucket (bucketById?_mem hfound)))

/-- The transaction body of `UpdateBucket` keeps the allowed content types. -/
theorem update_txn_exclusive (env : Env) (id : String) (bucketUpdate : BucketUpdate) (s : St)
    (h : ∀ b ∈ s.db.buckets, WildcardExclusive b.AllowedContentTypes) :
    ∀ b ∈ (BucketService.UpdateBucket.txn env id bucketUpdate s).2.db.buckets,
      WildcardExclusive b.AllowedContentTypes := by
  unfold BucketService.UpdateBucket.txn
  rcases getBucketByIdTxn_cases env id s with ⟨e, hb⟩ | ⟨bucket, hfound, hb⟩
  · simpa [hb] using h
  simp only [hb]
  cases hg : BucketService.guard bucket with
  | error e => simpa using h
  | ok u =>
    by_cases hq : env.dbFails DbOp.UpdateBucket = true
    · rcases hm : bucketUpdate.MaxAllowedObjectSize with _ | m
      · simpa [Queries.UpdateBucket, hq] using h
      · by_cases hle : m ≤ 0
        · simpa [ValidateMaxAllowedObjectSize, hle] using h
        · simpa [ValidateMaxAllowedObjectSize, hle, Queries.UpdateBucket, hq] using h
    · rcases hm : bucketUpdate.MaxAllowedObjectSize with _ | m
      · simp only [Queries.UpdateBucket, hq, Bool.false_eq_true, if_false, St.log_db]
        exact forall_mem_map_update _ _ _ _ h (fun b hb2 => h b hb2)
      · by_cases hle : m ≤ 0
        · simpa [ValidateMaxAllowedObjectSize, hle] using h
        · simp only [ValidateMaxAllowedObjectSize, hle, Queries.UpdateBucket, hq,
            Bool.false_eq_true, if_false, St.log_db]
          exact forall_mem_map_update _ _ _ _ h (fun b hb2 => h b hb2)

/-- The transaction body of `EnableBucket` keeps the allowed content types. -/
theorem enable_txn_exclusive (env : Env) (id : String) (s : St)
    (h : ∀ b ∈ s.db.buckets, WildcardExclusive b.AllowedContentTypes) :
    ∀ b ∈ (BucketService.EnableBucket.txn env id s).2.db.buckets,
      WildcardExclusive b.AllowedContentTypes := by
  unfold BucketService.EnableBucket.txn
  rcases getBucketByIdTxn_cases env id s with ⟨e, hb⟩ | ⟨bucket, hfound, hb⟩
  · simpa [hb] using h
  simp only [hb]
  by_cases hd : bucket.Disabled = true
  · by_cases hq : env.dbFails DbOp.EnableBucket = true
    · simpa [hd, Queries.EnableBucket, hq] using h
    · simp only [hd, if_true, Queries.EnableBucket, hq, Bool.false_eq_true, if_false, St.log_db]
      exact forall_mem_map_update _ _ _ _ h (fun b hb2 => h b hb2)
  · simpa [hd] using h

/-- The transaction body of `DisableBucket` keeps the allowed content types. -/
theorem disable_txn_exclusive (env : Env) (id : String) (s : St)
    (h : ∀ b ∈ s.db.buckets, WildcardExclusive b.AllowedContentTypes) :
    ∀ b ∈ (BucketService.DisableBucket.txn env id s).2.db.buckets,
      WildcardExclusive b.AllowedContentTypes := by
  unfold BucketService.DisableBucket.txn
  rcases getBucketByIdTxn_cases env id s with ⟨e, hb⟩ | ⟨bucket, hfound, hb⟩
  · simpa [hb] using h
  simp only [hb]
  by_cases hd : bucket.Disabled = true
  · simpa [hd] using h
  · by_cases hq : env.dbFails DbOp.DisableBucket = true
    · simpa [hd, Queries.DisableBucket, hq] using h
    · simp only [hd, Bool.not_false, Bool.false_eq_true, if_true, if_false,
        Queries.DisableBucket, hq, St.log_db]
      exact forall_mem_map_update _ _ _ _ h (fun b hb2 => h b hb2)

/-- Wildcard exclusivity of every bucket survives each operation that can
follow `CreateBucket`: adding and removing content types, updating, enabling
and disabling.  Only `CreateBucket` itself can introduce a mixed list. -/
theorem BucketOp.run_exclusive (env : Env) (op : BucketOp) (s : St)
    (h : ∀ b ∈ s.db.buckets, WildcardExclusive b.AllowedContentTypes) :
    ∀ b ∈ (op.run env s).db.buckets, WildcardExclusive b.AllowedContentTypes := by
  cases op with
  | add id added =>
    simp only [BucketOp.run, BucketService.AddAllowedContentTypesToBucket]
    by_cases h0 : ValidateNotEmptyTrimmedString id = true
    · simpa [h0] using h
    simp only [h0, Bool.false_eq_true, if_false]
    have hw := WithTransaction_exclusive env
      (BucketService.AddAllowedContentTypesToBucket.txn env id added) s h
      (add_txn_exclusive env id added s h)
    rcases hrun : WithTransaction env
        (BucketService.AddAllowedContentTypesToBucket.txn env id added) s with ⟨r, t⟩
    rw [hrun] at hw
    cases r with
    | error e => exact hw
    | ok u =>
      simp only
      rw [GetBucketById_db]
      exact hw
  | remove id removed =>
    simp only [BucketOp.run, BucketService.RemoveContentTypesFromBucket]
    by_cases h0 : ValidateNotEmptyTrimmedString id = true
    · simpa [h0] using h
    simp only [h0, Bool.false_eq_true, if_false]
    have hw := WithTransaction_exclusive env
      (BucketService.RemoveContentTypesFromBucket.txn env id removed) s h
      (remove_txn_exclusive env id removed s h)
    rcases hrun : WithTransaction env
        (BucketService.RemoveContentTypesFromBucket.txn env id removed) s with ⟨r, t⟩
    rw [hrun] at hw
    cases r with
    | error e => exact hw
    | ok u =>
      simp only
      rw [GetBucketById_db]
      exact hw
  | update id bucketUpdate =>
    simp only [BucketOp.run, BucketService.UpdateBucket]
    by_cases h0 : ValidateNotEmptyTrimmedString id = true
    · simpa [h0] using h
    simp only [h0, Bool.false_eq_true, if_false]
    have hw := WithTransaction_exclusive env (BucketService.UpdateBucket.txn env id bucketUpdate)
      s h (update_txn_exclusive env id bucketUpdate s h)
    rcases hrun : WithTransaction env (BucketService.UpdateBucket.txn env id bucketUpdate) s
      with ⟨r, t⟩
    rw [hrun] at hw
    cases r with
    | error e => exact hw
    | ok u =>
      simp only
      rw [GetBucketById_db]
      exact hw
  | enable id =>
    simp only [BucketOp.run, BucketService.EnableBucket]
    by_cases h0 : ValidateNotEmptyTrimmedString id = true
    · simpa [h0] using h
    simp only [h0, Bool.false_eq_true, if_false]
    have hw := WithTransaction_exclusive env (BucketService.EnableBucket.txn env id) s h
      (enable_txn_exclusive env id s h)
    rcases hrun : WithTransaction env (BucketService.EnableBucket.txn env id) s with ⟨r, t⟩
    rw [hrun] at hw
    cases r with
    | error e => exact hw
    | ok u =>
      simp only
      rw [GetBucketById_db]
      exact hw
  | disable id =>
    simp only [BucketOp.run, BucketService.DisableBucket]
    by_cases h0 : ValidateNotEmptyTrimmedString id = true
    · simpa [h0] using h
    simp only [h0, Bool.false_eq_true, if_false]
    have hw := WithTransaction_exclusive env (BucketService.DisableBucket.txn env id) s h
      (disable_txn_exclusive env id s h)
    rcases hrun : WithTransaction env (BucketService.DisableBucket.txn env id) s with ⟨r, t⟩
    rw [hrun] at hw
    cases r with
    | error e => exact hw
    | ok u =>
      simp only
      rw [GetBucketById_db]
      exact hw

/-- The read `Queries.GetBucketById` changes no row. -/
theorem Queries_GetBucketById_db (env : Env) (id : String) (s : St) :
    (Queries.GetBucketById env id s).2.db = s.db := by
  unfold Queries.GetBucketById
  by_cases h1 : env.dbFails DbOp.GetBucketById = true
  · simp [h1]
  cases h2 : s.db.bucketById? id with
  | none => simp [h1]
  | some b => simp [h1]

/-- The insert `Queries.CreateBucket` keeps wildcard exclusivity of every
bucket when the inserted list is wildcard-exclusive. -/
theorem Queries_CreateBucket_exclusive (env : Env) (arg : CreateBucketParams) (s : St)
    (h : ∀ b ∈ s.db.buckets, WildcardExclusive b.AllowedContentTypes)
    (harg : WildcardExclusive arg.AllowedContentTypes) :
    ∀ b ∈ (Queries.CreateBucket env arg s).2.db.buckets,
      WildcardExclusive b.AllowedContentTypes := by
  unfold Queries.CreateBucket
  by_cases hq : env.dbFails DbOp.CreateBucket = true
  · simpa [hq] using h
  by_cases hx : s.db.buckets.any (fun b => b.ID == arg.ID || b.Name == arg.Name) = true
  · simp only [hq, hx, Bool.false_eq_true, if_false, if_true]
    simpa using h
  simp only [hq, hx, Bool.false_eq_true, if_false, St.log_db]
  intro b hb
  rcases List.mem_append.mp hb with h1 | h1
  · exact h b h1
  · rw [List.mem_singleton.mp h1]
    exact harg

/-- A bucket created without an explicit list, or with an explicit list that is
wildcard-exclusive, keeps wildcard exclusivity of every bucket. -/
theorem create_bucket_exclusive (env : Env) (bucketCreate : BucketCreate) (s : St)
    (h : ∀ b ∈ s.db.buckets, WildcardExclusive b.AllowedContentTypes)
    (hc : ∀ l, bucketCreate.AllowedContentTypes = some l → WildcardExclusive l) :
    ∀ b ∈ (BucketService.CreateBucket env bucketCreate s).2.db.buckets,
      WildcardExclusive b.AllowedContentTypes := by
  have hdef : WildcardExclusive ["*/*"] := by decide
  have key : ∀ allowed, WildcardExclusive allowed →
      ∀ b ∈ (match Queries.CreateBucket env
                  { ID := bucketCreate.Id, Name := bucketCreate.Name,
                    AllowedContentTypes := allowed,
                    MaxAllowedObjectSize := bucketCreate.MaxAllowedObjectSize,
                    Public := bucketCreate.Public, Disabled := bucketCreate.Disabled } s with
              | (Except.error err, s1) =>
                if IsConflictError err then (Except.error Failure.ConflictError, s1)
                else (Except.error Failure.UnknownError, s1)
              | (Except.ok _, s1) =>
                match Queries.GetBucketById env bucketCreate.Id s1 with
                | (Except.error _, s2) => (Except.error Failure.UnknownError, s2)
                | (Except.ok bucket, s2) =>
                  ((Except.ok bucket : Except Failure StorageBucket), s2)).2.db.buckets,
        WildcardExclusive b.AllowedContentTypes := by
    intro allowed hallowed
    have h1 := Queries_CreateBucket_exclusive env
      { ID := bucketCreate.Id, Name := bucketCreate.Name, AllowedContentTypes := allowed,
        MaxAllowedObjectSize := bucketCreate.MaxAllowedObjectSize,
        Public := bucketCreate.Public, Disabled := bucketCreate.Disabled } s h hallowed
    rcases hcq : Queries.CreateBucket env
      { ID := bucketCreate.Id, Name := bucketCreate.Name, AllowedContentTypes := allowed,
        MaxAllowedObjectSize := bucketCreate.MaxAllowedObjectSize,
        Public := bucketCreate.Public, Disabled := bucketCreate.Disabled } s with ⟨r1, s1⟩
    rw [hcq] at h1
    cases r1 with
    | error err =>
      simp only
      split_ifs <;> exact h1
    | ok u =>
      simp only
      have hdb := Queries_GetBucketById_db env bucketCreate.Id s1
      rcases hg : Queries.GetBucketById env bucketCreate.Id s1 with ⟨r2, s2⟩
      rw [hg] at hdb
      simp only at hdb
      cases r2 with
      | error e2 =>
        simp only
        rw [hdb]
        exact h1
      | ok b2 =>
        simp only
        rw [hdb]
        exact h1
  unfold BucketService.CreateBucket
  by_cases h0 : ValidateNotEmptyTrimmedString bucketCreate.Name = true
  · simpa [h0] using h
  simp only [h0, Bool.false_eq_true, if_false]
  cases hl : bucketCreate.AllowedContentTypes with
  | none =>
    simp only
    cases hm : bucketCreate.MaxAllowedObjectSize with
    | none =>
      simp only
      have := key _ hdef
      rw [hm] at this
      exact this
    | some m =>
      simp only
      cases hv2 : ValidateMaxAllowedObjectSize m with
      | error e => simpa using h
      | ok u =>
        simp only
        have := key _ hdef
        rw [hm] at this
        exact this
  | some l =>
    simp only
    cases hv : ValidateAllowedContentTypes l with
    | error e => simpa using h
    | ok u =>
      simp only
      cases hm : bucketCreate.MaxAllowedObjectSize with
      | none =>
        simp only
        have := key l (hc l hl)
        rw [hm] at this
        exact this
      | some m =>
        simp only
        cases hv2 : ValidateMaxAllowedObjectSize m with
        | error e => simpa using h
        | ok u =>
          simp only
          have := key l (hc l hl)
          rw [hm] at this
          exact this

/-- C2 (the code departs from it): `CreateBucket` stores an explicit list that
holds the wildcard next to another pattern, each pattern being well formed on
its own; the bucket it creates violates wildcard exclusivity from the start,
although `AddAllowedContentTypesToBucket` refuses the wildcard. -/
theorem create_bucket_keeps_wildcard_with_pattern :
    (BucketService.CreateBucket Env.healthy
        { Id := "b-2", Name := "docs", AllowedContentTypes := some ["*/*", "image/png"],
          MaxAllowedObjectSize := none, Public := false, Disabled := false } emptyState).1
      = Except.ok
          { ID := "b-2", Name := "docs", AllowedContentTypes := ["*/*", "image/png"],
            MaxAllowedObjectSize := none, Public := false, Disabled := false, Locked := false,
            LockReason := none, LockedAt := none } ∧
    ((BucketService.CreateBucket Env.healthy
        { Id := "b-2", Name := "docs", AllowedContentTypes := some ["*/*", "image/png"],
          MaxAllowedObjectSize := none, Public := false, Disabled := false }
        emptyState).2.db.bucketById? "b-2").map (fun b => b.AllowedContentTypes)
      = some ["*/*", "image/png"] ∧
    ¬ WildcardExclusive ["*/*", "image/png"] ∧
    (BucketService.AddAllowedContentTypesToBucket Env.healthy "b-1" (some ["*/*", "image/png"])
        (sampleState UploadStatus.Pending false)).1 = Except.error Failure.InvalidInputError := by
  refine ⟨rfl, rfl, by decide, rfl⟩

/-! ## DeleteObject on a completed object -/

/-- The object table holds no row of an id after the rows of that id are
filtered out. -/
theorem find?_filter_ID_none (l : List StorageObject) (id : String) :
    (l.filter (fun o => !(o.ID == id))).find? (fun o => o.ID == id) = none := by
  rw [List.find?_eq_none]
  intro x hx
  have := (List.mem_filter.mp hx).2
  simpa using this

/-- C11: on a completed object of a resolvable bucket `DeleteObject` issues the
blob-store delete before the metadata delete; when the blob-store delete fails
the call returns `UnknownError`, the metadata delete is not issued and the row
remains; when the metadata delete fails the row remains as well; when both
succeed (and the transaction commits) the row is gone. -/
theorem delete_completed_object (env : Env) (s : St) (bucketName objectId : String)
    (bucket : StorageBucket) (object : StorageObject)
    (hres : Resolves env s bucketName bucket)
    (hoid : ValidateNotEmptyTrimmedString objectId = false)
    (hread : env.dbFails DbOp.GetObjectById = false)
    (hobj : s.db.object? objectId = some object)
    (hc : object.UploadStatus = UploadStatus.Completed) :
    (env.deleteFails = true →
      (ObjectService.DeleteObject env bucketName objectId s).1
        = Except.error Failure.UnknownError ∧
      (ObjectService.DeleteObject env bucketName objectId s).2.db = s.db ∧
      (ObjectService.DeleteObject env bucketName objectId s).2.db.object? objectId
        = some object ∧
      (ObjectService.DeleteObject env bucketName objectId s).2.blobs = s.blobs ∧
      newCalls s (ObjectService.DeleteObject env bucketName objectId s).2
        = [Call.db DbOp.GetBucketByName bucketName, Call.db DbOp.GetObjectById objectId,
           Call.storageDelete bucket.Name object.Name]) ∧
    (env.deleteFails = false → env.dbFails DbOp.DeleteObject = true →
      (ObjectService.DeleteObject env bucketName objectId s).1
        = Except.error Failure.UnknownError ∧
      (ObjectService.DeleteObject env bucketName objectId s).2.db = s.db ∧
      newCalls s (ObjectService.DeleteObject env bucketName objectId s).2
        = [Call.db DbOp.GetBucketByName bucketName, Call.db DbOp.GetObjectById objectId,
           Call.storageDelete bucket.Name object.Name, Call.db DbOp.DeleteObject object.ID]) ∧
    (env.deleteFails = false → env.dbFails DbOp.DeleteObject = false →
      env.dbFails DbOp.Commit = false →
      (ObjectService.DeleteObject env bucketName objectId s).1 = Except.ok () ∧
      (ObjectService.DeleteObject env bucketName objectId s).2.db.object? objectId = none ∧
      (ObjectService.DeleteObject env bucketName objectId s).2.db.objects
        = s.db.objects.filter (fun o => !(o.ID == objectId)) ∧
      newCalls s (ObjectService.DeleteObject env bucketName objectId s).2
        = [Call.db DbOp.GetBucketByName bucketName, Call.db DbOp.GetObjectById objectId,
           Call.storageDelete bucket.Name object.Name, Call.db DbOp.DeleteObject object.ID,
           Call.db DbOp.Commit ""]) := by
  have hb := getBucketByName_of_resolves hres
  have hg := GetObjectById_of_found (s := s.log (Call.db DbOp.GetBucketByName bucketName))
    hread (by simpa using hobj)
  have hid := object?_id hobj
  have hunfold : ObjectService.DeleteObject env bucketName objectId s
      = WithTransaction env (ObjectService.DeleteObject.txn env bucketName objectId) s := by
    simp [ObjectService.DeleteObject, hres.1, hoid]
  refine ⟨fun hd => ?_, fun hd hq => ?_, fun hd hq hcommit => ?_⟩
  · have htxn : ObjectService.DeleteObject.txn env bucketName objectId s
        = (Except.error Failure.UnknownError,
            ((s.log (Call.db DbOp.GetBucketByName bucketName)).log
              (Call.db DbOp.GetObjectById objectId)).log
              (Call.storageDelete bucket.Name object.Name)) := by
      unfold ObjectService.DeleteObject.txn
      rw [getBucketByNameTxn_eq]
      simp only [hb, hg]
      simp [hc, S3Storage.DeleteObject, hd]
    rw [hunfold, WithTransaction_of_error env _ s _ _ htxn]
    refine ⟨rfl, rfl, hobj, rfl, ?_⟩
    apply newCalls_of_trace
    simp
  · have htxn : ObjectService.DeleteObject.txn env bucketName objectId s
        = (Except.error Failure.UnknownError,
            { (((s.log (Call.db DbOp.GetBucketByName bucketName)).log
                (Call.db DbOp.GetObjectById objectId)).log
                (Call.storageDelete bucket.Name object.Name)).log
                (Call.db DbOp.DeleteObject object.ID) with
              blobs := s.blobs.filter (fun b => !(b == (bucket.Name, object.Name))) }) := by
      unfold ObjectService.DeleteObject.txn
      rw [getBucketByNameTxn_eq]
      simp only [hb, hg]
      simp [hc, S3Storage.DeleteObject, hd, Queries.DeleteObject, hq, St.log]
    rw [hunfold, WithTransaction_of_error env _ s _ _ htxn]
    refine ⟨rfl, rfl, ?_⟩
    apply newCalls_of_trace
    simp
  · have htxn : ∃ s1, ObjectService.DeleteObject.txn env bucketName objectId s
        = (Except.ok (), s1) := by
      unfold ObjectService.DeleteObject.txn
      rw [getBucketByNameTxn_eq]
      simp only [hb, hg]
      simp [hc, S3Storage.DeleteObject, hd, Queries.DeleteObject, hq]
    obtain ⟨s1, htxn⟩ := htxn
    obtain ⟨b2, o2, hres2, ho2, _, _, _, _, _, hobjs, _, htr⟩ :=
      delete_txn_ok_inv env bucketName objectId s s1 htxn
    have hoeq : o2 = object := by
      rw [hobj] at ho2
      exact (Option.some.inj ho2).symm
    have hbeq : b2 = bucket := by
      have h1 := hres2.2.2.2.1
      rw [hres.2.2.2.1] at h1
      exact (Option.some.inj h1).symm
    subst hoeq
    subst hbeq
    rw [hunfold, WithTransaction_of_ok env _ s s1 _ htxn hcommit]
    have hobjs2 : (s1.log (Call.db DbOp.Commit "")).db.objects
        = s.db.objects.filter (fun o => !(o.ID == objectId)) := by
      rw [St.log_db, hobjs, hid]
    refine ⟨rfl, ?_, hobjs2, ?_⟩
    · show List.find? _ (s1.log _).db.objects = none
      rw [hobjs2]
      exact find?_filter_ID_none _ _
    · apply newCalls_of_trace
      rw [St.log_trace, htr]
      simp

/-- Witness for C11: deleting the completed sample object with a failing blob
store, and with everything working. -/
theorem delete_completed_object_witness :
    ((ObjectService.DeleteObject { Env.healthy with deleteFails := true } "pics" "o1"
        (sampleState UploadStatus.Completed true)).1 = Except.error Failure.UnknownError ∧
      (ObjectService.DeleteObject { Env.healthy with deleteFails := true } "pics" "o1"
        (sampleState UploadStatus.Completed true)).2.db
        = (sampleState UploadStatus.Completed true).db ∧
      (ObjectService.DeleteObject { Env.healthy with deleteFails := true } "pics" "o1"
        (sampleState UploadStatus.Completed true)).2.db.object? "o1"
        = some (sampleObject UploadStatus.Completed) ∧
      (ObjectService.DeleteObject { Env.healthy with deleteFails := true } "pics" "o1"
        (sampleState UploadStatus.Completed true)).2.blobs
        = (sampleState UploadStatus.Completed true).blobs ∧
      newCalls (sampleState UploadStatus.Completed true)
          (ObjectService.DeleteObject { Env.healthy with deleteFails := true } "pics" "o1"
            (sampleState UploadStatus.Completed true)).2
        = [Call.db DbOp.GetBucketByName "pics", Call.db DbOp.GetObjectById "o1",
           Call.storageDelete sampleBucket.Name (sampleObject UploadStatus.Completed).Name]) ∧
    ((ObjectService.DeleteObject Env.healthy "pics" "o1"
        (sampleState UploadStatus.Completed true)).1 = Except.ok () ∧
      (ObjectService.DeleteObject Env.healthy "pics" "o1"
        (sampleState UploadStatus.Completed true)).2.db.object? "o1" = none ∧
      (ObjectService.DeleteObject Env.healthy "pics" "o1"
        (sampleState UploadStatus.Completed true)).2.db.objects
        = (sampleState UploadStatus.Completed true).db.objects.filter
            (fun o => !(o.ID == "o1")) ∧
      newCalls (sampleState UploadStatus.Completed true)
          (ObjectService.DeleteObject Env.healthy "pics" "o1"
            (sampleState UploadStatus.Completed true)).2
        = [Call.db DbOp.GetBucketByName "pics", Call.db DbOp.GetObjectById "o1",
           Call.storageDelete sampleBucket.Name (sampleObject UploadStatus.Completed).Name,
           Call.db DbOp.DeleteObject (sampleObject UploadStatus.Completed).ID,
           Call.db DbOp.Commit ""]) :=
  ⟨(delete_completed_object { Env.healthy with deleteFails := true }
      (sampleState UploadStatus.Completed true) "pics" "o1" sampleBucket
      (sampleObject UploadStatus.Completed) (by decide) (by decide) rfl rfl rfl).1 rfl,
   (delete_completed_object Env.healthy (sampleState UploadStatus.Completed true) "pics" "o1"
      sampleBucket (sampleObject UploadStatus.Completed) (by decide) (by decide) rfl rfl
      rfl).2.2 rfl rfl rfl⟩

/-! ## Disabled and locked buckets in the object path -/

/-- The bucket lookup of the object path refuses a disabled or locked bucket
with `ForbiddenError`, after the one read. -/
theorem getBucketByName_blocked {env : Env} {s : St} {bucketName : String}
    {bucket : StorageBucket}
    (hn1 : ValidateNotEmptyTrimmedString bucketName = false)
    (hn2 : validateBucketName bucketName = false)
    (hf : env.dbFails DbOp.GetBucketByName = false)
    (hb : s.db.bucketByName? bucketName = some bucket) (hblk : Blocked bucket) :
    ObjectService.getBucketByName env bucketName s
      = (Except.error Failure.ForbiddenError, s.log (Call.db DbOp.GetBucketByName bucketName)) := by
  unfold ObjectService.getBucketByName Queries.GetBucketByName
  rcases hblk with hd | ⟨hl, hr⟩
  · simp [hn1, hn2, hf, hb, hd]
  · by_cases hd : bucket.Disabled = true
    · simp [hn1, hn2, hf, hb, hd]
    · cases hlr : bucket.LockReason with
      | none => simp [hlr] at hr
      | some reason => simp [hn1, hn2, hf, hb, hd, hl, hlr]

/-- The guarded part of the bucket lookup: for a bucket that is disabled, or
locked with its lock reason recorded, each of `CreatePreSignedUploadObject`,
`CompletePreSignedObjectUpload`, `CreatePreSignedDownloadObject`, `DeleteObject`
and `GetObjectById` called with the bucket's valid name fails with
`ForbiddenError`; the only collaborator call is the bucket lookup (no blob-store
call, no task insert), and metadata and blobs are unchanged. -/
theorem blocked_bucket_forbids_object_operations (env : Env) (s : St) (bucketName : String)
    (bucket : StorageBucket)
    (hn1 : ValidateNotEmptyTrimmedString bucketName = false)
    (hn2 : validateBucketName bucketName = false)
    (hf : env.dbFails DbOp.GetBucketByName = false)
    (hb : s.db.bucketByName? bucketName = some bucket) (hblk : Blocked bucket) :
    (∀ create,
      ObjectService.CreatePreSignedUploadObject env bucketName create s
        = (Except.error Failure.ForbiddenError,
            s.log (Call.db DbOp.GetBucketByName bucketName))) ∧
    (∀ objectId, ValidateNotEmptyTrimmedString objectId = false →
      ObjectService.CompletePreSignedObjectUpload env bucketName objectId s
        = (Except.error Failure.ForbiddenError,
            s.log (Call.db DbOp.GetBucketByName bucketName))) ∧
    (∀ objectId expiresIn, ValidateNotEmptyTrimmedString objectId = false →
      ObjectService.CreatePreSignedDownloadObject env bucketName objectId expiresIn s
        = (Except.error Failure.ForbiddenError,
            s.log (Call.db DbOp.GetBucketByName bucketName))) ∧
    (∀ objectId, ValidateNotEmptyTrimmedString objectId = false →
      ObjectService.DeleteObject env bucketName objectId s
        = (Except.error Failure.ForbiddenError,
            s.log (Call.db DbOp.GetBucketByName bucketName))) ∧
    (∀ objectId, ValidateNotEmptyTrimmedString objectId = false →
      ObjectService.GetObjectById env bucketName objectId s
        = (Except.error Failure.ForbiddenError,
            s.log (Call.db DbOp.GetBucketByName bucketName))) ∧
    (s.log (Call.db DbOp.GetBucketByName bucketName)).db = s.db ∧
    (s.log (Call.db DbOp.GetBucketByName bucketName)).blobs = s.blobs ∧
    newCalls s (s.log (Call.db DbOp.GetBucketByName bucketName))
      = [Call.db DbOp.GetBucketByName bucketName] := by
  have hg := getBucketByName_blocked hn1 hn2 hf hb hblk
  refine ⟨fun create => ?_, fun objectId hoid => ?_, fun objectId expiresIn hoid => ?_,
    fun objectId hoid => ?_, fun objectId hoid => ?_, rfl, rfl, ?_⟩
  · have htxn : ObjectService.CreatePreSignedUploadObject.txn env bucketName create s
        = (Except.error Failure.ForbiddenError,
            s.log (Call.db DbOp.GetBucketByName bucketName)) := by
      unfold ObjectService.CreatePreSignedUploadObject.txn
      rw [getBucketByNameTxn_eq]
      simp only [hg]
    unfold ObjectService.CreatePreSignedUploadObject
    simp only [hn1, Bool.false_eq_true, if_false]
    rw [WithTransaction_of_error env _ s _ _ htxn]
    rfl
  · unfold ObjectService.CompletePreSignedObjectUpload
    simp only [hn1, hoid, Bool.false_eq_true, if_false, hg]
  · have htxn : ObjectService.CreatePreSignedDownloadObject.txn env bucketName objectId
        expiresIn s
        = (Except.error Failure.ForbiddenError,
            s.log (Call.db DbOp.GetBucketByName bucketName)) := by
      unfold ObjectService.CreatePreSignedDownloadObject.txn
      rw [getBucketByNameTxn_eq]
      simp only [hg]
    unfold ObjectService.CreatePreSignedDownloadObject
    simp only [hn1, hoid, Bool.false_eq_true, if_false]
    rw [WithTransaction_of_error env _ s _ _ htxn]
    rfl
  · have htxn : ObjectService.DeleteObject.txn env bucketName objectId s
        = (Except.error Failure.ForbiddenError,
            s.log (Call.db DbOp.GetBucketByName bucketName)) := by
      unfold ObjectService.DeleteObject.txn
      rw [getBucketByNameTxn_eq]
      simp only [hg]
    unfold ObjectService.DeleteObject
    simp only [hn1, hoid, Bool.false_eq_true, if_false]
    rw [WithTransaction_of_error env _ s _ _ htxn]
    rfl
  · unfold ObjectService.GetObjectById
    simp only [hn1, hoid, Bool.false_eq_true, if_false, hg]
  · apply newCalls_of_trace
    simp

/-- The five operations against the disabled sample bucket and against the one
locked with a reason. -/
theorem blocked_bucket_forbids_object_operations_witness :
    Blocked disabledBucket ∧ Blocked lockedBucket ∧
    (ObjectService.CreatePreSignedUploadObject Env.healthy "pics" (sampleUpload "c/d.png")
        (stateOf disabledBucket UploadStatus.Completed true)).1
      = Except.error Failure.ForbiddenError ∧
    (ObjectService.CompletePreSignedObjectUpload Env.healthy "pics" "o1"
        (stateOf lockedBucket UploadStatus.Pending true)).1
      = Except.error Failure.ForbiddenError ∧
    (ObjectService.CreatePreSignedDownloadObject Env.healthy "pics" "o1" 0
        (stateOf disabledBucket UploadStatus.Completed true)).1
      = Except.error Failure.ForbiddenError ∧
    (ObjectService.DeleteObject Env.healthy "pics" "o1"
        (stateOf lockedBucket UploadStatus.Completed true)).1
      = Except.error Failure.ForbiddenError ∧
    (ObjectService.GetObjectById Env.healthy "pics" "a/b.png"
        (stateOf disabledBucket UploadStatus.Completed true)).1
      = Except.error Failure.ForbiddenError :=
  ⟨by decide, by decide,
   congrArg Prod.fst ((blocked_bucket_forbids_object_operations Env.healthy
      (stateOf disabledBucket UploadStatus.Completed true) "pics" disabledBucket
      (by decide) (by decide) rfl rfl (by decide)).1 (sampleUpload "c/d.png")),
   congrArg Prod.fst ((blocked_bucket_forbids_object_operations Env.healthy
      (stateOf lockedBucket UploadStatus.Pending true) "pics" lockedBucket
      (by decide) (by decide) rfl rfl (by decide)).2.1 "o1" (by decide)),
   congrArg Prod.fst ((blocked_bucket_forbids_object_operations Env.healthy
      (stateOf disabledBucket UploadStatus.Completed true) "pics" disabledBucket
      (by decide) (by decide) rfl rfl (by decide)).2.2.1 "o1" 0 (by decide)),
   congrArg Prod.fst ((blocked_bucket_forbids_object_operations Env.healthy
      (stateOf lockedBucket UploadStatus.Completed true) "pics" lockedBucket
      (by decide) (by decide) rfl rfl (by decide)).2.2.2.1 "o1" (by decide)),
   congrArg Prod.fst ((blocked_bucket_forbids_object_operations Env.healthy
      (stateOf disabledBucket UploadStatus.Completed true) "pics" disabledBucket
      (by decide) (by decide) rfl rfl (by decide)).2.2.2.2.1 "a/b.png" (by decide))⟩

/-- A locked bucket whose lock reason is missing makes the lookup dereference a
nil pointer: the outcome is the runtime panic, not `ForbiddenError`. -/
theorem locked_without_reason_panics :
    (ObjectService.GetObjectById Env.healthy "pics" "a/b.png"
        (stateOf { sampleBucket with Locked := true } UploadStatus.Completed true)).1
      = Except.error Failure.NilPointerPanic := by
  rfl

/-- C12 (the code departs from it): on a bucket that is locked while no lock
reason is recorded, the bucket lookup of the object path dereferences the nil
reason to build its message, so each of `CreatePreSignedUploadObject`,
`CompletePreSignedObjectUpload`, `CreatePreSignedDownloadObject`, `DeleteObject`
and `GetObjectById` ends in the runtime panic instead of `ForbiddenError`; the
same calls on the bucket locked with a reason are refused with
`ForbiddenError`. -/
theorem locked_bucket_without_reason_object_operations :
    unexplainedLockBucket.Locked = true ∧ unexplainedLockBucket.LockReason = none ∧
    unexplainedLockBucket.Disabled = false ∧
    Failure.NilPointerPanic ≠ Failure.ForbiddenError ∧
    (ObjectService.CreatePreSignedUploadObject Env.healthy "pics" (sampleUpload "c/d.png")
        (stateOf unexplainedLockBucket UploadStatus.Completed true)).1
      = Except.error Failure.NilPointerPanic ∧
    (ObjectService.CompletePreSignedObjectUpload Env.healthy "pics" "o1"
        (stateOf unexplainedLockBucket UploadStatus.Pending true)).1
      = Except.error Failure.NilPointerPanic ∧
    (ObjectService.CreatePreSignedDownloadObject Env.healthy "pics" "o1" 0
        (stateOf unexplainedLockBucket UploadStatus.Completed true)).1
      = Except.error Failure.NilPointerPanic ∧
    (ObjectService.DeleteObject Env.healthy "pics" "o1"
        (stateOf unexplainedLockBucket UploadStatus.Completed true)).1
      = Except.error Failure.NilPointerPanic ∧
    (ObjectService.GetObjectById Env.healthy "pics" "a/b.png"
        (stateOf unexplainedLockBucket UploadStatus.Completed true)).1
      = Except.error Failure.NilPointerPanic ∧
    (ObjectService.DeleteObject Env.healthy "pics" "o1"
        (stateOf unexplainedLockBucket UploadStatus.Completed true)).2.db
      = (stateOf unexplainedLockBucket UploadStatus.Completed true).db ∧
    newCalls (stateOf unexplainedLockBucket UploadStatus.Completed true)
        (ObjectService.DeleteObject Env.healthy "pics" "o1"
          (stateOf unexplainedLockBucket UploadStatus.Completed true)).2
      = [Call.db DbOp.GetBucketByName "pics"] ∧
    (ObjectService.DeleteObject Env.healthy "pics" "o1"
        (stateOf lockedBucket UploadStatus.Completed true)).1
      = Except.error Failure.ForbiddenError ∧
    (ObjectService.GetObjectById Env.healthy "pics" "a/b.png"
        (stateOf lockedBucket UploadStatus.Completed true)).1
      = Except.error Failure.ForbiddenError := by
  refine ⟨rfl, rfl, rfl, by decide, rfl, rfl, rfl, rfl, rfl, rfl, ?_, rfl, rfl⟩
  decide

/-- C13 (the code departs from it): `SearchObjectsByBucketNameAndObjectPath` never
resolves the bucket, so a search naming a DISABLED bucket is answered with the
objects under the path; the read `GetObjectById` on the same bucket is refused
with `ForbiddenError`. -/
theorem search_reads_disabled_bucket :
    disabledBucket.Disabled = true ∧
    (ObjectService.SearchObjectsByBucketNameAndObjectPath Env.healthy "pics" "a/" 1 10 0
        (stateOf disabledBucket UploadStatus.Completed true)).1
      = Except.ok
          [{ Id := "o1", BucketId := "b-1", Name := "a/b.png", ContentType := "image/png",
             Size := 10, Metadata := [], UploadStatus := UploadStatus.Completed }] ∧
    newCalls (stateOf disabledBucket UploadStatus.Completed true)
        (ObjectService.SearchObjectsByBucketNameAndObjectPath Env.healthy "pics" "a/" 1 10 0
          (stateOf disabledBucket UploadStatus.Completed true)).2
      = [Call.dbSearch "pics" "a/" 1 10 0] ∧
    (ObjectService.GetObjectById Env.healthy "pics" "a/b.png"
        (stateOf disabledBucket UploadStatus.Completed true)).1
      = Except.error Failure.ForbiddenError := by
  refine ⟨rfl, ?_, ?_, rfl⟩
  · rfl
  · decide

/-! ## Enabling and disabling a bucket -/

/-- Looking a bucket up by id commutes with a row update that keeps ids. -/
theorem bucketById?_map_of_ID (l : List StorageBucket) (f : StorageBucket → StorageBucket)
    (hf : ∀ b, (f b).ID = b.ID) (id : String) :
    (l.map f).find? (fun b => b.ID == id) = (l.find? (fun b => b.ID == id)).map f := by
  rw [List.find?_map]
  have : ((fun b : StorageBucket => b.ID == id) ∘ f) = (fun b => b.ID == id) := by
    funext b
    simp [hf]
  rw [this]

/-- The id of a bucket found by id is that id. -/
theorem bucketById?_id {d : Db} {id : String} {b : StorageBucket}
    (h : d.bucketById? id = some b) : b.ID = id := by
  have := List.find?_some h
  simpa using this

/-- The lookup inside a bucket transaction finds an existing bucket. -/
theorem getBucketByIdTxn_of_found {env : Env} {id : String} {s : St} {b : StorageBucket}
    (hread : env.dbFails DbOp.GetBucketById = false) (hb : s.db.bucketById? id = some b) :
    BucketService.getBucketByIdTxn env id s
      = (Except.ok b, s.log (Call.db DbOp.GetBucketById id)) := by
  simp [BucketService.getBucketByIdTxn, Queries.GetBucketById, hread, hb]

/-- The read `BucketService.GetBucketById` returns an existing bucket. -/
theorem GetBucketById_of_found {env : Env} {id : String} {s : St} {b : StorageBucket}
    (hid : ValidateNotEmptyTrimmedString id = false)
    (hread : env.dbFails DbOp.GetBucketById = false) (hb : s.db.bucketById? id = some b) :
    BucketService.GetBucketById env id s
      = (Except.ok b, s.log (Call.db DbOp.GetBucketById id)) := by
  simp [BucketService.GetBucketById, Queries.GetBucketById, hid, hread, hb]

/-- What `EnableBucket` does to one row. -/
theorem enable_row_ID (id : String) (x : StorageBucket) :
    (if x.ID == id then { x with Disabled := false } else x).ID = x.ID := by
  split <;> rfl

/-- What `DisableBucket` does to one row. -/
theorem disable_row_ID (id : String) (x : StorageBucket) :
    (if x.ID == id then { x with Disabled := true } else x).ID = x.ID := by
  split <;> rfl

/-- `EnableBucket` on an already enabled bucket: `BadRequestError`, nothing
written. -/
theorem enable_enabled (env : Env) (s : St) (id : String) (b : StorageBucket)
    (hid : ValidateNotEmptyTrimmedString id = false)
    (hread : env.dbFails DbOp.GetBucketById = false)
    (hb : s.db.bucketById? id = some b) (hd : b.Disabled = false) :
    (BucketService.EnableBucket env id s).1 = Except.error Failure.BadRequestError ∧
    (BucketService.EnableBucket env id s).2.db = s.db ∧
    (BucketService.EnableBucket env id s).2.blobs = s.blobs := by
  have htxn : BucketService.EnableBucket.txn env id s
      = (Except.error Failure.BadRequestError, s.log (Call.db DbOp.GetBucketById id)) := by
    unfold BucketService.EnableBucket.txn
    simp [getBucketByIdTxn_of_found hread hb, hd]
  unfold BucketService.EnableBucket
  simp only [hid, Bool.false_eq_true, if_false]
  rw [WithTransaction_of_error env _ s _ _ htxn]
  exact ⟨rfl, rfl, rfl⟩

/-- `DisableBucket` on an already disabled bucket: `BadRequestError`, nothing
written. -/
theorem disable_disabled (env : Env) (s : St) (id : String) (b : StorageBucket)
    (hid : ValidateNotEmptyTrimmedString id = false)
    (hread : env.dbFails DbOp.GetBucketById = false)
    (hb : s.db.bucketById? id = some b) (hd : b.Disabled = true) :
    (BucketService.DisableBucket env id s).1 = Except.error Failure.BadRequestError ∧
    (BucketService.DisableBucket env id s).2.db = s.db ∧
    (BucketService.DisableBucket env id s).2.blobs = s.blobs := by
  have htxn : BucketService.DisableBucket.txn env id s
      = (Except.error Failure.BadRequestError, s.log (Call.db DbOp.GetBucketById id)) := by
    unfold BucketService.DisableBucket.txn
    simp [getBucketByIdTxn_of_found hread hb, hd]
  unfold BucketService.DisableBucket
  simp only [hid, Bool.false_eq_true, if_false]
  rw [WithTransaction_of_error env _ s _ _ htxn]
  exact ⟨rfl, rfl, rfl⟩

/-- `EnableBucket` on a disabled bucket: the rows of that id get
`disabled = false`, everything else is kept, and the updated bucket is
returned. -/
theorem enable_disabled (env : Env) (s : St) (id : String) (b : StorageBucket)
    (hid : ValidateNotEmptyTrimmedString id = false)
    (hread : env.dbFails DbOp.GetBucketById = false)
    (hb : s.db.bucketById? id = some b) (hd : b.Disabled = true)
    (hq : env.dbFails DbOp.EnableBucket = false) (hcommit : env.dbFails DbOp.Commit = false) :
    (BucketService.EnableBucket env id s).1 = Except.ok { b with Disabled := false } ∧
    (BucketService.EnableBucket env id s).2.db.buckets
      = s.db.buckets.map (fun x => if x.ID == id then { x with Disabled := false } else x) ∧
    (BucketService.EnableBucket env id s).2.db.objects = s.db.objects ∧
    (BucketService.EnableBucket env id s).2.db.jobs = s.db.jobs ∧
    (BucketService.EnableBucket env id s).2.blobs = s.blobs := by
  have htxn : ∃ s1, BucketService.EnableBucket.txn env id s = (Except.ok (), s1) ∧
      s1.db.buckets
        = s.db.buckets.map (fun x => if x.ID == id then { x with Disabled := false } else x) ∧
      s1.db.objects = s.db.objects ∧ s1.db.jobs = s.db.jobs ∧ s1.blobs = s.blobs := by
    unfold BucketService.EnableBucket.txn
    simp [getBucketByIdTxn_of_found hread hb, hd, Queries.EnableBucket, hq]
  obtain ⟨s1, htxn, hbk, hobjs, hjobs, hblobs⟩ := htxn
  have hfind : (s1.log (Call.db DbOp.Commit "")).db.bucketById? id
      = some { b with Disabled := false } := by
    show List.find? _ (s1.log _).db.buckets = _
    rw [St.log_db, hbk, bucketById?_map_of_ID _ _ (enable_row_ID id)]
    have : s.db.buckets.find? (fun b => b.ID == id) = some b := hb
    rw [this]
    simp [bucketById?_id hb]
  unfold BucketService.EnableBucket
  simp only [hid, Bool.false_eq_true, if_false]
  rw [WithTransaction_of_ok env _ s s1 () htxn hcommit]
  simp only
  rw [GetBucketById_of_found hid hread hfind]
  exact ⟨rfl, hbk, hobjs, hjobs, hblobs⟩

/-- `DisableBucket` on an enabled bucket: the rows of that id get
`disabled = true`, everything else is kept, and the updated bucket is
returned. -/
theorem disable_enabled (env : Env) (s : St) (id : String) (b : StorageBucket)
    (hid : ValidateNotEmptyTrimmedString id = false)
    (hread : env.dbFails DbOp.GetBucketById = false)
    (hb : s.db.bucketById? id = some b) (hd : b.Disabled = false)
    (hq : env.dbFails DbOp.DisableBucket = false) (hcommit : env.dbFails DbOp.Commit = false) :
    (BucketService.DisableBucket env id s).1 = Except.ok { b with Disabled := true } ∧
    (BucketService.DisableBucket env id s).2.db.buckets
      = s.db.buckets.map (fun x => if x.ID == id then { x with Disabled := true } else x) ∧
    (BucketService.DisableBucket env id s).2.db.objects = s.db.objects ∧
    (BucketService.DisableBucket env id s).2.db.jobs = s.db.jobs ∧
    (BucketService.DisableBucket env id s).2.blobs = s.blobs := by
  have htxn : ∃ s1, BucketService.DisableBucket.txn env id s = (Except.ok (), s1) ∧
      s1.db.buckets
        = s.db.buckets.map (fun x => if x.ID == id then { x with Disabled := true } else x) ∧
      s1.db.objects = s.db.objects ∧ s1.db.jobs = s.db.jobs ∧ s1.blobs = s.blobs := by
    unfold BucketService.DisableBucket.txn
    simp [getBucketByIdTxn_of_found hread hb, hd, Queries.DisableBucket, hq]
  obtain ⟨s1, htxn, hbk, hobjs, hjobs, hblobs⟩ := htxn
  have hfind : (s1.log (Call.db DbOp.Commit "")).db.bucketById? id
      = some { b with Disabled := true } := by
    show List.find? _ (s1.log _).db.buckets = _
    rw [St.log_db, hbk, bucketById?_map_of_ID _ _ (disable_row_ID id)]
    have : s.db.buckets.find? (fun b => b.ID == id) = some b := hb
    rw [this]
    simp [bucketById?_id hb]
  unfold BucketService.DisableBucket
  simp only [hid, Bool.false_eq_true, if_false]
  rw [WithTransaction_of_ok env _ s s1 () htxn hcommit]
  simp only
  rw [GetBucketById_of_found hid hread hfind]
  exact ⟨rfl, hbk, hobjs, hjobs, hblobs⟩

/-- An enabled bucket with `Disabled` set to `false` is the same bucket. -/
theorem with_Disabled_false (b : StorageBucket) (hd : b.Disabled = false) :
    { b with Disabled := false } = b := by
  cases b
  simp only at hd
  subst hd
  rfl

/-- C16: `EnableBucket` on an existing bucket fails with `BadRequestError` and
changes nothing when the bucket is enabled, and otherwise succeeds and leaves
`disabled = false`; `DisableBucket` fails with `BadRequestError` and changes
nothing when the bucket is disabled, and otherwise succeeds and leaves
`disabled = true`. -/
theorem enable_disable_guard (env : Env) (s : St) (id : String) (b : StorageBucket)
    (hid : ValidateNotEmptyTrimmedString id = false)
    (hread : env.dbFails DbOp.GetBucketById = false)
    (hb : s.db.bucketById? id = some b) :
    (b.Disabled = false →
      (BucketService.EnableBucket env id s).1 = Except.error Failure.BadRequestError ∧
      (BucketService.EnableBucket env id s).2.db = s.db) ∧
    (b.Disabled = true → env.dbFails DbOp.EnableBucket = false →
      env.dbFails DbOp.Commit = false →
      (BucketService.EnableBucket env id s).1 = Except.ok { b with Disabled := false } ∧
      (BucketService.EnableBucket env id s).2.db.bucketById? id
        = some { b with Disabled := false }) ∧
    (b.Disabled = true →
      (BucketService.DisableBucket env id s).1 = Except.error Failure.BadRequestError ∧
      (BucketService.DisableBucket env id s).2.db = s.db) ∧
    (b.Disabled = false → env.dbFails DbOp.DisableBucket = false →
      env.dbFails DbOp.Commit = false →
      (BucketService.DisableBucket env id s).1 = Except.ok { b with Disabled := true } ∧
      (BucketService.DisableBucket env id s).2.db.bucketById? id
        = some { b with Disabled := true }) := by
  have hfound : s.db.buckets.find? (fun b => b.ID == id) = some b := hb
  have hbid := bucketById?_id hb
  refine ⟨fun hd => ?_, fun hd hq hcommit => ?_, fun hd => ?_, fun hd hq hcommit => ?_⟩
  · exact ⟨(enable_enabled env s id b hid hread hb hd).1,
      (enable_enabled env s id b hid hread hb hd).2.1⟩
  · obtain ⟨h1, h2, _⟩ := enable_disabled env s id b hid hread hb hd hq hcommit
    refine ⟨h1, ?_⟩
    show List.find? _ _ = _
    rw [h2, bucketById?_map_of_ID _ _ (enable_row_ID id), hfound]
    simp [hbid]
  · exact ⟨(disable_disabled env s id b hid hread hb hd).1,
      (disable_disabled env s id b hid hread hb hd).2.1⟩
  · obtain ⟨h1, h2, _⟩ := disable_enabled env s id b hid hread hb hd hq hcommit
    refine ⟨h1, ?_⟩
    show List.find? _ _ = _
    rw [h2, bucketById?_map_of_ID _ _ (disable_row_ID id), hfound]
    simp [hbid]

/-- Witness for C16: enabling and disabling the enabled sample bucket and the
disabled one. -/
theorem enable_disable_guard_witness :
    ((BucketService.EnableBucket Env.healthy "b-1" (stateOf sampleBucket UploadStatus.Pending
        false)).1 = Except.error Failure.BadRequestError ∧
      (BucketService.EnableBucket Env.healthy "b-1" (stateOf sampleBucket UploadStatus.Pending
        false)).2.db = (stateOf sampleBucket UploadStatus.Pending false).db) ∧
    ((BucketService.EnableBucket Env.healthy "b-1" (stateOf disabledBucket UploadStatus.Pending
        false)).1 = Except.ok { disabledBucket with Disabled := false } ∧
      (BucketService.EnableBucket Env.healthy "b-1" (stateOf disabledBucket UploadStatus.Pending
        false)).2.db.bucketById? "b-1" = some { disabledBucket with Disabled := false }) ∧
    ((BucketService.DisableBucket Env.healthy "b-1" (stateOf disabledBucket
        UploadStatus.Pending false)).1 = Except.error Failure.BadRequestError ∧
      (BucketService.DisableBucket Env.healthy "b-1" (stateOf disabledBucket
        UploadStatus.Pending false)).2.db = (stateOf disabledBucket UploadStatus.Pending false).db) ∧
    ((BucketService.DisableBucket Env.healthy "b-1" (stateOf sampleBucket UploadStatus.Pending
        false)).1 = Except.ok { sampleBucket with Disabled := true } ∧
      (BucketService.DisableBucket Env.healthy "b-1" (stateOf sampleBucket UploadStatus.Pending
        false)).2.db.bucketById? "b-1" = some { sampleBucket with Disabled := true }) :=
  ⟨(enable_disable_guard Env.healthy (stateOf sampleBucket UploadStatus.Pending false) "b-1"
      sampleBucket (by decide) rfl rfl).1 rfl,
   (enable_disable_guard Env.healthy (stateOf disabledBucket UploadStatus.Pending false) "b-1"
      disabledBucket (by decide) rfl rfl).2.1 rfl rfl rfl,
   (enable_disable_guard Env.healthy (stateOf disabledBucket UploadStatus.Pending false) "b-1"
      disabledBucket (by decide) rfl rfl).2.2.1 rfl,
   (enable_disable_guard Env.healthy (stateOf sampleBucket UploadStatus.Pending false) "b-1"
      sampleBucket (by decide) rfl rfl).2.2.2 rfl rfl rfl⟩

/-- C14: on an enabled bucket, `DisableBucket` followed by `EnableBucket` both
succeed and the bucket found under the id is again the bucket there was before
(name, allowed content types, size ceiling, public, disabled, locked, lock
reason); object and job tables and the blobs are untouched, and with ids unique
the whole metadata store is as before, so every guard decides as it did. -/
theorem disable_then_enable_restores (env : Env) (s : St) (id : String) (b : StorageBucket)
    (hid : ValidateNotEmptyTrimmedString id = false)
    (hread : env.dbFails DbOp.GetBucketById = false)
    (hb : s.db.bucketById? id = some b) (hd : b.Disabled = false)
    (hq1 : env.dbFails DbOp.DisableBucket = false)
    (hq2 : env.dbFails DbOp.EnableBucket = false)
    (hcommit : env.dbFails DbOp.Commit = false) :
    (BucketService.DisableBucket env id s).1 = Except.ok { b with Disabled := true } ∧
    (BucketService.EnableBucket env id (BucketService.DisableBucket env id s).2).1
      = Except.ok b ∧
    (BucketService.EnableBucket env id (BucketService.DisableBucket env id s).2).2.db.bucketById?
        id = some b ∧
    (BucketService.EnableBucket env id (BucketService.DisableBucket env id s).2).2.db.objects
      = s.db.objects ∧
    (BucketService.EnableBucket env id (BucketService.DisableBucket env id s).2).2.db.jobs
      = s.db.jobs ∧
    (BucketService.EnableBucket env id (BucketService.DisableBucket env id s).2).2.blobs
      = s.blobs ∧
    ((∀ x ∈ s.db.buckets, x.ID = id → x = b) →
      (BucketService.EnableBucket env id (BucketService.DisableBucket env id s).2).2.db
        = s.db) := by
  have hfound : s.db.buckets.find? (fun b => b.ID == id) = some b := hb
  have hbid := bucketById?_id hb
  obtain ⟨h1, h2, h3, h4, h5⟩ := disable_enabled env s id b hid hread hb hd hq1 hcommit
  have hb1 : (BucketService.DisableBucket env id s).2.db.bucketById? id
      = some { b with Disabled := true } := by
    show List.find? _ _ = _
    rw [h2, bucketById?_map_of_ID _ _ (disable_row_ID id), hfound]
    simp [hbid]
  obtain ⟨e1, e2, e3, e4, e5⟩ := enable_disabled env (BucketService.DisableBucket env id s).2 id
    { b with Disabled := true } hid hread hb1 rfl hq2 hcommit
  have hback : ({ ({ b with Disabled := true } : StorageBucket) with Disabled := false }
      : StorageBucket) = b := by
    cases b
    simp only at hd
    subst hd
    rfl
  rw [hback] at e1
  have hbuckets : ∀ x : StorageBucket,
      (if (if x.ID == id then { x with Disabled := true } else x).ID == id then
          { (if x.ID == id then { x with Disabled := true } else x) with Disabled := false }
        else (if x.ID == id then { x with Disabled := true } else x))
        = if x.ID == id then { x with Disabled := false } else x := by
    intro x
    by_cases hx : (x.ID == id) = true
    · simp [hx]
    · simp [hx]
  have hlist : (BucketService.EnableBucket env id
      (BucketService.DisableBucket env id s).2).2.db.buckets
      = s.db.buckets.map (fun x => if x.ID == id then { x with Disabled := false } else x) := by
    rw [e2, h2, List.map_map]
    apply List.map_congr_left
    intro x _
    exact hbuckets x
  refine ⟨h1, e1, ?_, by rw [e3, h3], by rw [e4, h4], by rw [e5, h5], fun huniq => ?_⟩
  · show List.find? _ _ = _
    rw [hlist, bucketById?_map_of_ID _ _ (enable_row_ID id), hfound]
    have hbeq : (b.ID == id) = true := by simp [hbid]
    simp only [Option.map_some', hbeq, if_true]
    rw [with_Disabled_false b hd]
  · have hsame : (BucketService.EnableBucket env id
        (BucketService.DisableBucket env id s).2).2.db.buckets = s.db.buckets := by
      rw [hlist]
      conv_rhs => rw [← List.map_id s.db.buckets]
      apply List.map_congr_left
      intro x hx
      by_cases hxid : x.ID = id
      · have hxb := huniq x hx hxid
        subst hxb
        have hxeq : (x.ID == id) = true := by simp [hxid]
        simp only [hxeq, if_true, id_eq]
        exact with_Disabled_false x hd
      · have : (x.ID == id) = false := by simpa using hxid
        simp [this]
    rcases hdb : (BucketService.EnableBucket env id
        (BucketService.DisableBucket env id s).2).2.db with ⟨bk, ob, jb⟩
    rw [hdb] at hsame e3 e4
    simp only at hsame e3 e4
    rw [h3] at e3
    rw [h4] at e4
    subst hsame
    subst e3
    subst e4
    rfl

/-- Witness for C14: disabling and re-enabling the sample bucket. -/
theorem disable_then_enable_restores_witness :
    (BucketService.DisableBucket Env.healthy "b-1"
        (stateOf sampleBucket UploadStatus.Pending false)).1
      = Except.ok { sampleBucket with Disabled := true } ∧
    (BucketService.EnableBucket Env.healthy "b-1"
        (BucketService.DisableBucket Env.healthy "b-1"
          (stateOf sampleBucket UploadStatus.Pending false)).2).1 = Except.ok sampleBucket ∧
    (BucketService.EnableBucket Env.healthy "b-1"
        (BucketService.DisableBucket Env.healthy "b-1"
          (stateOf sampleBucket UploadStatus.Pending false)).2).2.db
      = (stateOf sampleBucket UploadStatus.Pending false).db :=
  ⟨(disable_then_enable_restores Env.healthy (stateOf sampleBucket UploadStatus.Pending false)
      "b-1" sampleBucket (by decide) rfl rfl rfl rfl rfl rfl).1,
   (disable_then_enable_restores Env.healthy (stateOf sampleBucket UploadStatus.Pending false)
      "b-1" sampleBucket (by decide) rfl rfl rfl rfl rfl rfl).2.1,
   (disable_then_enable_restores Env.healthy (stateOf sampleBucket UploadStatus.Pending false)
      "b-1" sampleBucket (by decide) rfl rfl rfl rfl rfl rfl).2.2.2.2.2.2
      (by decide)⟩

/-! ## Guards of the bucket mutations -/

/-- The guard refuses a disabled or locked bucket with `ForbiddenError`. -/
theorem guard_blocked {b : StorageBucket} (hblk : Blocked b) :
    BucketService.guard b = Except.error Failure.ForbiddenError := by
  unfold BucketService.guard
  rcases hblk with hd | ⟨hl, hr⟩
  · simp [hd]
  · by_cases hd : b.Disabled = true
    · simp [hd]
    · cases hlr : b.LockReason with
      | none => simp [hlr] at hr
      | some reason => simp [hd, hl]

/-- The guard lets an enabled, unlocked bucket through. -/
theorem guard_ok {b : StorageBucket} (hen : b.Disabled = false) (hul : b.Locked = false) :
    BucketService.guard b = Except.ok () := by
  simp [BucketService.guard, hen, hul]

/-- The guarded part of the bucket mutations: for an existing bucket that is
disabled, or locked with its lock reason recorded, each of
`AddAllowedContentTypesToBucket`, `RemoveContentTypesFromBucket`, `UpdateBucket`
and `DeleteBucket` fails with `ForbiddenError` whatever its other arguments are;
the only collaborator call is the read of the bucket, and the bucket and every
other row are unchanged. -/
theorem blocked_bucket_forbids_bucket_mutations (env : Env) (s : St) (id : String)
    (b : StorageBucket)
    (hid : ValidateNotEmptyTrimmedString id = false)
    (hread : env.dbFails DbOp.GetBucketById = false)
    (hb : s.db.bucketById? id = some b) (hblk : Blocked b) :
    (∀ addContentTypes,
      BucketService.AddAllowedContentTypesToBucket env id addContentTypes s
        = (Except.error Failure.ForbiddenError, s.log (Call.db DbOp.GetBucketById id))) ∧
    (∀ removeContentTypes,
      BucketService.RemoveContentTypesFromBucket env id removeContentTypes s
        = (Except.error Failure.ForbiddenError, s.log (Call.db DbOp.GetBucketById id))) ∧
    (∀ bucketUpdate,
      BucketService.UpdateBucket env id bucketUpdate s
        = (Except.error Failure.ForbiddenError, s.log (Call.db DbOp.GetBucketById id))) ∧
    BucketService.DeleteBucket env id s
      = (Except.error Failure.ForbiddenError, s.log (Call.db DbOp.GetBucketById id)) ∧
    (s.log (Call.db DbOp.GetBucketById id)).db = s.db ∧
    (s.log (Call.db DbOp.GetBucketById id)).db.bucketById? id = some b := by
  have hg := getBucketByIdTxn_of_found hread hb
  have hgd := guard_blocked hblk
  refine ⟨fun added => ?_, fun removed => ?_, fun bucketUpdate => ?_, ?_, rfl, hb⟩
  · have htxn : BucketService.AddAllowedContentTypesToBucket.txn env id added s
        = (Except.error Failure.ForbiddenError, s.log (Call.db DbOp.GetBucketById id)) := by
      unfold BucketService.AddAllowedContentTypesToBucket.txn
      simp only [hg, hgd]
    unfold BucketService.AddAllowedContentTypesToBucket
    simp only [hid, Bool.false_eq_true, if_false]
    rw [WithTransaction_of_error env _ s _ _ htxn]
    rfl
  · have htxn : BucketService.RemoveContentTypesFromBucket.txn env id removed s
        = (Except.error Failure.ForbiddenError, s.log (Call.db DbOp.GetBucketById id)) := by
      unfold BucketService.RemoveContentTypesFromBucket.txn
      simp only [hg, hgd]
    unfold BucketService.RemoveContentTypesFromBucket
    simp only [hid, Bool.false_eq_true, if_false]
    rw [WithTransaction_of_error env _ s _ _ htxn]
    rfl
  · have htxn : BucketService.UpdateBucket.txn env id bucketUpdate s
        = (Except.error Failure.ForbiddenError, s.log (Call.db DbOp.GetBucketById id)) := by
      unfold BucketService.UpdateBucket.txn
      simp only [hg, hgd]
    unfold BucketService.UpdateBucket
    simp only [hid, Bool.false_eq_true, if_false]
    rw [WithTransaction_of_error env _ s _ _ htxn]
    rfl
  · have htxn : BucketService.DeleteBucket.txn env id s
        = (Except.error Failure.ForbiddenError, s.log (Call.db DbOp.GetBucketById id)) := by
      unfold BucketService.DeleteBucket.txn
      simp only [hg, hgd]
    unfold BucketService.DeleteBucket
    simp only [hid, Bool.false_eq_true, if_false]
    rw [WithTransaction_of_error env _ s _ _ htxn]
    rfl

/-- The four mutations against the disabled sample bucket and the one locked
with a reason. -/
theorem blocked_bucket_forbids_bucket_mutations_witness :
    Blocked disabledBucket ∧ Blocked lockedBucket ∧
    (BucketService.AddAllowedContentTypesToBucket Env.healthy "b-1" (some ["image/png"])
        (stateOf disabledBucket UploadStatus.Pending false)).1
      = Except.error Failure.ForbiddenError ∧
    (BucketService.RemoveContentTypesFromBucket Env.healthy "b-1" (some ["*/*"])
        (stateOf lockedBucket UploadStatus.Pending false)).1
      = Except.error Failure.ForbiddenError ∧
    (BucketService.UpdateBucket Env.healthy "b-1"
        { MaxAllowedObjectSize := some 100, Public := some true }
        (stateOf lockedBucket UploadStatus.Pending false)).1
      = Except.error Failure.ForbiddenError ∧
    (BucketService.DeleteBucket Env.healthy "b-1"
        (stateOf disabledBucket UploadStatus.Pending false)).1
      = Except.error Failure.ForbiddenError ∧
    (BucketService.DeleteBucket Env.healthy "b-1"
        (stateOf disabledBucket UploadStatus.Pending false)).2.db
      = (stateOf disabledBucket UploadStatus.Pending false).db :=
  ⟨by decide, by decide,
   congrArg Prod.fst ((blocked_bucket_forbids_bucket_mutations Env.healthy
      (stateOf disabledBucket UploadStatus.Pending false) "b-1" disabledBucket (by decide) rfl
      rfl (by decide)).1 (some ["image/png"])),
   congrArg Prod.fst ((blocked_bucket_forbids_bucket_mutations Env.healthy
      (stateOf lockedBucket UploadStatus.Pending false) "b-1" lockedBucket (by decide) rfl
      rfl (by decide)).2.1 (some ["*/*"])),
   congrArg Prod.fst ((blocked_bucket_forbids_bucket_mutations Env.healthy
      (stateOf lockedBucket UploadStatus.Pending false) "b-1" lockedBucket (by decide) rfl
      rfl (by decide)).2.2.1 { MaxAllowedObjectSize := some 100, Public := some true }),
   congrArg Prod.fst (blocked_bucket_forbids_bucket_mutations Env.healthy
      (stateOf disabledBucket UploadStatus.Pending false) "b-1" disabledBucket (by decide) rfl
      rfl (by decide)).2.2.2.1,
   congrArg (fun r => r.2.db) (blocked_bucket_forbids_bucket_mutations Env.healthy
      (stateOf disabledBucket UploadStatus.Pending false) "b-1" disabledBucket (by decide) rfl
      rfl (by decide)).2.2.2.1⟩

/-- C15 (the code departs from it): on a bucket that is locked while no lock
reason is recorded, the guard of the bucket mutations dereferences the nil
reason to build its message, so each of `AddAllowedContentTypesToBucket`,
`RemoveContentTypesFromBucket`, `UpdateBucket` and `DeleteBucket` ends in the
runtime panic instead of `ForbiddenError` (the bucket is left as it was); the
same calls on the bucket locked with a reason are refused with
`ForbiddenError`. -/
theorem locked_bucket_without_reason_bucket_mutations :
    unexplainedLockBucket.Locked = true ∧ unexplainedLockBucket.LockReason = none ∧
    unexplainedLockBucket.Disabled = false ∧
    Failure.NilPointerPanic ≠ Failure.ForbiddenError ∧
    (BucketService.AddAllowedContentTypesToBucket Env.healthy "b-1" (some ["image/png"])
        (stateOf unexplainedLockBucket UploadStatus.Pending false)).1
      = Except.error Failure.NilPointerPanic ∧
    (BucketService.RemoveContentTypesFromBucket Env.healthy "b-1" (some ["*/*"])
        (stateOf unexplainedLockBucket UploadStatus.Pending false)).1
      = Except.error Failure.NilPointerPanic ∧
    (BucketService.UpdateBucket Env.healthy "b-1"
        { MaxAllowedObjectSize := some 100, Public := some true }
        (stateOf unexplainedLockBucket UploadStatus.Pending false)).1
      = Except.error Failure.NilPointerPanic ∧
    (BucketService.DeleteBucket Env.healthy "b-1"
        (stateOf unexplainedLockBucket UploadStatus.Pending false)).1
      = Except.error Failure.NilPointerPanic ∧
    (BucketService.DeleteBucket Env.healthy "b-1"
        (stateOf unexplainedLockBucket UploadStatus.Pending false)).2.db
      = (stateOf unexplainedLockBucket UploadStatus.Pending false).db ∧
    (BucketService.AddAllowedContentTypesToBucket Env.healthy "b-1" (some ["image/png"])
        (stateOf lockedBucket UploadStatus.Pending false)).1
      = Except.error Failure.ForbiddenError ∧
    (BucketService.DeleteBucket Env.healthy "b-1"
        (stateOf lockedBucket UploadStatus.Pending false)).1
      = Except.error Failure.ForbiddenError := by
  refine ⟨rfl, rfl, rfl, by decide, rfl, rfl, rfl, rfl, rfl, rfl, rfl⟩

/-- C18: on an enabled, unlocked bucket, `AddAllowedContentTypesToBucket` with a
list that contains the wildcard fails with `InvalidInputError`, writes nothing,
and the allowed content types of the bucket stay as they were. -/
theorem add_rejects_wildcard (env : Env) (s : St) (id : String) (b : StorageBucket)
    (added : List String)
    (hid : ValidateNotEmptyTrimmedString id = false)
    (hread : env.dbFails DbOp.GetBucketById = false)
    (hb : s.db.bucketById? id = some b)
    (hen : b.Disabled = false) (hul : b.Locked = false)
    (hw : "*/*" ∈ added) :
    (BucketService.AddAllowedContentTypesToBucket env id (some added) s).1
      = Except.error Failure.InvalidInputError ∧
    (BucketService.AddAllowedContentTypesToBucket env id (some added) s).2.db = s.db ∧
    ((BucketService.AddAllowedContentTypesToBucket env id (some added) s).2.db.bucketById?
        id).map (fun x => x.AllowedContentTypes) = some b.AllowedContentTypes ∧
    newCalls s (BucketService.AddAllowedContentTypesToBucket env id (some added) s).2
      = [Call.db DbOp.GetBucketById id] := by
  have hg := getBucketByIdTxn_of_found hread hb
  have hgd := guard_ok hen hul
  have hc : Contains added "*/*" = true := (Contains_iff added "*/*").mpr hw
  have htxn : BucketService.AddAllowedContentTypesToBucket.txn env id (some added) s
      = (Except.error Failure.InvalidInputError, s.log (Call.db DbOp.GetBucketById id)) := by
    unfold BucketService.AddAllowedContentTypesToBucket.txn
    simp only [hg, hgd, hc, if_true]
  have hrun : BucketService.AddAllowedContentTypesToBucket env id (some added) s
      = (Except.error Failure.InvalidInputError, s.log (Call.db DbOp.GetBucketById id)) := by
    unfold BucketService.AddAllowedContentTypesToBucket
    simp only [hid, Bool.false_eq_true, if_false]
    rw [WithTransaction_of_error env _ s _ _ htxn]
    rfl
  rw [hrun]
  refine ⟨rfl, rfl, ?_, ?_⟩
  · simp only [St.log_db, hb, Option.map_some']
  · apply newCalls_of_trace
    simp

/-- Witness for C18: adding the wildcard, alone or among others, to the sample
bucket. -/
theorem add_rejects_wildcard_witness :
    (BucketService.AddAllowedContentTypesToBucket Env.healthy "b-1" (some ["image/png", "*/*"])
        (stateOf textOnlyBucket UploadStatus.Pending false)).1
      = Except.error Failure.InvalidInputError ∧
    ((BucketService.AddAllowedContentTypesToBucket Env.healthy "b-1" (some ["image/png", "*/*"])
        (stateOf textOnlyBucket UploadStatus.Pending false)).2.db.bucketById? "b-1").map
        (fun x => x.AllowedContentTypes) = some ["text/plain"] :=
  ⟨(add_rejects_wildcard Env.healthy (stateOf textOnlyBucket UploadStatus.Pending false) "b-1"
      textOnlyBucket ["image/png", "*/*"] (by decide) rfl rfl rfl rfl (by decide)).1,
   (add_rejects_wildcard Env.healthy (stateOf textOnlyBucket UploadStatus.Pending false) "b-1"
      textOnlyBucket ["image/png", "*/*"] (by decide) rfl rfl rfl rfl (by decide)).2.2.1⟩

/-! ## Adding and removing allowed content types -/

/-- The loop of `Uniq` keeps what it has collected. -/
theorem mem_UniqLoop_of_mem_result (l result : List String) (x : String) (h : x ∈ result) :
    x ∈ UniqLoop result l := by
  induction l generalizing result with
  | nil => exact h
  | cons a t ih =>
    unfold UniqLoop
    split
    · exact ih result h
    · exact ih (result ++ [a]) (List.mem_append_left _ h)

/-- The loop of `Uniq` collects every element it walks over. -/
theorem mem_UniqLoop_of_mem (l result : List String) (x : String) (h : x ∈ l) :
    x ∈ UniqLoop result l := by
  induction l generalizing result with
  | nil => cases h
  | cons a t ih =>
    unfold UniqLoop
    rcases List.mem_cons.mp h with rfl | ht
    · split
      · rename_i hc
        exact mem_UniqLoop_of_mem_result t result x ((Contains_iff result x).mp hc)
      · exact mem_UniqLoop_of_mem_result t (result ++ [x]) x
          (List.mem_append_right _ (List.mem_singleton.mpr rfl))
    · split
      · exact ih result ht
      · exact ih (result ++ [a]) ht

/-- The loop of `Uniq` keeps its result duplicate-free. -/
theorem UniqLoop_nodup (l result : List String) (h : result.Nodup) :
    (UniqLoop result l).Nodup := by
  induction l generalizing result with
  | nil => exact h
  | cons a t ih =>
    unfold UniqLoop
    split
    · exact ih result h
    · rename_i hc
      apply ih
      rw [List.nodup_append]
      refine ⟨h, List.nodup_singleton a, ?_⟩
      intro y hy1 hy2
      rw [List.mem_singleton.mp hy2] at hy1
      exact hc ((Contains_iff result a).mpr hy1)

/-- The members of `Uniq l` are those of `l`. -/
theorem mem_Uniq_iff (l : List String) (x : String) : x ∈ Uniq l ↔ x ∈ l :=
  ⟨mem_Uniq l x, mem_UniqLoop_of_mem l [] x⟩

/-- The list `Uniq l` has no duplicates. -/
theorem Uniq_nodup (l : List String) : (Uniq l).Nodup :=
  UniqLoop_nodup l [] List.nodup_nil

/-- What `UpdateBucketAllowedContentTypes` does to one row. -/
theorem allowed_row_ID (id : String) (allowed : List String) (x : StorageBucket) :
    (if x.ID == id then { x with AllowedContentTypes := allowed } else x).ID = x.ID := by
  split <;> rfl

/-- An accepted `AddAllowedContentTypesToBucket` on an enabled, unlocked bucket,
the update and the commit going through: the list stored and returned. -/
theorem add_accepted (env : Env) (s : St) (id : String) (b : StorageBucket)
    (added : List String)
    (hid : ValidateNotEmptyTrimmedString id = false)
    (hread : env.dbFails DbOp.GetBucketById = false)
    (hb : s.db.bucketById? id = some b)
    (hen : b.Disabled = false) (hul : b.Locked = false)
    (hnw : Contains added "*/*" = false)
    (hvalid : ValidateAllowedContentTypes added = Except.ok ())
    (hq : env.dbFails DbOp.UpdateBucketAllowedContentTypes = false)
    (hcommit : env.dbFails DbOp.Commit = false) :
    (BucketService.AddAllowedContentTypesToBucket env id (some added) s).1
      = Except.ok
          { b with AllowedContentTypes := mergedContentTypes b.AllowedContentTypes added } ∧
    (BucketService.AddAllowedContentTypesToBucket env id (some added) s).2.db.bucketById? id
      = some { b with AllowedContentTypes := mergedContentTypes b.AllowedContentTypes added } := by
  have hg := getBucketByIdTxn_of_found hread hb
  have hgd := guard_ok hen hul
  have hbid := bucketById?_id hb
  have hfound : s.db.buckets.find? (fun b => b.ID == id) = some b := hb
  have htxn : ∃ s1, BucketService.AddAllowedContentTypesToBucket.txn env id (some added) s
      = (Except.ok (), s1) ∧
      s1.db.buckets = s.db.buckets.map (fun x => if x.ID == id then
        { x with AllowedContentTypes := mergedContentTypes b.AllowedContentTypes added }
        else x) := by
    unfold BucketService.AddAllowedContentTypesToBucket.txn
    simp only [hg, hgd, hnw, hvalid, Bool.false_eq_true, if_false]
    simp [Queries.UpdateBucketAllowedContentTypes, hq, hbid, mergedContentTypes]
  obtain ⟨s1, htxn, hbk⟩ := htxn
  have hfind : (s1.log (Call.db DbOp.Commit "")).db.bucketById? id
      = some { b with AllowedContentTypes := mergedContentTypes b.AllowedContentTypes added } := by
    show List.find? _ (s1.log _).db.buckets = _
    rw [St.log_db, hbk, bucketById?_map_of_ID _ _ (allowed_row_ID id _), hfound]
    have hbeq : (b.ID == id) = true := by simp [hbid]
    simp only [Option.map_some', hbeq, if_true]
  unfold BucketService.AddAllowedContentTypesToBucket
  simp only [hid, Bool.false_eq_true, if_false]
  rw [WithTransaction_of_ok env _ s s1 () htxn hcommit]
  simp only
  rw [GetBucketById_of_found hid hread hfind]
  exact ⟨rfl, hfind⟩

/-- An accepted `AddAllowedContentTypesToBucket` whose update or commit fails
does not succeed. -/
theorem add_accepted_fault (env : Env) (s : St) (id : String) (b : StorageBucket)
    (added : List String)
    (hid : ValidateNotEmptyTrimmedString id = false)
    (hread : env.dbFails DbOp.GetBucketById = false)
    (hb : s.db.bucketById? id = some b)
    (hen : b.Disabled = false) (hul : b.Locked = false)
    (hnw : Contains added "*/*" = false)
    (hvalid : ValidateAllowedContentTypes added = Except.ok ())
    (hfault : env.dbFails DbOp.UpdateBucketAllowedContentTypes = true ∨
      env.dbFails DbOp.Commit = true) :
    ∃ e, (BucketService.AddAllowedContentTypesToBucket env id (some added) s).1
      = Except.error e := by
  have hg := getBucketByIdTxn_of_found hread hb
  have hgd := guard_ok hen hul
  unfold BucketService.AddAllowedContentTypesToBucket
  simp only [hid, Bool.false_eq_true, if_false]
  by_cases hq : env.dbFails DbOp.UpdateBucketAllowedContentTypes = true
  · have htxn : ∃ s1, BucketService.AddAllowedContentTypesToBucket.txn env id (some added) s
        = (Except.error Failure.UnknownError, s1) := by
      unfold BucketService.AddAllowedContentTypesToBucket.txn
      simp only [hg, hgd, hnw, hvalid, Bool.false_eq_true, if_false]
      simp [Queries.UpdateBucketAllowedContentTypes, hq]
    obtain ⟨s1, htxn⟩ := htxn
    rw [WithTransaction_of_error env _ s _ _ htxn]
    exact ⟨_, rfl⟩
  · have hc : env.dbFails DbOp.Commit = true := by
      rcases hfault with h | h
      · exact absurd h hq
      · exact h
    have htxn : ∃ s1, BucketService.AddAllowedContentTypesToBucket.txn env id (some added) s
        = (Except.ok (), s1) := by
      unfold BucketService.AddAllowedContentTypesToBucket.txn
      simp only [hg, hgd, hnw, hvalid, Bool.false_eq_true, if_false]
      simp [Queries.UpdateBucketAllowedContentTypes, hq]
    obtain ⟨s1, htxn⟩ := htxn
    simp only [WithTransaction, htxn, hc, if_true]
    exact ⟨_, rfl⟩

/-- C17: on an enabled, unlocked bucket with allowed list `old` and an accepted
list `added` (non-nil, without the wildcard, well formed), a successful
`AddAllowedContentTypesToBucket` stores and returns a duplicate-free list whose
members are exactly those of `base ∪ added`, `base` being empty when `old` holds
the wildcard and `old` otherwise; a bucket allowing only the wildcard ends with
exactly the added types and no wildcard.  The call succeeds when the update and
the commit go through. -/
theorem add_stores_union (env : Env) (s : St) (id : String) (b : StorageBucket)
    (added : List String)
    (hid : ValidateNotEmptyTrimmedString id = false)
    (hread : env.dbFails DbOp.GetBucketById = false)
    (hb : s.db.bucketById? id = some b)
    (hen : b.Disabled = false) (hul : b.Locked = false)
    (hnw : "*/*" ∉ added)
    (hvalid : ValidateAllowedContentTypes added = Except.ok ()) :
    (∀ r, (BucketService.AddAllowedContentTypesToBucket env id (some added) s).1 = Except.ok r →
      ∃ stored,
        r = { b with AllowedContentTypes := stored } ∧
        (BucketService.AddAllowedContentTypesToBucket env id (some added) s).2.db.bucketById? id
          = some { b with AllowedContentTypes := stored } ∧
        stored.Nodup ∧
        (∀ x, x ∈ stored ↔
          (x ∈ (if "*/*" ∈ b.AllowedContentTypes then [] else b.AllowedContentTypes) ∨
            x ∈ added)) ∧
        "*/*" ∉ stored ∧
        (b.AllowedContentTypes = ["*/*"] → ∀ x, x ∈ stored ↔ x ∈ added)) ∧
    (env.dbFails DbOp.UpdateBucketAllowedContentTypes = false →
      env.dbFails DbOp.Commit = false →
      ∃ r, (BucketService.AddAllowedContentTypesToBucket env id (some added) s).1
        = Except.ok r) := by
  have hnw2 : Contains added "*/*" = false := by
    cases hc : Contains added "*/*" with
    | false => rfl
    | true => exact absurd ((Contains_iff added "*/*").mp hc) hnw
  have hbase : (if Contains b.AllowedContentTypes "*/*" then [] else b.AllowedContentTypes)
      = (if "*/*" ∈ b.AllowedContentTypes then [] else b.AllowedContentTypes) := by
    by_cases hm : "*/*" ∈ b.AllowedContentTypes
    · simp [hm, (Contains_iff _ _).mpr hm]
    · have : Contains b.AllowedContentTypes "*/*" = false := by
        cases hc : Contains b.AllowedContentTypes "*/*" with
        | false => rfl
        | true => exact absurd ((Contains_iff _ _).mp hc) hm
      simp [hm, this]
  constructor
  · intro r hr
    by_cases hq : env.dbFails DbOp.UpdateBucketAllowedContentTypes = true
    · obtain ⟨e, he⟩ := add_accepted_fault env s id b added hid hread hb hen hul hnw2 hvalid
        (Or.inl hq)
      rw [he] at hr
      cases hr
    by_cases hc : env.dbFails DbOp.Commit = true
    · obtain ⟨e, he⟩ := add_accepted_fault env s id b added hid hread hb hen hul hnw2 hvalid
        (Or.inr hc)
      rw [he] at hr
      cases hr
    obtain ⟨h1, h2⟩ := add_accepted env s id b added hid hread hb hen hul hnw2 hvalid
      (by simpa using hq) (by simpa using hc)
    rw [h1] at hr
    refine ⟨mergedContentTypes b.AllowedContentTypes added, (Except.ok.inj hr).symm, h2,
      Uniq_nodup _, ?_, ?_, ?_⟩
    · intro x
      unfold mergedContentTypes
      rw [mem_Uniq_iff, List.mem_append, hbase]
    · exact add_result_no_wildcard _ _ hnw2
    · intro hold x
      unfold mergedContentTypes
      rw [mem_Uniq_iff, List.mem_append, hold]
      simp [Contains]
  · intro hq hcommit
    exact ⟨{ b with AllowedContentTypes := mergedContentTypes b.AllowedContentTypes added },
      (add_accepted env s id b added hid hread hb hen hul hnw2 hvalid hq hcommit).1⟩

/-- Witness for C17: adding two types, one of them twice, to the sample bucket,
which allows the wildcard. -/
theorem add_stores_union_witness :
    (∃ stored,
      ({ sampleBucket with AllowedContentTypes := ["image/png", "text/plain"] } : StorageBucket)
        = { sampleBucket with AllowedContentTypes := stored } ∧
      (BucketService.AddAllowedContentTypesToBucket Env.healthy "b-1"
          (some ["image/png", "text/plain", "image/png"])
          (stateOf sampleBucket UploadStatus.Pending false)).2.db.bucketById? "b-1"
        = some { sampleBucket with AllowedContentTypes := stored } ∧
      stored.Nodup ∧
      (∀ x, x ∈ stored ↔
        (x ∈ (if "*/*" ∈ sampleBucket.AllowedContentTypes then []
          else sampleBucket.AllowedContentTypes) ∨
          x ∈ ["image/png", "text/plain", "image/png"])) ∧
      "*/*" ∉ stored ∧
      (sampleBucket.AllowedContentTypes = ["*/*"] →
        ∀ x, x ∈ stored ↔ x ∈ ["image/png", "text/plain", "image/png"])) ∧
    (∃ r, (BucketService.AddAllowedContentTypesToBucket Env.healthy "b-1"
        (some ["image/png", "text/plain", "image/png"])
        (stateOf sampleBucket UploadStatus.Pending false)).1 = Except.ok r) :=
  ⟨(add_stores_union Env.healthy (stateOf sampleBucket UploadStatus.Pending false) "b-1"
      sampleBucket ["image/png", "text/plain", "image/png"] (by decide) rfl rfl rfl rfl
      (by decide) rfl).1
      { sampleBucket with AllowedContentTypes := ["image/png", "text/plain"] } rfl,
   (add_stores_union Env.healthy (stateOf sampleBucket UploadStatus.Pending false) "b-1"
      sampleBucket ["image/png", "text/plain", "image/png"] (by decide) rfl rfl rfl rfl
      (by decide) rfl).2 rfl rfl⟩

/-- An accepted `RemoveContentTypesFromBucket` on an enabled, unlocked bucket,
the update and the commit going through: the list stored and returned. -/
theorem remove_accepted (env : Env) (s : St) (id : String) (b : StorageBucket)
    (removed : List String)
    (hid : ValidateNotEmptyTrimmedString id = false)
    (hread : env.dbFails DbOp.GetBucketById = false)
    (hb : s.db.bucketById? id = some b)
    (hen : b.Disabled = false) (hul : b.Locked = false)
    (hvalid : ValidateAllowedContentTypes removed = Except.ok ())
    (hq : env.dbFails DbOp.UpdateBucketAllowedContentTypes = false)
    (hcommit : env.dbFails DbOp.Commit = false) :
    (BucketService.RemoveContentTypesFromBucket env id (some removed) s).1
      = Except.ok
          { b with AllowedContentTypes := remainingContentTypes b.AllowedContentTypes removed } ∧
    (BucketService.RemoveContentTypesFromBucket env id (some removed) s).2.db.bucketById? id
      = some { b with AllowedContentTypes := remainingContentTypes b.AllowedContentTypes removed } := by
  have hg := getBucketByIdTxn_of_found hread hb
  have hgd := guard_ok hen hul
  have hbid := bucketById?_id hb
  have hfound : s.db.buckets.find? (fun b => b.ID == id) = some b := hb
  have htxn : ∃ s1, BucketService.RemoveContentTypesFromBucket.txn env id (some removed) s
      = (Except.ok (), s1) ∧
      s1.db.buckets = s.db.buckets.map (fun x => if x.ID == id then
        { x with AllowedContentTypes := remainingContentTypes b.AllowedContentTypes removed }
        else x) := by
    unfold BucketService.RemoveContentTypesFromBucket.txn
    simp only [hg, hgd, hvalid]
    simp [Queries.UpdateBucketAllowedContentTypes, hq, hbid, remainingContentTypes]
  obtain ⟨s1, htxn, hbk⟩ := htxn
  have hfind : (s1.log (Call.db DbOp.Commit "")).db.bucketById? id
      = some { b with AllowedContentTypes := remainingContentTypes b.AllowedContentTypes removed } := by
    show List.find? _ (s1.log _).db.buckets = _
    rw [St.log_db, hbk, bucketById?_map_of_ID _ _ (allowed_row_ID id _), hfound]
    have hbeq : (b.ID == id) = true := by simp [hbid]
    simp only [Option.map_some', hbeq, if_true]
  unfold BucketService.RemoveContentTypesFromBucket
  simp only [hid, Bool.false_eq_true, if_false]
  rw [WithTransaction_of_ok env _ s s1 () htxn hcommit]
  simp only
  rw [GetBucketById_of_found hid hread hfind]
  exact ⟨rfl, hfind⟩

/-- An accepted `RemoveContentTypesFromBucket` whose update or commit fails does
not succeed. -/
theorem remove_accepted_fault (env : Env) (s : St) (id : String) (b : StorageBucket)
    (removed : List String)
    (hid : ValidateNotEmptyTrimmedString id = false)
    (hread : env.dbFails DbOp.GetBucketById = false)
    (hb : s.db.bucketById? id = some b)
    (hen : b.Disabled = false) (hul : b.Locked = false)
    (hvalid : ValidateAllowedContentTypes removed = Except.ok ())
    (hfault : env.dbFails DbOp.UpdateBucketAllowedContentTypes = true ∨
      env.dbFails DbOp.Commit = true) :
    ∃ e, (BucketService.RemoveContentTypesFromBucket env id (some removed) s).1
      = Except.error e := by
  have hg := getBucketByIdTxn_of_found hread hb
  have hgd := guard_ok hen hul
  unfold BucketService.RemoveContentTypesFromBucket
  simp only [hid, Bool.false_eq_true, if_false]
  by_cases hq : env.dbFails DbOp.UpdateBucketAllowedContentTypes = true
  · have htxn : ∃ s1, BucketService.RemoveContentTypesFromBucket.txn env id (some removed) s
        = (Except.error Failure.UnknownError, s1) := by
      unfold BucketService.RemoveContentTypesFromBucket.txn
      simp only [hg, hgd, hvalid]
      simp [Queries.UpdateBucketAllowedContentTypes, hq]
    obtain ⟨s1, htxn⟩ := htxn
    rw [WithTransaction_of_error env _ s _ _ htxn]
    exact ⟨_, rfl⟩
  · have hc : env.dbFails DbOp.Commit = true := by
      rcases hfault with h | h
      · exact absurd h hq
      · exact h
    have htxn : ∃ s1, BucketService.RemoveContentTypesFromBucket.txn env id (some removed) s
        = (Except.ok (), s1) := by
      unfold BucketService.RemoveContentTypesFromBucket.txn
      simp only [hg, hgd, hvalid]
      simp [Queries.UpdateBucketAllowedContentTypes, hq]
    obtain ⟨s1, htxn⟩ := htxn
    simp only [WithTransaction, htxn, hc, if_true]
    exact ⟨_, rfl⟩

/-- C19: on an enabled, unlocked bucket with allowed list `old` and an accepted
list `removed`, a successful `RemoveContentTypesFromBucket` stores and returns
the empty list when `removed` holds the wildcard, whatever `old` was, and
otherwise `old` without the entries that occur in `removed`, the others kept in
their order.  The call succeeds when the update and the commit go through. -/
theorem remove_stores_remaining (env : Env) (s : St) (id : String) (b : StorageBucket)
    (removed : List String)
    (hid : ValidateNotEmptyTrimmedString id = false)
    (hread : env.dbFails DbOp.GetBucketById = false)
    (hb : s.db.bucketById? id = some b)
    (hen : b.Disabled = false) (hul : b.Locked = false)
    (hvalid : ValidateAllowedContentTypes removed = Except.ok ()) :
    (∀ r, (BucketService.RemoveContentTypesFromBucket env id (some removed) s).1 = Except.ok r →
      ∃ stored,
        r = { b with AllowedContentTypes := stored } ∧
        (BucketService.RemoveContentTypesFromBucket env id (some removed) s).2.db.bucketById? id
          = some { b with AllowedContentTypes := stored } ∧
        ("*/*" ∈ removed → stored = []) ∧
        ("*/*" ∉ removed →
          stored = b.AllowedContentTypes.filter (fun x => decide (x ∉ removed)) ∧
          (∀ x, x ∈ stored ↔ (x ∈ b.AllowedContentTypes ∧ x ∉ removed)) ∧
          stored.Sublist b.AllowedContentTypes)) ∧
    (env.dbFails DbOp.UpdateBucketAllowedContentTypes = false →
      env.dbFails DbOp.Commit = false →
      ∃ r, (BucketService.RemoveContentTypesFromBucket env id (some removed) s).1
        = Except.ok r) := by
  constructor
  · intro r hr
    by_cases hq : env.dbFails DbOp.UpdateBucketAllowedContentTypes = true
    · obtain ⟨e, he⟩ := remove_accepted_fault env s id b removed hid hread hb hen hul hvalid
        (Or.inl hq)
      rw [he] at hr
      cases hr
    by_cases hc : env.dbFails DbOp.Commit = true
    · obtain ⟨e, he⟩ := remove_accepted_fault env s id b removed hid hread hb hen hul hvalid
        (Or.inr hc)
      rw [he] at hr
      cases hr
    obtain ⟨h1, h2⟩ := remove_accepted env s id b removed hid hread hb hen hul hvalid
      (by simpa using hq) (by simpa using hc)
    rw [h1] at hr
    refine ⟨remainingContentTypes b.AllowedContentTypes removed, (Except.ok.inj hr).symm, h2,
      ?_, ?_⟩
    · intro hw
      simp [remainingContentTypes, (Contains_iff removed "*/*").mpr hw]
    · intro hw
      have hcw : Contains removed "*/*" = false := by
        cases hc2 : Contains removed "*/*" with
        | false => rfl
        | true => exact absurd ((Contains_iff removed "*/*").mp hc2) hw
      have hfilter : remainingContentTypes b.AllowedContentTypes removed
          = b.AllowedContentTypes.filter (fun x => decide (x ∉ removed)) := by
        unfold remainingContentTypes
        simp only [hcw, Bool.false_eq_true, if_false]
        apply List.filter_congr
        intro x _
        by_cases hx : x ∈ removed
        · simp [hx, (Contains_iff removed x).mpr hx]
        · have : Contains removed x = false := by
            cases hc3 : Contains removed x with
            | false => rfl
            | true => exact absurd ((Contains_iff removed x).mp hc3) hx
          simp [hx, this]
      refine ⟨hfilter, ?_, ?_⟩
      · intro x
        rw [hfilter, List.mem_filter]
        simp
      · rw [hfilter]
        exact List.filter_sublist _
  · intro hq hcommit
    exact ⟨{ b with AllowedContentTypes := remainingContentTypes b.AllowedContentTypes removed },
      (remove_accepted env s id b removed hid hread hb hen hul hvalid hq hcommit).1⟩

/-- Witness for C19: removing the wildcard among others clears the list of a
bucket that does not even hold it; removing one type keeps the others in
order. -/
theorem remove_stores_remaining_witness :
    (∃ stored,
      ({ textOnlyBucket with AllowedContentTypes := [] } : StorageBucket)
        = { textOnlyBucket with AllowedContentTypes := stored } ∧
      (BucketService.RemoveContentTypesFromBucket Env.healthy "b-1" (some ["image/png", "*/*"])
          (stateOf textOnlyBucket UploadStatus.Pending false)).2.db.bucketById? "b-1"
        = some { textOnlyBucket with AllowedContentTypes := stored } ∧
      ("*/*" ∈ ["image/png", "*/*"] → stored = []) ∧
      ("*/*" ∉ ["image/png", "*/*"] →
        stored = textOnlyBucket.AllowedContentTypes.filter
          (fun x => decide (x ∉ ["image/png", "*/*"])) ∧
        (∀ x, x ∈ stored ↔
          (x ∈ textOnlyBucket.AllowedContentTypes ∧ x ∉ ["image/png", "*/*"])) ∧
        stored.Sublist textOnlyBucket.AllowedContentTypes)) ∧
    (∃ r, (BucketService.RemoveContentTypesFromBucket Env.healthy "b-1" (some ["text/plain"])
        (stateOf textOnlyBucket UploadStatus.Pending false)).1 = Except.ok r) :=
  ⟨(remove_stores_remaining Env.healthy (stateOf textOnlyBucket UploadStatus.Pending false)
      "b-1" textOnlyBucket ["image/png", "*/*"] (by decide) rfl rfl rfl rfl rfl).1
      { textOnlyBucket with AllowedContentTypes := [] } rfl,
   (remove_stores_remaining Env.healthy (stateOf textOnlyBucket UploadStatus.Pending false)
      "b-1" textOnlyBucket ["text/plain"] (by decide) rfl rfl rfl rfl rfl).2 rfl rfl⟩

/-! ## Content type of an upload and the bucket policy -/

/-- An upload that passes validation, gets its grant and meets no conflict and no
collaborator failure succeeds. -/
theorem upload_accepted (env : Env) (s : St) (bucketName : String)
    (create : PreSignedUploadObjectCreate) (bucket : StorageBucket) (grant : PreSignedObject)
    (metadataBytes : String)
    (hres : Resolves env s bucketName bucket)
    (hE : ∀ e, create.ExpiresIn = some e → 0 < e)
    (hC : ∀ ct, create.ContentType = some ct → ValidateContentType ct = false)
    (hsz : 0 < create.Size)
    (hP : env.presignUpload (uploadRequest env bucket create) = some grant)
    (hM : env.marshal create.Metadata = some metadataBytes)
    (hF : env.dbFails DbOp.CreateObject = false)
    (hfresh : ∀ o ∈ s.db.objects,
      o.ID ≠ env.newObjectId ∧ (o.BucketID = bucket.ID → o.Name ≠ create.Name))
    (hJ : env.dbFails DbOp.InsertJob = false)
    (hcommit : env.dbFails DbOp.Commit = false) :
    (ObjectService.CreatePreSignedUploadObject env bucketName create s).1
      = Except.ok { Id := env.newObjectId, Url := grant.Url, Method := grant.Method,
                    ExpiresAt := grant.ExpiresAt } ∧
    (ObjectService.CreatePreSignedUploadObject env bucketName create s).2.db.objects
      = s.db.objects ++ [pendingRow env.newObjectId bucket create metadataBytes] ∧
    (ObjectService.CreatePreSignedUploadObject env bucketName create s).2.db.jobs
      = s.db.jobs ++ [reconciliationJob bucket create env.newObjectId grant] := by
  have hb := getBucketByName_of_resolves hres
  have hx : ObjectService.CreatePreSignedUploadObject.expiresIn env create
      = Except.ok (create.ExpiresIn.getD env.DefaultPreSignedUploadUrlExpiresIn) := by
    rcases upload_expiresIn_cases env create with ⟨_, e1, h1, h2⟩ | ⟨hx, _⟩
    · have := hE e1 h1
      omega
    · exact hx
  have hc : ObjectService.CreatePreSignedUploadObject.contentType create
      = Except.ok (create.ContentType.getD DefaultContentType) := by
    rcases upload_contentType_cases create with ⟨_, ct, h1, h2⟩ | ⟨hc, _⟩
    · rw [hC ct h1] at h2
      cases h2
    · exact hc
  have hsz2 : ¬ create.Size ≤ 0 := by omega
  have hX : s.db.objects.any (fun o => o.ID == env.newObjectId ||
      (o.BucketID == bucket.ID && o.Name == create.Name)) = false := by
    rw [List.any_eq_false]
    intro o ho
    have := hfresh o ho
    by_cases hbk : o.BucketID = bucket.ID
    · simp [this.1, this.2 hbk]
    · simp [this.1, hbk]
  have hP2 := hP
  simp only [uploadRequest] at hP2
  have htxn : ∃ s1, ObjectService.CreatePreSignedUploadObject.txn env bucketName create s
      = (Except.ok (env.newObjectId, grant), s1) := by
    unfold ObjectService.CreatePreSignedUploadObject.txn
    rw [getBucketByNameTxn_eq]
    simp only [hb, hx, hc]
    simp [validateContentSize, hsz2, S3Storage.CreatePreSignedUploadObject, hP2, metadataToBytes,
      hM, Queries.CreateObject, hF, hX, JobClient.InsertTx, hJ]
  obtain ⟨s1, htxn⟩ := htxn
  have hrun : ObjectService.CreatePreSignedUploadObject env bucketName create s
      = (Except.ok { Id := env.newObjectId, Url := grant.Url, Method := grant.Method,
                     ExpiresAt := grant.ExpiresAt }, s1.log (Call.db DbOp.Commit "")) := by
    unfold ObjectService.CreatePreSignedUploadObject
    simp only [hres.1, Bool.false_eq_true, if_false]
    rw [WithTransaction_of_ok env _ s s1 _ htxn hcommit]
  obtain ⟨b2, bytes2, g2, hres2, hP3, hM3, _, hr, _, _, hobjs, hjobs, _, _⟩ :=
    upload_ok_inv env bucketName create s _ _ hrun
  have hbeq : b2 = bucket := by
    have h1 := hres2.2.2.2.1
    rw [hres.2.2.2.1] at h1
    exact (Option.some.inj h1).symm
  subst hbeq
  have hbytes : bytes2 = metadataBytes := by
    rw [hM] at hM3
    exact (Option.some.inj hM3).symm
  have hg : g2 = grant := by
    rw [hP] at hP3
    exact (Option.some.inj hP3).symm
  subst hbytes
  subst hg
  rw [hrun]
  exact ⟨rfl, hobjs, hjobs⟩

/-- C20 as stated fails: a bucket that allows only `text/plain` (no wildcard, no
pattern matching `image/png`) accepts an upload with the explicit content type
`image/png`; the row and its task are created. -/
theorem upload_disallowed_content_type_counterexample :
    Resolves Env.healthy (stateOf textOnlyBucket UploadStatus.Completed true) "pics"
      textOnlyBucket ∧
    "*/*" ∉ textOnlyBucket.AllowedContentTypes ∧
    (∀ p ∈ textOnlyBucket.AllowedContentTypes, patternMatches p "image/png" = false) ∧
    (sampleUpload "c/d.png").ContentType = some "image/png" ∧
    (ObjectService.CreatePreSignedUploadObject Env.healthy "pics" (sampleUpload "c/d.png")
        (stateOf textOnlyBucket UploadStatus.Completed true)).1
      ≠ Except.error Failure.InvalidInputError ∧
    (ObjectService.CreatePreSignedUploadObject Env.healthy "pics" (sampleUpload "c/d.png")
        (stateOf textOnlyBucket UploadStatus.Completed true)).1
      = Except.ok { Id := "o2", Url := "https://blob.example/up", Method := "PUT",
                    ExpiresAt := 1000 } ∧
    (ObjectService.CreatePreSignedUploadObject Env.healthy "pics" (sampleUpload "c/d.png")
        (stateOf textOnlyBucket UploadStatus.Completed true)).2.db.objects
      = [sampleObject UploadStatus.Completed,
         { ID := "o2", BucketID := "b-1", Name := "c/d.png", ContentType := "image/png",
           Size := 10, Metadata := "null", UploadStatus := UploadStatus.Pending,
           LastAccessedAt := none }] ∧
    (ObjectService.CreatePreSignedUploadObject Env.healthy "pics" (sampleUpload "c/d.png")
        (stateOf textOnlyBucket UploadStatus.Completed true)).2.db.jobs
      = [{ BucketName := "pics", ObjectName := "c/d.png", ObjectId := "o2",
           ScheduledAt := 1000 }] := by
  refine ⟨by decide, by decide, by decide, rfl, ?_, rfl, rfl, rfl⟩
  intro h
  have h2 : (ObjectService.CreatePreSignedUploadObject Env.healthy "pics"
      (sampleUpload "c/d.png") (stateOf textOnlyBucket UploadStatus.Completed true)).1
      = Except.ok { Id := "o2", Url := "https://blob.example/up", Method := "PUT",
                    ExpiresAt := 1000 } := rfl
  rw [h2] at h
  cases h

/-- C20, amended: for a resolvable bucket, `CreatePreSignedUploadObject` with an
explicit content type that is not a well-formed MIME type fails with
`InvalidInputError` before any blob-store call and creates no row and no task;
the allowed content types of the bucket are not consulted: a well-formed
content type is accepted, and stored on the new row, whatever that list
holds. -/
theorem upload_content_type_check (env : Env) (s : St) (bucketName : String)
    (create : PreSignedUploadObjectCreate) (bucket : StorageBucket) (c : String)
    (hres : Resolves env s bucketName bucket)
    (hct : create.ContentType = some c) :
    (ValidateContentType c = true →
      (ObjectService.CreatePreSignedUploadObject env bucketName create s).1
        = Except.error Failure.InvalidInputError ∧
      (ObjectService.CreatePreSignedUploadObject env bucketName create s).2.db = s.db ∧
      newCalls s (ObjectService.CreatePreSignedUploadObject env bucketName create s).2
        = [Call.db DbOp.GetBucketByName bucketName]) ∧
    (ValidateContentType c = false →
      ∀ grant metadataBytes,
        (∀ e, create.ExpiresIn = some e → 0 < e) →
        0 < create.Size →
        env.presignUpload (uploadRequest env bucket create) = some grant →
        env.marshal create.Metadata = some metadataBytes →
        env.dbFails DbOp.CreateObject = false →
        (∀ o ∈ s.db.objects,
          o.ID ≠ env.newObjectId ∧ (o.BucketID = bucket.ID → o.Name ≠ create.Name)) →
        env.dbFails DbOp.InsertJob = false →
        env.dbFails DbOp.Commit = false →
        (ObjectService.CreatePreSignedUploadObject env bucketName create s).1
          = Except.ok { Id := env.newObjectId, Url := grant.Url, Method := grant.Method,
                        ExpiresAt := grant.ExpiresAt } ∧
        (ObjectService.CreatePreSignedUploadObject env bucketName create s).2.db.objects
          = s.db.objects ++
            [{ ID := env.newObjectId, BucketID := bucket.ID, Name := create.Name,
               ContentType := c, Size := create.Size, Metadata := metadataBytes,
               UploadStatus := UploadStatus.Pending, LastAccessedAt := none }]) := by
  have hb := getBucketByName_of_resolves hres
  constructor
  · intro hbad
    have hcerr : ObjectService.CreatePreSignedUploadObject.contentType create
        = Except.error Failure.InvalidInputError := by
      simp [ObjectService.CreatePreSignedUploadObject.contentType, hct, validateContentType, hbad]
    have htxn : ObjectService.CreatePreSignedUploadObject.txn env bucketName create s
        = (Except.error Failure.InvalidInputError,
            s.log (Call.db DbOp.GetBucketByName bucketName)) := by
      unfold ObjectService.CreatePreSignedUploadObject.txn
      rw [getBucketByNameTxn_eq]
      simp only [hb]
      rcases upload_expiresIn_cases env create with ⟨hx, _⟩ | ⟨hx, _⟩
      · simp only [hx]
      · simp only [hx, hcerr]
    have hrun : ObjectService.CreatePreSignedUploadObject env bucketName create s
        = (Except.error Failure.InvalidInputError,
            s.log (Call.db DbOp.GetBucketByName bucketName)) := by
      unfold ObjectService.CreatePreSignedUploadObject
      simp only [hres.1, Bool.false_eq_true, if_false]
      rw [WithTransaction_of_error env _ s _ _ htxn]
      rfl
    rw [hrun]
    refine ⟨rfl, rfl, ?_⟩
    apply newCalls_of_trace
    simp
  · intro hgood grant bytes hE hsz hP hM hF hfresh hJ hcommit
    have hC : ∀ ct, create.ContentType = some ct → ValidateContentType ct = false := by
      intro ct h
      rw [hct] at h
      rw [← Option.some.inj h]
      exact hgood
    obtain ⟨h1, h2, _⟩ := upload_accepted env s bucketName create bucket grant bytes hres hE hC
      hsz hP hM hF hfresh hJ hcommit
    refine ⟨h1, ?_⟩
    rw [h2]
    simp [pendingRow, hct]

/-- Witness for C20, amended: a malformed content type is refused; `image/png` is
accepted by the bucket that allows only `text/plain`. -/
theorem upload_content_type_check_witness :
    ((ObjectService.CreatePreSignedUploadObject Env.healthy "pics"
        { sampleUpload "c/d.png" with ContentType := some "image" }
        (stateOf textOnlyBucket UploadStatus.Completed true)).1
        = Except.error Failure.InvalidInputError ∧
      (ObjectService.CreatePreSignedUploadObject Env.healthy "pics"
        { sampleUpload "c/d.png" with ContentType := some "image" }
        (stateOf textOnlyBucket UploadStatus.Completed true)).2.db
        = (stateOf textOnlyBucket UploadStatus.Completed true).db ∧
      newCalls (stateOf textOnlyBucket UploadStatus.Completed true)
          (ObjectService.CreatePreSignedUploadObject Env.healthy "pics"
            { sampleUpload "c/d.png" with ContentType := some "image" }
            (stateOf textOnlyBucket UploadStatus.Completed true)).2
        = [Call.db DbOp.GetBucketByName "pics"]) ∧
    ((ObjectService.CreatePreSignedUploadObject Env.healthy "pics" (sampleUpload "c/d.png")
        (stateOf textOnlyBucket UploadStatus.Completed true)).1
        = Except.ok { Id := Env.healthy.newObjectId, Url := "https://blob.example/up",
                      Method := "PUT", ExpiresAt := 1000 } ∧
      (ObjectService.CreatePreSignedUploadObject Env.healthy "pics" (sampleUpload "c/d.png")
        (stateOf textOnlyBucket UploadStatus.Completed true)).2.db.objects
        = (stateOf textOnlyBucket UploadStatus.Completed true).db.objects ++
          [{ ID := Env.healthy.newObjectId, BucketID := textOnlyBucket.ID,
             Name := (sampleUpload "c/d.png").Name, ContentType := "image/png",
             Size := (sampleUpload "c/d.png").Size, Metadata := "null",
             UploadStatus := UploadStatus.Pending, LastAccessedAt := none }]) :=
  ⟨(upload_content_type_check Env.healthy (stateOf textOnlyBucket UploadStatus.Completed true)
      "pics" { sampleUpload "c/d.png" with ContentType := some "image" } textOnlyBucket "image"
      (by decide) rfl).1 (by decide),
   (upload_content_type_check Env.healthy (stateOf textOnlyBucket UploadStatus.Completed true)
      "pics" (sampleUpload "c/d.png") textOnlyBucket "image/png" (by decide) rfl).2 (by decide)
      { Url := "https://blob.example/up", Method := "PUT", ExpiresAt := 1000 } "null"
      (by intro e he; cases he) (by decide) rfl rfl rfl (by decide) rfl rfl⟩

/-! ## Size and expiry of an upload -/

/-- An upload whose size is not positive, or whose supplied expiry is not
positive, is refused with `InvalidInputError` right after the bucket lookup. -/
theorem upload_invalid_argument (env : Env) (s : St) (bucketName : String)
    (create : PreSignedUploadObjectCreate) (bucket : StorageBucket)
    (hres : Resolves env s bucketName bucket)
    (hbad : create.Size ≤ 0 ∨ ∃ e, create.ExpiresIn = some e ∧ e ≤ 0) :
    ObjectService.CreatePreSignedUploadObject env bucketName create s
      = (Except.error Failure.InvalidInputError,
          s.log (Call.db DbOp.GetBucketByName bucketName)) := by
  have hb := getBucketByName_of_resolves hres
  have htxn : ObjectService.CreatePreSignedUploadObject.txn env bucketName create s
      = (Except.error Failure.InvalidInputError,
          s.log (Call.db DbOp.GetBucketByName bucketName)) := by
    unfold ObjectService.CreatePreSignedUploadObject.txn
    rw [getBucketByNameTxn_eq]
    simp only [hb]
    rcases upload_expiresIn_cases env create with ⟨hx, _⟩ | ⟨hx, hpos⟩
    · simp only [hx]
    · rcases upload_contentType_cases create with ⟨hc, _⟩ | ⟨hc, _⟩
      · simp only [hx, hc]
      · have hsz : create.Size ≤ 0 := by
          rcases hbad with h | ⟨e, he, hle⟩
          · exact h
          · have := hpos e he
            omega
        simp [hx, hc, validateContentSize, hsz]
  unfold ObjectService.CreatePreSignedUploadObject
  simp only [hres.1, Bool.false_eq_true, if_false]
  rw [WithTransaction_of_error env _ s _ _ htxn]
  rfl

/-- C22: for a resolvable bucket, `CreatePreSignedUploadObject` with a size that
is not positive, or with a supplied expiry that is not positive, fails with
`InvalidInputError`; the only collaborator call is the bucket lookup (no upload
grant is requested, no row inserted, no task scheduled), and the metadata store
and the blobs are as before. -/
theorem upload_rejects_nonpositive (env : Env) (s : St) (bucketName : String)
    (create : PreSignedUploadObjectCreate) (bucket : StorageBucket)
    (hres : Resolves env s bucketName bucket)
    (hbad : create.Size ≤ 0 ∨ ∃ e, create.ExpiresIn = some e ∧ e ≤ 0) :
    (ObjectService.CreatePreSignedUploadObject env bucketName create s).1
      = Except.error Failure.InvalidInputError ∧
    newCalls s (ObjectService.CreatePreSignedUploadObject env bucketName create s).2
      = [Call.db DbOp.GetBucketByName bucketName] ∧
    (ObjectService.CreatePreSignedUploadObject env bucketName create s).2.db.objects
      = s.db.objects ∧
    (ObjectService.CreatePreSignedUploadObject env bucketName create s).2.db.jobs = s.db.jobs ∧
    (ObjectService.CreatePreSignedUploadObject env bucketName create s).2.db = s.db ∧
    (ObjectService.CreatePreSignedUploadObject env bucketName create s).2.blobs = s.blobs := by
  rw [upload_invalid_argument env s bucketName create bucket hres hbad]
  refine ⟨rfl, ?_, rfl, rfl, rfl, rfl⟩
  apply newCalls_of_trace
  simp

/-- Witness for C22: a size of 0, and an expiry of -5, against the sample
bucket. -/
theorem upload_rejects_nonpositive_witness :
    ((ObjectService.CreatePreSignedUploadObject Env.healthy "pics"
        { sampleUpload "c/d.png" with Size := 0 } (sampleState UploadStatus.Pending false)).1
        = Except.error Failure.InvalidInputError ∧
      newCalls (sampleState UploadStatus.Pending false)
          (ObjectService.CreatePreSignedUploadObject Env.healthy "pics"
            { sampleUpload "c/d.png" with Size := 0 } (sampleState UploadStatus.Pending false)).2
        = [Call.db DbOp.GetBucketByName "pics"]) ∧
    ((ObjectService.CreatePreSignedUploadObject Env.healthy "pics"
        { sampleUpload "c/d.png" with ExpiresIn := some (-5) }
        (sampleState UploadStatus.Pending false)).1
        = Except.error Failure.InvalidInputError ∧
      (ObjectService.CreatePreSignedUploadObject Env.healthy "pics"
        { sampleUpload "c/d.png" with ExpiresIn := some (-5) }
        (sampleState UploadStatus.Pending false)).2.db
        = (sampleState UploadStatus.Pending false).db) :=
  ⟨⟨(upload_rejects_nonpositive Env.healthy (sampleState UploadStatus.Pending false) "pics"
      { sampleUpload "c/d.png" with Size := 0 } sampleBucket (by decide)
      (Or.inl (by decide))).1,
    (upload_rejects_nonpositive Env.healthy (sampleState UploadStatus.Pending false) "pics"
      { sampleUpload "c/d.png" with Size := 0 } sampleBucket (by decide)
      (Or.inl (by decide))).2.1⟩,
   ⟨(upload_rejects_nonpositive Env.healthy (sampleState UploadStatus.Pending false) "pics"
      { sampleUpload "c/d.png" with ExpiresIn := some (-5) } sampleBucket (by decide)
      (Or.inr ⟨-5, rfl, by decide⟩)).1,
    (upload_rejects_nonpositive Env.healthy (sampleState UploadStatus.Pending false) "pics"
      { sampleUpload "c/d.png" with ExpiresIn := some (-5) } sampleBucket (by decide)
      (Or.inr ⟨-5, rfl, by decide⟩)).2.2.2.2.1⟩⟩

/-- C21 as stated fails: the bucket with a size ceiling of 5 accepts an upload of
size 10; the row and its task are created. -/
theorem upload_over_ceiling_counterexample :
    Resolves Env.healthy (stateOf smallBucket UploadStatus.Completed true) "pics" smallBucket ∧
    smallBucket.MaxAllowedObjectSize = some 5 ∧
    (5 : Int) < (sampleUpload "c/d.png").Size ∧
    (ObjectService.CreatePreSignedUploadObject Env.healthy "pics" (sampleUpload "c/d.png")
        (stateOf smallBucket UploadStatus.Completed true)).1
      ≠ Except.error Failure.InvalidInputError ∧
    (ObjectService.CreatePreSignedUploadObject Env.healthy "pics" (sampleUpload "c/d.png")
        (stateOf smallBucket UploadStatus.Completed true)).1
      = Except.ok { Id := "o2", Url := "https://blob.example/up", Method := "PUT",
                    ExpiresAt := 1000 } ∧
    (ObjectService.CreatePreSignedUploadObject Env.healthy "pics" (sampleUpload "c/d.png")
        (stateOf smallBucket UploadStatus.Completed true)).2.db.objects
      = [sampleObject UploadStatus.Completed,
         { ID := "o2", BucketID := "b-1", Name := "c/d.png", ContentType := "image/png",
           Size := 10, Metadata := "null", UploadStatus := UploadStatus.Pending,
           LastAccessedAt := none }] ∧
    (ObjectService.CreatePreSignedUploadObject Env.healthy "pics" (sampleUpload "c/d.png")
        (stateOf smallBucket UploadStatus.Completed true)).2.db.jobs
      = [{ BucketName := "pics", ObjectName := "c/d.png", ObjectId := "o2",
           ScheduledAt := 1000 }] := by
  refine ⟨by decide, rfl, by decide, ?_, rfl, rfl, rfl⟩
  intro h
  have h2 : (ObjectService.CreatePreSignedUploadObject Env.healthy "pics"
      (sampleUpload "c/d.png") (stateOf smallBucket UploadStatus.Completed true)).1
      = Except.ok { Id := "o2", Url := "https://blob.example/up", Method := "PUT",
                    ExpiresAt := 1000 } := rfl
  rw [h2] at h
  cases h

/-- C21, amended: for a resolvable bucket whose size ceiling is set to `m`,
`CreatePreSignedUploadObject` fails with `InvalidInputError` and creates no row
and no task when the size is not positive; the ceiling is not consulted: an
otherwise acceptable upload of a positive size above `m` succeeds and creates
the row with that size and its task. -/
theorem upload_size_check (env : Env) (s : St) (bucketName : String)
    (create : PreSignedUploadObjectCreate) (bucket : StorageBucket) (m : Int)
    (hres : Resolves env s bucketName bucket)
    (_hm : bucket.MaxAllowedObjectSize = some m) :
    (create.Size ≤ 0 →
      (ObjectService.CreatePreSignedUploadObject env bucketName create s).1
        = Except.error Failure.InvalidInputError ∧
      (ObjectService.CreatePreSignedUploadObject env bucketName create s).2.db = s.db ∧
      newCalls s (ObjectService.CreatePreSignedUploadObject env bucketName create s).2
        = [Call.db DbOp.GetBucketByName bucketName]) ∧
    (0 < create.Size → m < create.Size →
      ∀ grant metadataBytes,
        (∀ e, create.ExpiresIn = some e → 0 < e) →
        (∀ ct, create.ContentType = some ct → ValidateContentType ct = false) →
        env.presignUpload (uploadRequest env bucket create) = some grant →
        env.marshal create.Metadata = some metadataBytes →
        env.dbFails DbOp.CreateObject = false →
        (∀ o ∈ s.db.objects,
          o.ID ≠ env.newObjectId ∧ (o.BucketID = bucket.ID → o.Name ≠ create.Name)) →
        env.dbFails DbOp.InsertJob = false →
        env.dbFails DbOp.Commit = false →
        (ObjectService.CreatePreSignedUploadObject env bucketName create s).1
          = Except.ok { Id := env.newObjectId, Url := grant.Url, Method := grant.Method,
                        ExpiresAt := grant.ExpiresAt } ∧
        (ObjectService.CreatePreSignedUploadObject env bucketName create s).2.db.objects
          = s.db.objects ++ [pendingRow env.newObjectId bucket create metadataBytes] ∧
        (pendingRow env.newObjectId bucket create metadataBytes).Size = create.Size ∧
        (ObjectService.CreatePreSignedUploadObject env bucketName create s).2.db.jobs
          = s.db.jobs ++ [reconciliationJob bucket create env.newObjectId grant]) := by
  constructor
  · intro hsz
    rw [upload_invalid_argument env s bucketName create bucket hres (Or.inl hsz)]
    refine ⟨rfl, rfl, ?_⟩
    apply newCalls_of_trace
    simp
  · intro hpos _ grant bytes hE hC hP hM hF hfresh hJ hcommit
    obtain ⟨h1, h2, h3⟩ := upload_accepted env s bucketName create bucket grant bytes hres hE hC
      hpos hP hM hF hfresh hJ hcommit
    exact ⟨h1, h2, rfl, h3⟩

/-- Witness for C21, amended: against the bucket with ceiling 5, size 0 is
refused and size 10 is accepted. -/
theorem upload_size_check_witness :
    ((ObjectService.CreatePreSignedUploadObject Env.healthy "pics"
        { sampleUpload "c/d.png" with Size := 0 }
        (stateOf smallBucket UploadStatus.Completed true)).1
        = Except.error Failure.InvalidInputError ∧
      (ObjectService.CreatePreSignedUploadObject Env.healthy "pics"
        { sampleUpload "c/d.png" with Size := 0 }
        (stateOf smallBucket UploadStatus.Completed true)).2.db
        = (stateOf smallBucket UploadStatus.Completed true).db ∧
      newCalls (stateOf smallBucket UploadStatus.Completed true)
          (ObjectService.CreatePreSignedUploadObject Env.healthy "pics"
            { sampleUpload "c/d.png" with Size := 0 }
            (stateOf smallBucket UploadStatus.Completed true)).2
        = [Call.db DbOp.GetBucketByName "pics"]) ∧
    ((ObjectService.CreatePreSignedUploadObject Env.healthy "pics" (sampleUpload "c/d.png")
        (stateOf smallBucket UploadStatus.Completed true)).1
        = Except.ok { Id := Env.healthy.newObjectId, Url := "https://blob.example/up",
                      Method := "PUT", ExpiresAt := 1000 } ∧
      (ObjectService.CreatePreSignedUploadObject Env.healthy "pics" (sampleUpload "c/d.png")
        (stateOf smallBucket UploadStatus.Completed true)).2.db.objects
        = (stateOf smallBucket UploadStatus.Completed true).db.objects ++
          [pendingRow Env.healthy.newObjectId smallBucket (sampleUpload "c/d.png") "null"] ∧
      (pendingRow Env.healthy.newObjectId smallBucket (sampleUpload "c/d.png") "null").Size
        = (sampleUpload "c/d.png").Size ∧
      (ObjectService.CreatePreSignedUploadObject Env.healthy "pics" (sampleUpload "c/d.png")
        (stateOf smallBucket UploadStatus.Completed true)).2.db.jobs
        = (stateOf smallBucket UploadStatus.Completed true).db.jobs ++
          [reconciliationJob smallBucket (sampleUpload "c/d.png") Env.healthy.newObjectId
            { Url := "https://blob.example/up", Method := "PUT", ExpiresAt := 1000 }]) :=
  ⟨(upload_size_check Env.healthy (stateOf smallBucket UploadStatus.Completed true) "pics"
      { sampleUpload "c/d.png" with Size := 0 } smallBucket 5 (by decide) rfl).1 (by decide),
   (upload_size_check Env.healthy (stateOf smallBucket UploadStatus.Completed true) "pics"
      (sampleUpload "c/d.png") smallBucket 5 (by decide) rfl).2 (by decide) (by decide)
      { Url := "https://blob.example/up", Method := "PUT", ExpiresAt := 1000 } "null"
      (by intro e he; cases he) (by intro ct hct; cases hct; decide) rfl rfl rfl (by decide)
      rfl rfl⟩

/-! ## Searching by path -/

/-- The search query logs one call and leaves metadata and blobs alone. -/
theorem SearchObjectsByPath_state (env : Env) (bucketName objectPath : String)
    (level limit offset : Int) (s : St) :
    (Queries.SearchObjectsByPath env bucketName objectPath level limit offset s).2
      = s.log (Call.dbSearch bucketName objectPath level limit offset) := by
  unfold Queries.SearchObjectsByPath
  by_cases hf : env.dbFails DbOp.SearchObjectsByPath = true <;> simp [hf]

/-- C23: a search with non-empty bucket name and path is refused with
`InvalidInputError`, without any query, when level, limit or offset is
negative; otherwise exactly one query is issued, with level 1 in place of 0,
limit 100 in place of 0 and the offset as given, and the result is
`NotFoundError` when the query returns no rows and otherwise one object per
returned row, in the order of the rows (`UnknownError` when the query fails). -/
theorem search_validates_and_maps (env : Env) (s : St) (bucketName objectPath : String)
    (level limit offset : Int)
    (hn : ValidateNotEmptyTrimmedString bucketName = false)
    (hp : ValidateNotEmptyTrimmedString objectPath = false) :
    ((level < 0 ∨ limit < 0 ∨ offset < 0) →
      ObjectService.SearchObjectsByBucketNameAndObjectPath env bucketName objectPath level limit
          offset s
        = (Except.error Failure.InvalidInputError, s) ∧
      newCalls s (ObjectService.SearchObjectsByBucketNameAndObjectPath env bucketName objectPath
          level limit offset s).2 = []) ∧
    (0 ≤ level → 0 ≤ limit → 0 ≤ offset →
      newCalls s (ObjectService.SearchObjectsByBucketNameAndObjectPath env bucketName objectPath
          level limit offset s).2
        = [Call.dbSearch bucketName objectPath (if level = 0 then 1 else level)
            (if limit = 0 then 100 else limit) offset] ∧
      (ObjectService.SearchObjectsByBucketNameAndObjectPath env bucketName objectPath level limit
          offset s).2.db = s.db ∧
      (∀ err,
        (Queries.SearchObjectsByPath env bucketName objectPath (searchLevel level)
            (searchLimit limit) offset s).1 = Except.error err →
        (ObjectService.SearchObjectsByBucketNameAndObjectPath env bucketName objectPath level
            limit offset s).1 = Except.error Failure.UnknownError) ∧
      (∀ rows,
        (Queries.SearchObjectsByPath env bucketName objectPath (searchLevel level)
            (searchLimit limit) offset s).1 = Except.ok rows →
        (rows = [] →
          (ObjectService.SearchObjectsByBucketNameAndObjectPath env bucketName objectPath level
              limit offset s).1 = Except.error Failure.NotFoundError) ∧
        (rows ≠ [] →
          (ObjectService.SearchObjectsByBucketNameAndObjectPath env bucketName objectPath level
              limit offset s).1 = Except.ok (rows.map (searchResult env)) ∧
          (rows.map (searchResult env)).length = rows.length ∧
          (rows.map (searchResult env)).map (fun object => object.Id)
            = rows.map (fun row => row.ID)))) := by
  constructor
  · intro hneg
    have hrun : ObjectService.SearchObjectsByBucketNameAndObjectPath env bucketName objectPath
        level limit offset s = (Except.error Failure.InvalidInputError, s) := by
      unfold ObjectService.SearchObjectsByBucketNameAndObjectPath
      simp only [hn, hp, Bool.false_eq_true, if_false]
      by_cases h1 : level < 0
      · simp [h1]
      · by_cases h2 : limit < 0
        · simp [h1, h2]
        · have h3 : offset < 0 := by
            rcases hneg with h | h | h
            · exact absurd h h1
            · exact absurd h h2
            · exact h
          simp [h1, h2, h3]
    rw [hrun]
    exact ⟨rfl, newCalls_self s⟩
  · intro h1 h2 h3
    have h1n : ¬ level < 0 := by omega
    have h2n : ¬ limit < 0 := by omega
    have h3n : ¬ offset < 0 := by omega
    have hstate := SearchObjectsByPath_state env bucketName objectPath (searchLevel level)
      (searchLimit limit) offset s
    have hunfold : ObjectService.SearchObjectsByBucketNameAndObjectPath env bucketName
        objectPath level limit offset s
        = match Queries.SearchObjectsByPath env bucketName objectPath (searchLevel level)
            (searchLimit limit) offset s with
          | (Except.error _, s1) => (Except.error Failure.UnknownError, s1)
          | (Except.ok objects, s1) =>
            if objects.length == 0 then (Except.error Failure.NotFoundError, s1)
            else (Except.ok (objects.map (searchResult env)), s1) := by
      unfold ObjectService.SearchObjectsByBucketNameAndObjectPath
      simp only [hn, hp, h1n, h2n, h3n, Bool.false_eq_true, if_false]
      rfl
    have hlevel : searchLevel level = if level = 0 then 1 else level := by
      simp [searchLevel]
    have hlimit : searchLimit limit = if limit = 0 then 100 else limit := by
      simp [searchLimit]
    rw [hunfold]
    generalize hq : Queries.SearchObjectsByPath env bucketName objectPath (searchLevel level)
      (searchLimit limit) offset s = q at hstate
    obtain ⟨res, s1⟩ := q
    simp only at hstate
    subst hstate
    rw [← hlevel, ← hlimit]
    cases res with
    | error err =>
      refine ⟨?_, rfl, fun _ _ => rfl, ?_⟩
      · apply newCalls_of_trace
        simp [St.log]
      · intro rows hrows
        cases hrows
    | ok objects =>
      refine ⟨?_, ?_, ?_, ?_⟩
      · by_cases hlen : objects.length = 0
        · simp only [hlen, beq_self_eq_true, if_true]
          apply newCalls_of_trace
          simp [St.log]
        · have : (objects.length == 0) = false := by simpa using hlen
          simp only [this, Bool.false_eq_true, if_false]
          apply newCalls_of_trace
          simp [St.log]
      · by_cases hlen : objects.length = 0
        · simp only [hlen, beq_self_eq_true, if_true]
          rfl
        · have : (objects.length == 0) = false := by simpa using hlen
          simp only [this, Bool.false_eq_true, if_false]
          rfl
      · intro err herr
        cases herr
      · intro rows hrows
        have hrows2 : objects = rows := by
          simpa using hrows
        subst hrows2
        constructor
        · intro hnil
          simp [hnil]
        · intro hne
          have : (objects.length == 0) = false := by
            simpa using hne
          exact ⟨by simp [this], by simp, by simp [searchResult]⟩

/-- Witness for C23: a negative limit; the defaults on the sample world; and a
path without objects. -/
theorem search_validates_and_maps_witness :
    (ObjectService.SearchObjectsByBucketNameAndObjectPath Env.healthy "pics" "a/" 0 (-1) 0
        (sampleState UploadStatus.Completed true)
      = (Except.error Failure.InvalidInputError, sampleState UploadStatus.Completed true)) ∧
    (newCalls (sampleState UploadStatus.Completed true)
        (ObjectService.SearchObjectsByBucketNameAndObjectPath Env.healthy "pics" "a/" 0 0 0
          (sampleState UploadStatus.Completed true)).2
      = [Call.dbSearch "pics" "a/" (if (0 : Int) = 0 then 1 else 0)
          (if (0 : Int) = 0 then 100 else 0) 0]) ∧
    ((ObjectService.SearchObjectsByBucketNameAndObjectPath Env.healthy "pics" "a/" 0 0 0
        (sampleState UploadStatus.Completed true)).1
      = Except.ok ([sampleObject UploadStatus.Completed].map (searchResult Env.healthy))) ∧
    ((ObjectService.SearchObjectsByBucketNameAndObjectPath Env.healthy "pics" "z/" 0 0 0
        (sampleState UploadStatus.Completed true)).1
      = Except.error Failure.NotFoundError) :=
  ⟨((search_validates_and_maps Env.healthy (sampleState UploadStatus.Completed true) "pics" "a/"
      0 (-1) 0 (by decide) (by decide)).1 (Or.inr (Or.inl (by decide)))).1,
   ((search_validates_and_maps Env.healthy (sampleState UploadStatus.Completed true) "pics" "a/"
      0 0 0 (by decide) (by decide)).2 (by decide) (by decide) (by decide)).1,
   ((((search_validates_and_maps Env.healthy (sampleState UploadStatus.Completed true) "pics"
      "a/" 0 0 0 (by decide) (by decide)).2 (by decide) (by decide) (by decide)).2.2.2
      [sampleObject UploadStatus.Completed] rfl).2 (by decide)).1,
   (((search_validates_and_maps Env.healthy (sampleState UploadStatus.Completed true) "pics"
      "z/" 0 0 0 (by decide) (by decide)).2 (by decide) (by decide) (by decide)).2.2.2
      [] rfl).1 rfl⟩

/-! ## A download with a negative expiry -/

/-- With a negative expiry the body of the download transaction always fails,
and every call it has logged by then is one of the two reads, the existence
probe or the status update. -/
theorem download_txn_negative (env : Env) (s : St) (bucketName objectId : String)
    (expiresIn : Int) (hneg : expiresIn < 0) :
    ∃ e s1,
      ObjectService.CreatePreSignedDownloadObject.txn env bucketName objectId expiresIn s
        = (Except.error e, s1) ∧
      ∀ c ∈ newCalls s s1, c.beforeExpiryCheck = true := by
  have hne : (expiresIn == 0) = false := by
    simp
    omega
  have hle : expiresIn ≤ 0 := by omega
  unfold ObjectService.CreatePreSignedDownloadObject.txn
  rw [getBucketByNameTxn_eq]
  rcases getBucketByName_cases env bucketName s with ⟨e, hb⟩ | ⟨e, hb⟩ | ⟨bucket, _, hb⟩
  · simp only [hb]
    exact ⟨e, s, rfl, by simp [newCalls_self]⟩
  · simp only [hb]
    refine ⟨e, _, rfl, ?_⟩
    rw [newCalls_of_trace (l := [Call.db DbOp.GetBucketByName bucketName]) (by simp [St.log])]
    simp [Call.beforeExpiryCheck]
  · simp only [hb]
    rcases GetObjectById_cases env objectId (s.log (Call.db DbOp.GetBucketByName bucketName))
      with ⟨err, hg, _⟩ | ⟨o, _, _, hg⟩
    · simp only [hg]
      have h2 : newCalls s ((s.log (Call.db DbOp.GetBucketByName bucketName)).log
          (Call.db DbOp.GetObjectById objectId))
          = [Call.db DbOp.GetBucketByName bucketName, Call.db DbOp.GetObjectById objectId] :=
        newCalls_of_trace (by simp [St.log])
      by_cases hnf : IsNotFoundError err = true
      · simp only [hnf, if_true]
        refine ⟨_, _, rfl, ?_⟩
        rw [h2]
        simp [Call.beforeExpiryCheck]
      · simp only [hnf, if_false]
        refine ⟨_, _, rfl, ?_⟩
        rw [h2]
        simp [Call.beforeExpiryCheck]
    · simp only [hg]
      by_cases hst : o.UploadStatus = UploadStatus.Completed
      · refine ⟨Failure.InvalidInputError, (s.log (Call.db DbOp.GetBucketByName bucketName)).log
          (Call.db DbOp.GetObjectById objectId), ?_, ?_⟩
        · simp [hst, hne, validateExpiration, hle]
        · rw [newCalls_of_trace (l := [Call.db DbOp.GetBucketByName bucketName,
            Call.db DbOp.GetObjectById objectId]) (by simp [St.log])]
          simp [Call.beforeExpiryCheck]
      · have hst2 : (o.UploadStatus != ObjectUploadStatusCompleted) = true := by
          simpa using hst
        by_cases hcf : env.checkExistsFails = true
        · refine ⟨Failure.UnknownError, ((s.log (Call.db DbOp.GetBucketByName bucketName)).log
            (Call.db DbOp.GetObjectById objectId)).log
            (Call.storageExists bucket.Name o.Name none), ?_, ?_⟩
          · simp [hst2, S3Storage.CheckIfObjectExists, hcf]
          · rw [newCalls_of_trace (l := [Call.db DbOp.GetBucketByName bucketName,
              Call.db DbOp.GetObjectById objectId, Call.storageExists bucket.Name o.Name none])
              (by simp [St.log])]
            simp [Call.beforeExpiryCheck]
        · by_cases hblob : (bucket.Name, o.Name) ∈ s.blobs
          · by_cases huf : env.dbFails DbOp.UpdateObjectUploadStatus = true
            · refine ⟨Failure.UnknownError,
                (((s.log (Call.db DbOp.GetBucketByName bucketName)).log
                  (Call.db DbOp.GetObjectById objectId)).log
                  (Call.storageExists bucket.Name o.Name (some true))).log
                  (Call.db DbOp.UpdateObjectUploadStatus o.ID), ?_, ?_⟩
              · simp [hst2, S3Storage.CheckIfObjectExists, hcf, hblob,
                  Queries.UpdateObjectUploadStatus, huf]
              · rw [newCalls_of_trace (l := [Call.db DbOp.GetBucketByName bucketName,
                  Call.db DbOp.GetObjectById objectId,
                  Call.storageExists bucket.Name o.Name (some true),
                  Call.db DbOp.UpdateObjectUploadStatus o.ID]) (by simp [St.log])]
                simp [Call.beforeExpiryCheck]
            · have hrun : ∃ s1,
                  ObjectService.CreatePreSignedDownloadObject.txn env bucketName objectId
                    expiresIn s = (Except.error Failure.InvalidInputError, s1) ∧
                  s1.trace = s.trace ++ [Call.db DbOp.GetBucketByName bucketName,
                    Call.db DbOp.GetObjectById objectId,
                    Call.storageExists bucket.Name o.Name (some true),
                    Call.db DbOp.UpdateObjectUploadStatus o.ID] := by
                unfold ObjectService.CreatePreSignedDownloadObject.txn
                rw [getBucketByNameTxn_eq]
                simp only [hb, hg]
                simp [hst2, S3Storage.CheckIfObjectExists, hcf, hblob,
                  Queries.UpdateObjectUploadStatus, huf, hne, validateExpiration, hle, St.log]
              obtain ⟨s1, h1, h2⟩ := hrun
              unfold ObjectService.CreatePreSignedDownloadObject.txn at h1
              rw [getBucketByNameTxn_eq] at h1
              simp only [hb, hg] at h1
              refine ⟨Failure.InvalidInputError, s1, h1, ?_⟩
              rw [newCalls_of_trace h2]
              simp [Call.beforeExpiryCheck]
          · refine ⟨Failure.NotFoundError,
              ((s.log (Call.db DbOp.GetBucketByName bucketName)).log
                (Call.db DbOp.GetObjectById objectId)).log
                (Call.storageExists bucket.Name o.Name (some false)), ?_, ?_⟩
            · simp [hst2, S3Storage.CheckIfObjectExists, hcf, hblob]
            · rw [newCalls_of_trace (l := [Call.db DbOp.GetBucketByName bucketName,
                Call.db DbOp.GetObjectById objectId,
                Call.storageExists bucket.Name o.Name (some false)]) (by simp [St.log])]
              simp [Call.beforeExpiryCheck]

/-- C24 as stated fails: a download with expiry -1 of a completed object reads
the bucket and the object before it is refused, and against a store without the
bucket it is refused with `NotFoundError`, not `InvalidInputError`. -/
theorem negative_expiry_download_counterexample :
    ((-1 : Int) < 0) ∧
    (ObjectService.CreatePreSignedDownloadObject Env.healthy "pics" "o1" (-1)
        (sampleState UploadStatus.Completed true)).1
      = Except.error Failure.InvalidInputError ∧
    newCalls (sampleState UploadStatus.Completed true)
        (ObjectService.CreatePreSignedDownloadObject Env.healthy "pics" "o1" (-1)
          (sampleState UploadStatus.Completed true)).2
      = [Call.db DbOp.GetBucketByName "pics", Call.db DbOp.GetObjectById "o1"] ∧
    newCalls (sampleState UploadStatus.Completed true)
        (ObjectService.CreatePreSignedDownloadObject Env.healthy "pics" "o1" (-1)
          (sampleState UploadStatus.Completed true)).2 ≠ [] ∧
    (ObjectService.CreatePreSignedDownloadObject Env.healthy "pics" "o1" (-1) emptyState).1
      = Except.error Failure.NotFoundError ∧
    (ObjectService.CreatePreSignedDownloadObject Env.healthy "pics" "o1" (-1) emptyState).1
      ≠ Except.error Failure.InvalidInputError := by
  have h1 : newCalls (sampleState UploadStatus.Completed true)
      (ObjectService.CreatePreSignedDownloadObject Env.healthy "pics" "o1" (-1)
        (sampleState UploadStatus.Completed true)).2
      = [Call.db DbOp.GetBucketByName "pics", Call.db DbOp.GetObjectById "o1"] := by decide
  have h2 : (ObjectService.CreatePreSignedDownloadObject Env.healthy "pics" "o1" (-1)
      emptyState).1 = Except.error Failure.NotFoundError := rfl
  refine ⟨by decide, rfl, h1, ?_, h2, ?_⟩
  · rw [h1]
    simp
  · rw [h2]
    intro h
    cases h

/-- C24, amended: a download with a negative expiry always fails, requests no
download grant, records no access, and leaves the metadata store and the blobs
as they were; the expiry is validated inside the transaction after the bucket
and the object have been read, so for a resolvable bucket and a completed object
the failure is `InvalidInputError`, returned after exactly those two reads. -/
theorem download_negative_expiry (env : Env) (s : St) (bucketName objectId : String)
    (expiresIn : Int) (hneg : expiresIn < 0) :
    (∃ e, (ObjectService.CreatePreSignedDownloadObject env bucketName objectId expiresIn s).1
      = Except.error e) ∧
    (ObjectService.CreatePreSignedDownloadObject env bucketName objectId expiresIn s).2.db
      = s.db ∧
    (ObjectService.CreatePreSignedDownloadObject env bucketName objectId expiresIn s).2.blobs
      = s.blobs ∧
    (∀ bucket name, Call.storageDownload bucket name ∉
      newCalls s (ObjectService.CreatePreSignedDownloadObject env bucketName objectId expiresIn
        s).2) ∧
    (∀ key, Call.db DbOp.UpdateObjectLastAccessedAt key ∉
      newCalls s (ObjectService.CreatePreSignedDownloadObject env bucketName objectId expiresIn
        s).2) ∧
    (∀ bucket object, Resolves env s bucketName bucket →
      ValidateNotEmptyTrimmedString objectId = false →
      env.dbFails DbOp.GetObjectById = false →
      s.db.object? objectId = some object →
      object.UploadStatus = UploadStatus.Completed →
      (ObjectService.CreatePreSignedDownloadObject env bucketName objectId expiresIn s).1
        = Except.error Failure.InvalidInputError ∧
      newCalls s (ObjectService.CreatePreSignedDownloadObject env bucketName objectId expiresIn
          s).2
        = [Call.db DbOp.GetBucketByName bucketName, Call.db DbOp.GetObjectById objectId]) := by
  have hgen : ∃ e s1,
      ObjectService.CreatePreSignedDownloadObject env bucketName objectId expiresIn s
        = (Except.error e, s1) ∧ s1.db = s.db ∧ s1.blobs = s.blobs ∧
      ∀ c ∈ newCalls s s1, c.beforeExpiryCheck = true := by
    unfold ObjectService.CreatePreSignedDownloadObject
    by_cases hn : ValidateNotEmptyTrimmedString bucketName = true
    · simp only [hn, if_true]
      exact ⟨_, s, rfl, rfl, rfl, by simp [newCalls_self]⟩
    · by_cases ho : ValidateNotEmptyTrimmedString objectId = true
      · simp only [hn, ho, if_true, if_false]
        exact ⟨_, s, rfl, rfl, rfl, by simp [newCalls_self]⟩
      · simp only [hn, ho, if_false]
        obtain ⟨e, s1, htxn, hcalls⟩ :=
          download_txn_negative env s bucketName objectId expiresIn hneg
        have hblobs := download_txn_blobs env bucketName objectId expiresIn s
        rw [htxn] at hblobs
        rw [WithTransaction_of_error env _ s s1 e htxn]
        exact ⟨e, _, rfl, rfl, hblobs, hcalls⟩
  obtain ⟨e, s1, hrun, hdb, hblobs, hcalls⟩ := hgen
  refine ⟨⟨e, by rw [hrun]⟩, by rw [hrun]; exact hdb, by rw [hrun]; exact hblobs, ?_, ?_, ?_⟩
  · intro bucket name hmem
    rw [hrun] at hmem
    have := hcalls _ hmem
    simp [Call.beforeExpiryCheck] at this
  · intro key hmem
    rw [hrun] at hmem
    have := hcalls _ hmem
    simp [Call.beforeExpiryCheck] at this
  · intro bucket object hres hoid hread hobj hst
    have hb := getBucketByName_of_resolves hres
    have hg := GetObjectById_of_found (s := s.log (Call.db DbOp.GetBucketByName bucketName))
      hread (by simpa using hobj)
    have hne : (expiresIn == 0) = false := by
      simp
      omega
    have hle : expiresIn ≤ 0 := by omega
    have htxn : ObjectService.CreatePreSignedDownloadObject.txn env bucketName objectId
        expiresIn s
        = (Except.error Failure.InvalidInputError,
            (s.log (Call.db DbOp.GetBucketByName bucketName)).log
              (Call.db DbOp.GetObjectById objectId)) := by
      unfold ObjectService.CreatePreSignedDownloadObject.txn
      rw [getBucketByNameTxn_eq]
      simp only [hb, hg]
      simp [hst, hne, validateExpiration, hle]
    have hrun2 : ObjectService.CreatePreSignedDownloadObject env bucketName objectId expiresIn s
        = (Except.error Failure.InvalidInputError,
            (s.log (Call.db DbOp.GetBucketByName bucketName)).log
              (Call.db DbOp.GetObjectById objectId)) := by
      unfold ObjectService.CreatePreSignedDownloadObject
      simp only [hres.1, hoid, Bool.false_eq_true, if_false]
      rw [WithTransaction_of_error env _ s _ _ htxn]
      rfl
    rw [hrun2]
    refine ⟨rfl, ?_⟩
    apply newCalls_of_trace
    simp [St.log]

/-- Witness for C24, amended: expiry -1 against the pending sample object whose
blob is present, and against the completed one. -/
theorem download_negative_expiry_witness :
    ((∃ e, (ObjectService.CreatePreSignedDownloadObject Env.healthy "pics" "o1" (-1)
        (sampleState UploadStatus.Pending true)).1 = Except.error e) ∧
      (ObjectService.CreatePreSignedDownloadObject Env.healthy "pics" "o1" (-1)
        (sampleState UploadStatus.Pending true)).2.db
        = (sampleState UploadStatus.Pending true).db) ∧
    ((ObjectService.CreatePreSignedDownloadObject Env.healthy "pics" "o1" (-1)
        (sampleState UploadStatus.Completed true)).1
        = Except.error Failure.InvalidInputError ∧
      newCalls (sampleState UploadStatus.Completed true)
          (ObjectService.CreatePreSignedDownloadObject Env.healthy "pics" "o1" (-1)
            (sampleState UploadStatus.Completed true)).2
        = [Call.db DbOp.GetBucketByName "pics", Call.db DbOp.GetObjectById "o1"]) :=
  ⟨⟨(download_negative_expiry Env.healthy (sampleState UploadStatus.Pending true) "pics" "o1"
      (-1) (by decide)).1,
    (download_negative_expiry Env.healthy (sampleState UploadStatus.Pending true) "pics" "o1"
      (-1) (by decide)).2.1⟩,
   (download_negative_expiry Env.healthy (sampleState UploadStatus.Completed true) "pics" "o1"
      (-1) (by decide)).2.2.2.2.2 sampleBucket (sampleObject UploadStatus.Completed)
      (by decide) (by decide) rfl rfl rfl⟩

/-! ## Bucket names at creation -/

/-- C25 (the code departs from it): `CreateBucket` checks only that the name is
not blank, so it creates a bucket named `_tmp`, which is outside the
bucket-name pattern; the object operations refuse that name with
`InvalidInputError`, so the bucket cannot be resolved.  The same request with
the name `tmp` gives a bucket that the object operations resolve. -/
theorem create_bucket_accepts_odd_name :
    validateBucketName oddNameCreate.Name = true ∧
    (BucketService.CreateBucket Env.healthy oddNameCreate emptyState).1
      = Except.ok { ID := "b-3", Name := "_tmp", AllowedContentTypes := ["*/*"],
                    MaxAllowedObjectSize := none, Public := false, Disabled := false,
                    Locked := false, LockReason := none, LockedAt := none } ∧
    ((BucketService.CreateBucket Env.healthy oddNameCreate emptyState).2.db.bucketByName?
        "_tmp").map (fun bucket => bucket.ID) = some "b-3" ∧
    (ObjectService.getBucketByName Env.healthy "_tmp"
        (BucketService.CreateBucket Env.healthy oddNameCreate emptyState).2).1
      = Except.error Failure.InvalidInputError ∧
    (ObjectService.CreatePreSignedUploadObject Env.healthy "_tmp" (sampleUpload "c/d.png")
        (BucketService.CreateBucket Env.healthy oddNameCreate emptyState).2).1
      = Except.error Failure.InvalidInputError ∧
    (ObjectService.GetObjectById Env.healthy "_tmp" "c/d.png"
        (BucketService.CreateBucket Env.healthy oddNameCreate emptyState).2).1
      = Except.error Failure.InvalidInputError ∧
    validateBucketName "tmp" = false ∧
    (ObjectService.CreatePreSignedUploadObject Env.healthy "tmp" (sampleUpload "c/d.png")
        (BucketService.CreateBucket Env.healthy { oddNameCreate with Name := "tmp" }
          emptyState).2).1
      = Except.ok { Id := "o2", Url := "https://blob.example/up", Method := "PUT",
                    ExpiresAt := 1000 } := by
  refine ⟨by decide, rfl, by decide, rfl, rfl, rfl, by decide, rfl⟩

/-! ## Objects reached through another bucket -/

/-- C26 (the code departs from it): the three operations look the object up by
id alone and never compare its bucket with the resolved one.  Object `o9` of
bucket `docs`, addressed through bucket `pics`: `DeleteObject` deletes the blob
`pics/x.png` and the row of `o9`; `CompletePreSignedObjectUpload` probes
`pics/x.png` and marks `o9` completed; `CreatePreSignedDownloadObject` hands
out a grant for `pics/x.png`.  The read `GetObjectById`, which looks up by
(bucket id, name), does not find the object under `pics`. -/
theorem foreign_object_is_served :
    (foreignObject UploadStatus.Completed).BucketID ≠ sampleBucket.ID ∧
    Resolves Env.healthy (twoBucketState UploadStatus.Completed) "pics" sampleBucket ∧
    ((ObjectService.DeleteObject Env.healthy "pics" "o9"
        (twoBucketState UploadStatus.Completed)).1 = Except.ok () ∧
      (ObjectService.DeleteObject Env.healthy "pics" "o9"
        (twoBucketState UploadStatus.Completed)).2.db.objects = [] ∧
      (ObjectService.DeleteObject Env.healthy "pics" "o9"
        (twoBucketState UploadStatus.Completed)).2.blobs = [("docs", "x.png")] ∧
      newCalls (twoBucketState UploadStatus.Completed)
          (ObjectService.DeleteObject Env.healthy "pics" "o9"
            (twoBucketState UploadStatus.Completed)).2
        = [Call.db DbOp.GetBucketByName "pics", Call.db DbOp.GetObjectById "o9",
           Call.storageDelete "pics" "x.png", Call.db DbOp.DeleteObject "o9",
           Call.db DbOp.Commit ""]) ∧
    ((ObjectService.CompletePreSignedObjectUpload Env.healthy "pics" "o9"
        (twoBucketState UploadStatus.Pending)).1 = Except.ok () ∧
      (ObjectService.CompletePreSignedObjectUpload Env.healthy "pics" "o9"
        (twoBucketState UploadStatus.Pending)).2.db.objects
        = [foreignObject UploadStatus.Completed] ∧
      newCalls (twoBucketState UploadStatus.Pending)
          (ObjectService.CompletePreSignedObjectUpload Env.healthy "pics" "o9"
            (twoBucketState UploadStatus.Pending)).2
        = [Call.db DbOp.GetBucketByName "pics", Call.db DbOp.GetObjectById "o9",
           Call.storageExists "pics" "x.png" (some true),
           Call.db DbOp.UpdateObjectUploadStatus "o9"]) ∧
    ((ObjectService.CreatePreSignedDownloadObject Env.healthy "pics" "o9" 0
        (twoBucketState UploadStatus.Completed)).1
        = Except.ok { Url := "https://blob.example/down", Method := "GET", ExpiresAt := 2000 } ∧
      (ObjectService.CreatePreSignedDownloadObject Env.healthy "pics" "o9" 0
        (twoBucketState UploadStatus.Completed)).2.db.objects
        = [{ foreignObject UploadStatus.Completed with LastAccessedAt := some 500 }] ∧
      newCalls (twoBucketState UploadStatus.Completed)
          (ObjectService.CreatePreSignedDownloadObject Env.healthy "pics" "o9" 0
            (twoBucketState UploadStatus.Completed)).2
        = [Call.db DbOp.GetBucketByName "pics", Call.db DbOp.GetObjectById "o9",
           Call.storageDownload "pics" "x.png", Call.db DbOp.UpdateObjectLastAccessedAt "o9",
           Call.db DbOp.Commit ""]) ∧
    (ObjectService.GetObjectById Env.healthy "pics" "x.png"
        (twoBucketState UploadStatus.Completed)).1 = Except.error Failure.NotFoundError := by
  refine ⟨by decide, by decide, ⟨rfl, rfl, rfl, ?_⟩, ⟨rfl, rfl, ?_⟩, ⟨rfl, rfl, ?_⟩, rfl⟩
  · decide
  · decide
  · decide

end Storage
